import Mathlib

/-!
# BCON adapter for Zynq: buffer pool, capture queues, trailer decoding

A shallow embedding of `package/libbconadapterzynq` (`MyBconAdapterZynqStream.h`,
`MyBconAdapterZynqStream.cpp`, `MyBconAdapterZynqMemoryMMAP.cpp`, `MyBconAdapterLogging.c`) and of
the command-line parser of `package/bconctl` (`bconctlCommandLineParser.h`,
`bconctlCommandLineParser.cpp`).

Conventions of the embedding.

* A `StreamData*` that `LookupStream` found is a value of `StreamData`; every API function is the
  body of its `pStream != NULL` branch, taking the session and returning the new one.
* `std::list<BufferContextData*>` holds pointers into `bufferContexts`; a pointer is the index of
  the element it points to.  Dereferencing a pointer whose index is outside the vector, indexing
  a vector out of range, dividing by zero and copying to `NULL` or with a negative length are
  undefined in C++: functions that can do so return `Option`, and `none` is that outcome.
* Pointers and `size_t` are 32 bits wide (the NEON copy loop is ARM32 assembly); `0` is `NULL`.
* The caller's memory is a byte map `Mem` by address; the memory-mapped device buffers are a
  second, read-only byte map.  Multi-byte loads are little-endian (the ARM core of the Zynq).
* Replies of the kernel (`ioctl`, `mmap`) are arguments of the function that issues the request.
* `StreamData.events` is a ghost field: the device requests issued and the ready-callback
  invocations made so far, in order.  The callback itself is user code and is not executed.
-/

namespace BconAdapterZynq

/-! ## Constants -/

/-- Status constants and the `BCON_ERROR` test of `bconadapter/BconAdapterDefines.h`.  The header
belongs to the vendor SDK and is not part of the repository, so its values are a parameter of the
development.  A `BCONSTATUS` is the 32-bit pattern of the value. -/
structure BconDefines where
  BCON_OK : Nat
  BCON_S_ALREADY_CREATED : Nat
  BCON_E_INVALID_HANDLE : Nat
  BCON_E_INVALID_PARAMETER : Nat
  BCON_E_OPERATION_FAILED : Nat
  BCON_E_NOT_FOUND : Nat
  BCON_E_READ_FAILED : Nat
  BCON_E_WRITE_FAILED : Nat
  BCON_E_BUFFER_ALREADY_REGISTERED : Nat
  BCON_E_BUFFER_ALREADY_QUEUED : Nat
  BCON_E_BUFFER_STILL_QUEUED : Nat
  BCON_E_NO_BUFFER_AVAILABLE : Nat
  BCON_E_BUFFER_INCOMPLETE : Nat
  BCON_E_BUFFER_CANCELLED : Nat
  BCON_E_CUSTOM : Nat
  BCON_ERROR : Nat → Bool

/-- One assignment of pairwise different values to the status constants, used where a statement
is evaluated on a concrete session.  Error codes have the top bit set and `BCON_ERROR` tests it. -/
def sampleDefines : BconDefines where
  BCON_OK := 0
  BCON_S_ALREADY_CREATED := 1
  BCON_E_INVALID_HANDLE := 0xE0000001
  BCON_E_INVALID_PARAMETER := 0xE0000002
  BCON_E_OPERATION_FAILED := 0xE0000003
  BCON_E_NOT_FOUND := 0xE0000004
  BCON_E_READ_FAILED := 0xE0000005
  BCON_E_WRITE_FAILED := 0xE0000006
  BCON_E_BUFFER_ALREADY_REGISTERED := 0xE0000007
  BCON_E_BUFFER_ALREADY_QUEUED := 0xE0000008
  BCON_E_BUFFER_STILL_QUEUED := 0xE0000009
  BCON_E_NO_BUFFER_AVAILABLE := 0xE000000A
  BCON_E_BUFFER_INCOMPLETE := 0xE000000B
  BCON_E_BUFFER_CANCELLED := 0xE000000C
  BCON_E_CUSTOM := 0xE1000000
  BCON_ERROR := fun st => decide (2 ^ 31 ≤ st)

/-- Number of extra image lines that carry the trailer. -/
def TrailerExtraLines : Nat := 4

/-- Trailer format version, `0x00010000`. -/
def TrailerVersion : Nat := 0x00010000

/-- Trailer magic, `0x52544758`. -/
def TrailerMagic : Nat := 0x52544758

/-- Largest value of `uint64_t`. -/
def UINT64_MAX : Nat := 2 ^ 64 - 1

/-- Largest value of `uintptr_t` on the 32-bit target. -/
def UINTPTR_MAX : Nat := 2 ^ 32 - 1

/-- Value of `(void*)-1`, the failure result of `mmap`. -/
def MAP_FAILED : Nat := 2 ^ 32 - 1

/-! ## Data model -/

/-- Byte-addressed memory. -/
abbrev Mem := Nat → Nat

/-- The `struct ImageTrailer` of `MyBconAdapterZynqStream.h`. -/
structure ImageTrailer where
  magic : Nat
  version : Nat
  status : Nat
  pixelFormat : Nat
  blockId : Nat
  timeStamp : Nat
deriving DecidableEq

/-- The `struct BufferContextData` of `MyBconAdapterZynqStream.h`. -/
structure BufferContextData where
  status : Nat
  pBuffer : Nat
  bufferSize : Nat
  userContext : Nat
  queued : Bool
  trailer : ImageTrailer
deriving DecidableEq

/-- The method `BufferContextData::Clear`; the trailer is not touched. -/
def BufferContextData.Clear (K : BconDefines) (d : BufferContextData) : BufferContextData :=
  { d with status := K.BCON_E_BUFFER_CANCELLED, pBuffer := 0, bufferSize := 0,
           userContext := 0, queued := false }

/-- The method `BufferContextData::OnBeforeQueue`. -/
def BufferContextData.OnBeforeQueue (K : BconDefines) (d : BufferContextData) :
    BufferContextData :=
  { d with status := K.BCON_E_BUFFER_CANCELLED, queued := true }

/-- The method `BufferContextData::OnDeQueue`. -/
def BufferContextData.OnDeQueue (K : BconDefines) (d : BufferContextData) : BufferContextData :=
  { d with status := K.BCON_E_BUFFER_CANCELLED, queued := false }

/-- The constructor `BufferContextData()`: it runs `Clear` and leaves the trailer member
uninitialised, so the trailer of a new element is whatever `t` the storage held. -/
def BufferContextData.construct (K : BconDefines) (t : ImageTrailer) : BufferContextData :=
  BufferContextData.Clear K
    { status := 0, pBuffer := 0, bufferSize := 0, userContext := 0, queued := false,
      trailer := t }

/-- The `struct V4L2Buffer`: one memory-mapped device buffer. -/
structure V4L2Buffer where
  start : Nat
  length : Nat
deriving DecidableEq

/-- Requests sent to the capture device and its sub-device. -/
inductive DeviceRequest where
  | VIDIOC_G_FMT
  | VIDIOC_S_FMT
  | VIDIOC_SUBDEV_S_FMT
  | VIDIOC_REQBUFS
  | VIDIOC_QBUF
  | VIDIOC_DQBUF
  | VIDIOC_STREAMON
  | VIDIOC_STREAMOFF
  | mmap
deriving DecidableEq

/-- Externally visible actions of a session, recorded in `StreamData.events`. -/
inductive Event where
  | ioctl (request : DeviceRequest)
  | callback (numReady : Nat)
deriving DecidableEq

/-- The `struct StreamData`.  The defaults are the values set by its constructor.  The mutex
and the condition variable have no counterpart; `pumpThread` is zero until a thread has been
created; `events` is the ghost trace. -/
structure StreamData where
  bufferContexts : List BufferContextData := []
  inputQueue : List Nat := []
  outputQueue : List Nat := []
  deviceID : String := ""
  width : Nat := 0
  height : Nat := 0
  pixelFormatPfncValue : Nat := 0
  pixelsPerClockCycle : Nat := 0
  payloadSize : Nat := 0
  nBuffers : Nat := 0
  pumpThread : Nat := 0
  pumpThreadRun : Bool := false
  streamBufferReadyCallback : Nat := 0
  streamBufferReadyCallbackContext : Nat := 0
  myHandle : Nat := 0
  v4l2StreamingEnabled : Bool := false
  fdV4L2 : Int := -1
  fdVsrc : Int := -1
  v4l2Buffers : List V4L2Buffer := []
  events : List Event := []
deriving DecidableEq

/-- Record a device request in the ghost trace. -/
def StreamData.request (s : StreamData) (r : DeviceRequest) : StreamData :=
  { s with events := s.events ++ [Event.ioctl r] }

/-- The statement `if (streamBufferReadyCallback) streamBufferReadyCallback(myHandle,
outputQueue.size(), context)`: the invocation is recorded with its count argument. -/
def StreamData.notifyReady (s : StreamData) : StreamData :=
  if s.streamBufferReadyCallback ≠ 0 then
    { s with events := s.events ++ [Event.callback s.outputQueue.length] }
  else s

/-- The fields of `BconGrabResult` (declared in the vendor header `BconAdapterTypes.h`) that
`BconAdapterStreamRetrieveResult` assigns. -/
structure BconGrabResult where
  hBuffer : Nat
  pBuffer : Nat
  userContext : Nat
  payloadType : Nat
  blockId : Nat
  timeStamp : Nat
  pixelFormat : Nat
  sizeX : Nat
  sizeY : Nat
  offsetX : Nat
  offsetY : Nat
  paddingX : Nat
  paddingY : Nat
  payloadSize : Nat
  errorCode : Nat
deriving DecidableEq

/-- Result of one `xioctl` call: the return value and the `errno` left behind. -/
structure XioctlReply where
  ret : Int
  errno : Nat
deriving DecidableEq

/-! ## Handles and status conversion -/

/-- The macro `IndexToBufferHandle(idx)`: `idx + 1U`.  An index into the slot vector is far below
`2^32 - 1`, so the addition does not wrap. -/
def IndexToBufferHandle (idx : Nat) : Nat := idx + 1

/-- The macro `BufferHandleToIndex(hdl)`: `(uintptr_t)hdl - 1U` in 32-bit unsigned arithmetic,
so the `NULL` handle gives `UINTPTR_MAX`. -/
def BufferHandleToIndex (hdl : Nat) : Nat := (hdl + UINTPTR_MAX) % 2 ^ 32

/-- The function `BconStatusFromErrno` of `MyBconAdapterLogging.c`. -/
def BconStatusFromErrno (K : BconDefines) (error : Nat) : Nat :=
  if error = 0 then K.BCON_OK else K.BCON_E_CUSTOM ||| (error &&& 0x7fff)

/-- The function `BconStatusToErrno` of `MyBconAdapterLogging.c`. -/
def BconStatusToErrno (K : BconDefines) (status : Nat) : Nat :=
  if status = K.BCON_OK then 0 else status &&& 0x7fff

/-! ## Copying the payload -/

/-- Read one byte. -/
def readByte (m : Mem) (a : Nat) : Nat := m a % 256

/-- A `memcpy` of a `uint32_t` out of memory on the little-endian target. -/
def loadLE32 (m : Mem) (a : Nat) : Nat :=
  readByte m a + 2 ^ 8 * readByte m (a + 1) + 2 ^ 16 * readByte m (a + 2)
    + 2 ^ 24 * readByte m (a + 3)

/-- A `memcpy` of a `uint64_t` out of memory on the little-endian target. -/
def loadLE64 (m : Mem) (a : Nat) : Nat :=
  loadLE32 m a + 2 ^ 32 * loadLE32 m (a + 4)

/-- Memory `mem` after the `n` bytes of `dev` from address `src` on have been stored at the
addresses from `dst` on. -/
def copied (mem : Mem) (dst : Nat) (dev : Mem) (src : Nat) (n : Nat) : Mem :=
  fun a => if dst ≤ a ∧ a < dst + n then readByte dev (src + (a - dst)) else mem a

/-- The library `memcpy(dst, src, n)` from the device mapping `dev` into the caller memory `mem`.
Copying to `NULL` is undefined. -/
def memcpy (mem : Mem) (dst : Nat) (dev : Mem) (src : Nat) (n : Nat) : Option Mem :=
  if dst = 0 then none else some (copied mem dst dev src n)

/-- The assembly loop `NEONCopy` of `memcpy_neon`: load 128 bytes with `VLDM src!`, store them
with `VSTM dst!`, subtract 128 from the counter, branch back while the counter is positive.
The result carries the three read-write operands `dst`, `src`, `size_aligned` as the loop leaves
them.  The first argument bounds the number of iterations. -/
def NEONCopy : Nat → Mem → Mem → Nat → Nat → Int → Option (Mem × Nat × Nat × Int)
  | 0, _, _, _, _, _ => none
  | fuel + 1, dev, mem, dst, src, size =>
    match memcpy mem dst dev src 128 with
    | none => none
    | some mem1 =>
      if size - 128 > 0 then NEONCopy fuel dev mem1 (dst + 128) (src + 128) (size - 128)
      else some (mem1, dst + 128, src + 128, size - 128)

/-- The function `memcpy_neon(dst, src, size)` with `int size`.  `size & 127` on a two's
complement `int` is the remainder `size % 128` with a non-negative result.  A negative length
given to `memcpy` converts to a huge `size_t`, and a tail copy placed before `dst` leaves the
buffer: both are undefined. -/
def memcpy_neon (mem : Mem) (dst : Nat) (dev : Mem) (src : Nat) (size : Int) : Option Mem :=
  if src &&& 7 ≠ 0 ∨ dst &&& 7 ≠ 0 then
    if size < 0 then none else memcpy mem dst dev src size.toNat
  else
    let rest : Int := size % 128
    let size_aligned : Int := size - rest
    let afterAsm : Option (Mem × Nat × Nat × Int) :=
      if size_aligned ≥ 128 then NEONCopy size_aligned.toNat dev mem dst src size_aligned
      else some (mem, dst, src, size_aligned)
    match afterAsm with
    | none => none
    | some (mem1, dst1, src1, size_aligned1) =>
      if rest ≠ 0 then
        if (dst1 : Int) + size_aligned1 < 0 ∨ (src1 : Int) + size_aligned1 < 0 then none
        else memcpy mem1 ((dst1 : Int) + size_aligned1).toNat dev
               ((src1 : Int) + size_aligned1).toNat rest.toNat
      else some mem1

/-- Conversion of a 32-bit unsigned value to `int`. -/
def toInt32 (n : Nat) : Int :=
  if n % 2 ^ 32 < 2 ^ 31 then ((n % 2 ^ 32 : Nat) : Int) else ((n % 2 ^ 32 : Nat) : Int) - 2 ^ 32

/-! ## Trailer decoding and device completion -/

/-- The trailer decoding of `DequeueV4L2Buffer` (the statements from `struct ImageTrailer trailer
= { 0 }` to the end of the `if (trailerOk)` statement): `src` is the start of the device buffer,
`bytesPerLine` the `uint32_t` of that name. -/
def decodeTrailer (K : BconDefines) (dev : Mem) (src payloadSize bytesPerLine : Nat) :
    ImageTrailer :=
  let pMagic := src + payloadSize
  let pVersion := pMagic + 4
  let pStatus := src + payloadSize + bytesPerLine
  let pPixelFormat := pStatus + 4
  let pBlockId := src + payloadSize + (2 * bytesPerLine) % 2 ^ 32
  let pTimeStamp := src + payloadSize + (3 * bytesPerLine) % 2 ^ 32
  let magic := loadLE32 dev pMagic
  let version := if magic ≠ TrailerMagic then 0 else loadLE32 dev pVersion
  let trailerOk : Bool :=
    if magic ≠ TrailerMagic then false
    else if version ≠ TrailerVersion then false else true
  if trailerOk then
    { magic := magic, version := version,
      status := loadLE32 dev pStatus, pixelFormat := loadLE32 dev pPixelFormat,
      blockId := loadLE64 dev pBlockId, timeStamp := loadLE64 dev pTimeStamp }
  else
    { magic := magic, version := version,
      status := K.BCON_E_BUFFER_INCOMPLETE, pixelFormat := 2 ^ 32 - 1,
      blockId := UINT64_MAX, timeStamp := 0 }

/-- The local `bytesPerLine` of `DequeueV4L2Buffer`: `payloadSize / height` stored in a
`uint32_t`.  The division is evaluated only when `height` is not zero. -/
def bytesPerLineOf (payloadSize height : Nat) : Nat := (payloadSize / height) % 2 ^ 32

/-- The length `v4l2Buf.bytesused - (TrailerExtraLines * bytesPerLine)` that `DequeueV4L2Buffer`
passes to `memcpy_neon`: a difference of `uint32_t` values, converted to `int`. -/
def payloadCopySize (bytesused bytesPerLine : Nat) : Int :=
  toInt32 (bytesused + 2 ^ 32 - (TrailerExtraLines * bytesPerLine) % 2 ^ 32)

/-- What the kernel delivers to one call of `DequeueV4L2Buffer`: the reply to `VIDIOC_DQBUF` with
the `index` and `bytesused` it fills in, the contents `dev` of the device mappings at that time,
and the reply to the `VIDIOC_QBUF` that recycles the buffer. -/
structure DequeueReply where
  dqbuf : XioctlReply
  index : Nat
  bytesused : Nat
  dev : Mem
  qbuf : XioctlReply

/-- The function `DequeueV4L2Buffer` of `MyBconAdapterZynqMemoryMMAP.cpp`.  Returns the `int`
result, the session and the caller memory. -/
def DequeueV4L2Buffer (K : BconDefines) (s : StreamData) (mem : Mem) (io : DequeueReply) :
    Option (Int × StreamData × Mem) :=
  let s1 := s.request DeviceRequest.VIDIOC_DQBUF
  if io.dqbuf.ret < 0 then some (io.dqbuf.ret, s1, mem)
  else
    let moved : Option (StreamData × Mem) :=
      match s1.inputQueue with
      | [] => some (s1, mem)
      | front :: rest =>
        match s1.bufferContexts[front]?, s1.v4l2Buffers[io.index]? with
        | some pData, some vbuf =>
          if s1.height = 0 then none
          else
            let src := vbuf.start
            let bytesPerLine := bytesPerLineOf s1.payloadSize s1.height
            let trailer := decodeTrailer K io.dev src s1.payloadSize bytesPerLine
            match memcpy_neon mem pData.pBuffer io.dev src
                (payloadCopySize io.bytesused bytesPerLine) with
            | none => none
            | some mem1 =>
              some ({ s1 with
                        inputQueue := rest
                        outputQueue := s1.outputQueue ++ [front]
                        bufferContexts := s1.bufferContexts.set front
                          { pData with queued := false, trailer := trailer,
                                       status := trailer.status } }, mem1)
        | _, _ => none
    match moved with
    | none => none
    | some (s2, mem2) => some (io.qbuf.ret, s2.request DeviceRequest.VIDIOC_QBUF, mem2)

/-- The function `QueueV4L2Buffer`: nothing to do in memory-mapped mode. -/
def QueueV4L2Buffer (_s : StreamData) (_index : Nat) : Int := 0

/-! ## Flush, queue, retrieve -/

/-- The `while (!inputQueue.empty())` loop of `BconAdapterStreamFlushBuffersImpl`, on the pending
queue, the slot vector and the ready queue. -/
def flushLoop (flushReturnStatus : Nat) :
    List Nat → List BufferContextData → List Nat → Option (List BufferContextData × List Nat)
  | [], ctxs, out => some (ctxs, out)
  | front :: rest, ctxs, out =>
    match ctxs[front]? with
    | none => none
    | some d =>
      flushLoop flushReturnStatus rest
        (ctxs.set front { d with status := flushReturnStatus }) (out ++ [front])

/-- The function `BconAdapterStreamFlushBuffersImpl`. -/
def BconAdapterStreamFlushBuffersImpl (K : BconDefines) (s : StreamData)
    (flushReturnStatus : Nat) : Option (Nat × StreamData) :=
  match flushLoop flushReturnStatus s.inputQueue s.bufferContexts s.outputQueue with
  | none => none
  | some (ctxs, out) =>
    let s1 := { s with bufferContexts := ctxs, inputQueue := [], outputQueue := out }
    let s2 := if s1.streamBufferReadyCallback ≠ 0 ∧ s1.outputQueue ≠ [] then s1.notifyReady else s1
    some (K.BCON_OK, s2)

/-- The function `BconAdapterStreamFlushBuffers`. -/
def BconAdapterStreamFlushBuffers (K : BconDefines) (s : StreamData) : Option (Nat × StreamData) :=
  BconAdapterStreamFlushBuffersImpl K s K.BCON_E_BUFFER_CANCELLED

/-- The function `BconAdapterStreamQueueBuffer`; `streamOn` is the reply to `VIDIOC_STREAMON`
should the function issue it. -/
def BconAdapterStreamQueueBuffer (K : BconDefines) (s : StreamData) (hBuffer context : Nat)
    (streamOn : XioctlReply) : Option (Nat × StreamData) :=
  let index := BufferHandleToIndex hBuffer
  if index ≥ s.nBuffers then some (K.BCON_OK, s)
  else
    match s.bufferContexts[index]? with
    | none => none
    | some d =>
      if d.pBuffer = 0 then some (K.BCON_E_INVALID_HANDLE, s)
      else if d.queued then some (K.BCON_E_BUFFER_ALREADY_QUEUED, s)
      else
        let s1 := { s with
          bufferContexts := s.bufferContexts.set index
            (BufferContextData.OnBeforeQueue K { d with userContext := context })
          inputQueue := s.inputQueue ++ [index] }
        if QueueV4L2Buffer s1 index < 0 then some (BconStatusFromErrno K 0, s1)
        else if ¬ s1.v4l2StreamingEnabled then
          let s2 := s1.request DeviceRequest.VIDIOC_STREAMON
          if streamOn.ret < 0 then some (BconStatusFromErrno K streamOn.errno, s2)
          else some (K.BCON_OK, { s2 with v4l2StreamingEnabled := true })
        else some (K.BCON_OK, s1)

/-- The function `BconAdapterStreamRetrieveResult`.  The two flags say whether `pGrabResult` and
`pNumBuffersLeft` are non-null; the results are the status, the session, the grab result written
and the count written. -/
def BconAdapterStreamRetrieveResult (K : BconDefines) (s : StreamData)
    (pGrabResult pNumBuffersLeft : Bool) :
    Option (Nat × StreamData × Option BconGrabResult × Option Nat) :=
  if ¬ pGrabResult then some (K.BCON_E_INVALID_PARAMETER, s, none, none)
  else
    match s.outputQueue with
    | [] => some (K.BCON_E_NO_BUFFER_AVAILABLE, s, none, none)
    | front :: rest =>
      match s.bufferContexts[front]? with
      | none => none
      | some d =>
        let result : BconGrabResult :=
          { hBuffer := IndexToBufferHandle front, pBuffer := d.pBuffer
            userContext := d.userContext, payloadType := 0x0001
            blockId := d.trailer.blockId, timeStamp := d.trailer.timeStamp
            pixelFormat := d.trailer.pixelFormat, sizeX := s.width, sizeY := s.height
            offsetX := 0, offsetY := 0, paddingX := 0, paddingY := 0
            payloadSize := s.payloadSize, errorCode := d.status }
        let s1 := { s with
          bufferContexts := s.bufferContexts.set front (BufferContextData.OnDeQueue K d)
          outputQueue := rest }
        let s2 := s1.notifyReady
        some (K.BCON_OK, s2, some result,
              if pNumBuffersLeft then some s2.outputQueue.length else none)

/-! ## Registration -/

/-- The second loop of `BconAdapterStreamRegisterBuffer`: the first element without memory gets
`pBuffer` and `bufferSize`; the result is its index and the new vector. -/
def claimFirstFree (pBuffer bufferSize : Nat) :
    List BufferContextData → Option (Nat × List BufferContextData)
  | [] => none
  | d :: ds =>
    if d.pBuffer = 0 then some (0, { d with pBuffer := pBuffer, bufferSize := bufferSize } :: ds)
    else
      match claimFirstFree pBuffer bufferSize ds with
      | none => none
      | some (idx, ds1) => some (idx + 1, d :: ds1)

/-- The function `BconAdapterStreamRegisterBuffer`; the third component is the value written to
`*phBuffer`, if any. -/
def BconAdapterStreamRegisterBuffer (K : BconDefines) (s : StreamData) (pBuffer bufferSize : Nat) :
    Nat × StreamData × Option Nat :=
  if ∃ d ∈ s.bufferContexts, d.pBuffer = pBuffer then
    (K.BCON_E_BUFFER_ALREADY_REGISTERED, s, none)
  else
    match claimFirstFree pBuffer bufferSize s.bufferContexts with
    | some (idx, ctxs) =>
      (K.BCON_OK, { s with bufferContexts := ctxs }, some (IndexToBufferHandle idx))
    | none => (K.BCON_E_OPERATION_FAILED, s, none)

/-- The function `BconAdapterStreamDeregisterBuffer`; `ppBuffer` says whether the output pointer
is non-null, the third component is the value written through it, if any. -/
def BconAdapterStreamDeregisterBuffer (K : BconDefines) (s : StreamData) (hBuffer : Nat)
    (ppBuffer : Bool) : Nat × StreamData × Option Nat :=
  let index := BufferHandleToIndex hBuffer
  if index ≥ s.bufferContexts.length then (K.BCON_E_INVALID_HANDLE, s, none)
  else
    match s.bufferContexts[index]? with
    | none => (K.BCON_E_INVALID_HANDLE, s, none)
    | some d =>
      if d.pBuffer = 0 then (K.BCON_E_INVALID_HANDLE, s, none)
      else if d.queued then (K.BCON_E_BUFFER_STILL_QUEUED, s, none)
      else
        (K.BCON_OK,
         { s with bufferContexts := s.bufferContexts.set index (BufferContextData.Clear K d) },
         if ppBuffer then some d.pBuffer else none)

/-! ## Format negotiation and prepare -/

/-- The function `BconAdapterStreamCalculateGrabberParams`: status and the value of
`*grabberWidth` afterwards. -/
def BconAdapterStreamCalculateGrabberParams (K : BconDefines)
    (grabberWidth cameraWidth pixelFormatPfncValue : Nat) : Nat × Nat :=
  let bitsPerPixel := (pixelFormatPfncValue >>> 16) &&& 0xFF
  if bitsPerPixel > 48 then (K.BCON_E_INVALID_PARAMETER, grabberWidth)
  else
    let bytesPerPixel := (bitsPerPixel + 4) / 8
    (K.BCON_OK, (cameraWidth * bytesPerPixel) % 2 ^ 32)

/-- Reply of the capture device to `VIDIOC_S_FMT`: the format as the driver adjusted it. -/
structure SetFormatReply where
  reply : XioctlReply
  width : Nat
  height : Nat
  sizeimage : Nat
deriving DecidableEq

/-- The function `BconAdapterStreamConfigureStreamingParameters`; the third component is the
value written to `*payloadSizeOut`, if any. -/
def BconAdapterStreamConfigureStreamingParameters (K : BconDefines) (s : StreamData)
    (width height pixelFormatPfncValue _clockFrequency pixelsPerClockCycle : Nat)
    (getFmt : XioctlReply) (setFmt : SetFormatReply) (subdevFmt : SetFormatReply) :
    Nat × StreamData × Option Nat :=
  let (status, grabberWidth) :=
    BconAdapterStreamCalculateGrabberParams K 0 width pixelFormatPfncValue
  if K.BCON_ERROR status then (status, s, none)
  else
    let s1 := s.request DeviceRequest.VIDIOC_G_FMT
    if getFmt.ret < 0 then (BconStatusFromErrno K getFmt.errno, s1, none)
    else
      let s2 := s1.request DeviceRequest.VIDIOC_S_FMT
      if setFmt.reply.ret < 0 then (BconStatusFromErrno K setFmt.reply.errno, s2, none)
      else
        let s3 := s2.request DeviceRequest.VIDIOC_SUBDEV_S_FMT
        if subdevFmt.reply.ret < 0 then (BconStatusFromErrno K subdevFmt.reply.errno, s3, none)
        else
          let payloadSize :=
            (setFmt.sizeimage + 2 ^ 32 - (TrailerExtraLines * grabberWidth) % 2 ^ 32) % 2 ^ 32
          (K.BCON_OK,
           { s3 with width := width, height := height
                     pixelFormatPfncValue := pixelFormatPfncValue
                     payloadSize := payloadSize
                     pixelsPerClockCycle := pixelsPerClockCycle },
           some payloadSize)

/-- Reply of the capture device to `VIDIOC_REQBUFS`, with the buffer count it granted. -/
structure ReqBufsReply where
  reply : XioctlReply
  count : Nat
deriving DecidableEq

/-- Replies for one device buffer in `PrepareV4L2Buffer`: to its `VIDIOC_QBUF` (with the length
filled in) and to its `mmap` (`start` is `MAP_FAILED` on failure). -/
structure MapReply where
  qbuf : XioctlReply
  length : Nat
  start : Nat
  mmapErrno : Nat
deriving DecidableEq

/-- The `resize` of `std::vector<V4L2Buffer>`: shrink, or grow with zeroed elements. -/
def resizeV4L2Buffers (v : List V4L2Buffer) (n : Nat) : List V4L2Buffer :=
  v.take n ++ List.replicate (n - v.length) { start := 0, length := 0 }

/-- The `for` loop of `PrepareV4L2Buffer`, from buffer `i`, with `todo = count - i` buffers to
go: the `int` result, the `errno` left behind and the session. -/
def prepareLoop (maps : Nat → MapReply) :
    Nat → Nat → Int → Nat → StreamData → Int × Nat × StreamData
  | 0, _, ret, errno, s => (ret, errno, s)
  | todo + 1, i, _, _, s =>
    let m := maps i
    let s1 := s.request DeviceRequest.VIDIOC_QBUF
    if m.qbuf.ret < 0 then (m.qbuf.ret, m.qbuf.errno, s1)
    else
      let s2 := { s1.request DeviceRequest.mmap with
        v4l2Buffers := s1.v4l2Buffers.set i { start := m.start, length := m.length } }
      if m.start = MAP_FAILED then (-1, m.mmapErrno, s2)
      else prepareLoop maps todo (i + 1) m.qbuf.ret m.qbuf.errno s2

/-- The function `PrepareV4L2Buffer` of `MyBconAdapterZynqMemoryMMAP.cpp`: the `int` result, the
`errno` left behind and the session. -/
def PrepareV4L2Buffer (s : StreamData) (numBuffers : Nat) (req : ReqBufsReply)
    (maps : Nat → MapReply) : Int × Nat × StreamData :=
  let s1 := s.request DeviceRequest.VIDIOC_REQBUFS
  if req.reply.ret < 0 then (req.reply.ret, req.reply.errno, s1)
  else
    let s2 := { s1 with nBuffers := numBuffers
                        v4l2Buffers := resizeV4L2Buffers s1.v4l2Buffers req.count }
    prepareLoop maps req.count 0 req.reply.ret req.reply.errno s2

/-- The function `BconAdapterStreamPrepareGrab`.  `storage i` is the indeterminate trailer of the
`i`-th element that `resize` constructs. -/
def BconAdapterStreamPrepareGrab (K : BconDefines) (s : StreamData) (maxNumBuffer : Nat)
    (req : ReqBufsReply) (maps : Nat → MapReply) (storage : Nat → ImageTrailer) :
    Nat × StreamData :=
  let s1 := { s with v4l2StreamingEnabled := false, bufferContexts := [] }
  let (ret, errno, s2) := PrepareV4L2Buffer s1 maxNumBuffer req maps
  if ret < 0 then (BconStatusFromErrno K errno, s2)
  else
    let resized := (List.range s2.nBuffers).map (fun i => BufferContextData.construct K (storage i))
    (K.BCON_OK,
     { s2 with bufferContexts := resized.map (BufferContextData.Clear K)
               inputQueue := [], outputQueue := [] })

/-! ## The pump thread -/

/-- One pass through the body of the second `while` loop of `PumpThread`, entered after the test
of `pumpThreadRun`.  The flag in the result says whether the loop goes on (`false` after
`break`). -/
def PumpThreadBody (K : BconDefines) (s : StreamData) (mem : Mem) (io : DequeueReply) :
    Option (Bool × StreamData × Mem) :=
  match DequeueV4L2Buffer K s mem io with
  | none => none
  | some (ret, s1, mem1) =>
    if ret < 0 then
      match BconAdapterStreamFlushBuffersImpl K s1 K.BCON_E_BUFFER_INCOMPLETE with
      | none => none
      | some (_, s2) => some (false, s2, mem1)
    else some (true, s1.notifyReady, mem1)

/-- The function `BconAdapterStreamStartStreaming`; `thread` is the handle `pthread_create`
stores and `createRet`, `createErrno` its result. -/
def BconAdapterStreamStartStreaming (K : BconDefines) (s : StreamData) (thread : Nat)
    (createRet : Int) (createErrno : Nat) : Nat × StreamData :=
  let s1 := { s with pumpThreadRun := true, pumpThread := thread }
  if createRet < 0 then (BconStatusFromErrno K createErrno, s1)
  else (K.BCON_OK, s1)

/-- The function `BconAdapterStreamStopStreaming` in the schedule in which the pump thread is
blocked in the `VIDIOC_DQBUF` of `DequeueV4L2Buffer` when the function is entered.  `streamOff`
is the reply to `VIDIOC_STREAMOFF`; `inFlight` is what the blocked call of the pump thread
receives afterwards.  `pthread_join` returns when the pump thread has finished that pass through
its loop body and has left the loop at the test of `pumpThreadRun`. -/
def BconAdapterStreamStopStreaming (K : BconDefines) (s : StreamData) (mem : Mem)
    (streamOff : XioctlReply) (inFlight : DequeueReply) : Option (Nat × StreamData × Mem) :=
  let s1 := { s with pumpThreadRun := false }
  if s1.pumpThread ≠ 0 then
    let afterLock : Nat ⊕ StreamData :=
      if s1.v4l2StreamingEnabled then
        let s2 := s1.request DeviceRequest.VIDIOC_STREAMOFF
        if streamOff.ret < 0 then Sum.inl (BconStatusFromErrno K streamOff.errno)
        else Sum.inr { s2 with v4l2StreamingEnabled := false }
      else Sum.inr s1
    match afterLock with
    | Sum.inl status => some (status, s1.request DeviceRequest.VIDIOC_STREAMOFF, mem)
    | Sum.inr s3 =>
      match PumpThreadBody K s3 mem inFlight with
      | none => none
      | some (_, s4, mem4) => some (K.BCON_OK, s4, mem4)
  else some (K.BCON_OK, s1, mem)

/-! ## Sequences of calls -/

/-- One step of a session: a call of the public interface with the replies of the device, or
one pass of the pump thread that takes a device completion. -/
inductive ApiCall where
  | registerBuffer (pBuffer bufferSize : Nat)
  | deregisterBuffer (hBuffer : Nat) (ppBuffer : Bool)
  | queueBuffer (hBuffer context : Nat) (streamOn : XioctlReply)
  | deviceCompletion (io : DequeueReply)
  | flushBuffers
  | retrieveResult (pGrabResult pNumBuffersLeft : Bool)

/-- What a step returns to its caller. -/
inductive Outcome where
  | registered (status : Nat) (phBuffer : Option Nat)
  | deregistered (status : Nat) (ppBuffer : Option Nat)
  | queued (status : Nat)
  | completed (running : Bool)
  | flushed (status : Nat)
  | retrieved (status : Nat) (result : Option BconGrabResult) (numBuffersLeft : Option Nat)

/-- Run one step on a session and the caller memory. -/
def step (K : BconDefines) (s : StreamData) (mem : Mem) :
    ApiCall → Option (Outcome × StreamData × Mem)
  | ApiCall.registerBuffer pBuffer bufferSize =>
    let r := BconAdapterStreamRegisterBuffer K s pBuffer bufferSize
    some (Outcome.registered r.1 r.2.2, r.2.1, mem)
  | ApiCall.deregisterBuffer hBuffer ppBuffer =>
    let r := BconAdapterStreamDeregisterBuffer K s hBuffer ppBuffer
    some (Outcome.deregistered r.1 r.2.2, r.2.1, mem)
  | ApiCall.queueBuffer hBuffer context streamOn =>
    (BconAdapterStreamQueueBuffer K s hBuffer context streamOn).map
      (fun r => (Outcome.queued r.1, r.2, mem))
  | ApiCall.deviceCompletion io =>
    (PumpThreadBody K s mem io).map (fun r => (Outcome.completed r.1, r.2.1, r.2.2))
  | ApiCall.flushBuffers =>
    (BconAdapterStreamFlushBuffers K s).map (fun r => (Outcome.flushed r.1, r.2, mem))
  | ApiCall.retrieveResult pGrabResult pNumBuffersLeft =>
    (BconAdapterStreamRetrieveResult K s pGrabResult pNumBuffersLeft).map
      (fun r => (Outcome.retrieved r.1 r.2.2.1 r.2.2.2, r.2.1, mem))

/-- One executed step: the session before, the call, what it returned, the session after. -/
structure Transition where
  before : StreamData
  call : ApiCall
  outcome : Outcome
  after : StreamData

/-- Run a sequence of steps; the result is the list of executed steps and the final session and
memory, or `none` when a step has undefined behaviour. -/
def run (K : BconDefines) : StreamData → Mem → List ApiCall →
    Option (List Transition × StreamData × Mem)
  | s, mem, [] => some ([], s, mem)
  | s, mem, c :: cs =>
    match step K s mem c with
    | none => none
    | some (o, s1, mem1) =>
      match run K s1 mem1 cs with
      | none => none
      | some (ts, s2, mem2) =>
        some ({ before := s, call := c, outcome := o, after := s1 } :: ts, s2, mem2)

/-- The handles that `queueBuffer` calls appended to the pending queue, in order: a call counts
when the pending queue is one entry longer after it. -/
def queuedHandles : List Transition → List Nat
  | [] => []
  | t :: ts =>
    match t.call with
    | ApiCall.queueBuffer hBuffer _ _ =>
      if t.after.inputQueue.length = t.before.inputQueue.length + 1 then
        IndexToBufferHandle (BufferHandleToIndex hBuffer) :: queuedHandles ts
      else queuedHandles ts
    | _ => queuedHandles ts

/-- The buffer handles that `retrieveResult` calls returned, in order. -/
def retrievedHandles : List Transition → List Nat
  | [] => []
  | t :: ts =>
    match t.outcome with
    | Outcome.retrieved _ (some result) _ => result.hBuffer :: retrievedHandles ts
    | _ => retrievedHandles ts

/-- The steps that `run` executed, empty when the run is undefined. -/
def executed (K : BconDefines) (s : StreamData) (mem : Mem) (calls : List ApiCall) :
    List Transition :=
  match run K s mem calls with
  | some r => r.1
  | none => []

/-! ## The device side of the trailer

The camera writes the trailer into the four extra lines of the frame.  These definitions follow
the wording of the specification, not the source: they are the encoder against which the decoder
of `DequeueV4L2Buffer` is checked. -/

/-- Store a 32-bit value at address `a`, least significant byte first. -/
def storeLE32 (m : Mem) (a v : Nat) : Mem :=
  fun x => if a ≤ x ∧ x < a + 4 then (v / 2 ^ (8 * (x - a))) % 256 else m x

/-- Store a 64-bit value at address `a`, least significant byte first. -/
def storeLE64 (m : Mem) (a v : Nat) : Mem :=
  fun x => if a ≤ x ∧ x < a + 8 then (v / 2 ^ (8 * (x - a))) % 256 else m x

/-- A frame at `src` after writing, in this order, magic and version at offsets `payloadSize` and
`payloadSize + 4`, status and pixel format at `payloadSize + bytesPerLine` and `+ 4`, the block
id at `payloadSize + 2 * bytesPerLine` and the timestamp at `payloadSize + 3 * bytesPerLine`. -/
def writeTrailer (frame : Mem) (src payloadSize bytesPerLine : Nat)
    (status pixelFormat blockId timeStamp : Nat) : Mem :=
  let f1 := storeLE32 frame (src + payloadSize) TrailerMagic
  let f2 := storeLE32 f1 (src + payloadSize + 4) TrailerVersion
  let f3 := storeLE32 f2 (src + payloadSize + bytesPerLine) status
  let f4 := storeLE32 f3 (src + payloadSize + bytesPerLine + 4) pixelFormat
  let f5 := storeLE64 f4 (src + payloadSize + 2 * bytesPerLine) blockId
  storeLE64 f5 (src + payloadSize + 3 * bytesPerLine) timeStamp

/-! ## Sample sessions -/

/-- A successful `xioctl`. -/
def okReply : XioctlReply := { ret := 0, errno := 0 }

/-- A trailer of zeros, for storage that was zeroed. -/
def zeroTrailer : ImageTrailer :=
  { magic := 0, version := 0, status := 0, pixelFormat := 0, blockId := 0, timeStamp := 0 }

/-- A session configured for two lines of eight bytes. -/
def configuredSession : StreamData :=
  { width := 8, height := 2, pixelFormatPfncValue := 0x01080001, payloadSize := 16 }

/-- The device grants one buffer. -/
def sampleReqBufs : ReqBufsReply := { reply := okReply, count := 1 }

/-- Every device buffer has 48 bytes and is mapped at `0x10000`. -/
def sampleMaps : Nat → MapReply :=
  fun _ => { qbuf := okReply, length := 48, start := 0x10000, mmapErrno := 0 }

/-- The configured session after `BconAdapterStreamPrepareGrab` for two buffers. -/
def preparedSession : StreamData :=
  (BconAdapterStreamPrepareGrab sampleDefines configuredSession 2 sampleReqBufs sampleMaps
    (fun _ => zeroTrailer)).2

/-- The prepared session after registering buffers of 16 bytes at `0x1000` and `0x2000`. -/
def sampleSession : StreamData :=
  (BconAdapterStreamRegisterBuffer sampleDefines
    (BconAdapterStreamRegisterBuffer sampleDefines preparedSession 0x1000 16).2.1 0x2000 16).2.1

/-- A device completion that delivers a frame with a valid trailer. -/
def sampleCompletion (status blockId timeStamp : Nat) : DequeueReply :=
  { dqbuf := okReply, index := 0, bytesused := 48
    dev := writeTrailer (fun _ => 0) 0x10000 16 8 status 0x01080001 blockId timeStamp
    qbuf := okReply }

/-- Two buffers queued in the order 1, 2, both completed with a valid trailer and retrieved. -/
def sampleCalls : List ApiCall :=
  [ApiCall.queueBuffer 1 7 okReply, ApiCall.queueBuffer 2 9 okReply,
   ApiCall.deviceCompletion (sampleCompletion 0 1 100),
   ApiCall.deviceCompletion (sampleCompletion 0 2 200),
   ApiCall.retrieveResult true true, ApiCall.retrieveResult true true]

/-- A completed buffer is queued again before it is retrieved. -/
def requeueCalls : List ApiCall :=
  [ApiCall.queueBuffer 1 7 okReply, ApiCall.deviceCompletion (sampleCompletion 0 1 100),
   ApiCall.queueBuffer 1 8 okReply]

/-- A buffer is queued and the session is flushed. -/
def flushCalls : List ApiCall := [ApiCall.queueBuffer 1 7 okReply, ApiCall.flushBuffers]

/-- A slot with registered memory at `p`, idle. -/
def sampleSlot (p size : Nat) : BufferContextData :=
  { BufferContextData.construct sampleDefines zeroTrailer with pBuffer := p, bufferSize := size }

/-- The sample session after `queueBuffer(1)` with context 7. -/
def queuedSession : StreamData :=
  match BconAdapterStreamQueueBuffer sampleDefines sampleSession 1 7 okReply with
  | some r => r.2
  | none => sampleSession

/-- Slot 0 of `queuedSession`. -/
def queuedSlot : BufferContextData :=
  BufferContextData.OnBeforeQueue sampleDefines { sampleSlot 0x1000 16 with userContext := 7 }

/-- A device completion that delivers a frame of zeros: no magic. -/
def blankCompletion : DequeueReply :=
  { dqbuf := okReply, index := 0, bytesused := 48, dev := fun _ => 0, qbuf := okReply }

/-- The reply of the capture device to `VIDIOC_S_FMT` for 1600 x 1204 at one byte per pixel: the
format is accepted with the four trailer lines, `sizeimage = 1600 * (1204 + 4)`. -/
def captureSetFmt : SetFormatReply :=
  { reply := okReply, width := 1600, height := 1208, sizeimage := 1600 * (1204 + 4) }

/-- A device completion for the 1600 x 1204 session: a frame whose pixel bytes are `a % 251` at
address `a` and whose trailer carries status 0, block id 42 and timestamp 1000. -/
def captureCompletion : DequeueReply :=
  { dqbuf := okReply, index := 0, bytesused := 1926400 + 4 * 1600
    dev := writeTrailer (fun a => a % 251) 0x10000 1926400 1600 0 0x01080001 42 1000
    qbuf := okReply }

/-- The sample session after `BconAdapterStreamStartStreaming` and `queueBuffer(1)`: the pump
thread runs, the device streams, slot 0 is pending. -/
def streamingSession : StreamData :=
  match BconAdapterStreamQueueBuffer sampleDefines
      (BconAdapterStreamStartStreaming sampleDefines sampleSession 1 0 0).2 1 7 okReply with
  | some r => r.2
  | none => sampleSession

/-- The reply to a `VIDIOC_DQBUF` that fails with `EINVAL` (22) after stream-off. -/
def abortedDequeue : DequeueReply :=
  { dqbuf := { ret := -1, errno := 22 }, index := 0, bytesused := 0, dev := fun _ => 0
    qbuf := okReply }

/-- A completed buffer is deregistered before it is retrieved, then retrieved. -/
def deregisterCompletedCalls : List ApiCall :=
  [ApiCall.queueBuffer 1 7 okReply, ApiCall.deviceCompletion (sampleCompletion 0 1 100),
   ApiCall.deregisterBuffer 1 true, ApiCall.retrieveResult true true]

/-- The status a step returned, with the pointer a deregistration wrote or the handle and the
pointer of a retrieved grab result. -/
def outcomeSummary : Outcome → Option Nat × Option Nat × Option Nat
  | Outcome.deregistered st p => (some st, p, none)
  | Outcome.retrieved st r _ => (some st, r.map (fun g => g.hBuffer), r.map (fun g => g.pBuffer))
  | Outcome.registered st h => (some st, h, none)
  | Outcome.queued st => (some st, none, none)
  | Outcome.flushed st => (some st, none, none)
  | Outcome.completed _ => (none, none, none)

/-! ## The registry of sessions -/

/-- The globals `g_nextStreamHandle` and `g_theStreams` of `MyBconAdapterZynqStream.cpp`.  The
`std::map` is the list of its entries in the order of the keys. -/
structure Registry where
  g_nextStreamHandle : Nat := 1
  g_theStreams : List (Nat × StreamData) := []
deriving DecidableEq

/-- The `insert` of `std::map`: the entry goes before the first larger key and is dropped when
the key is present. -/
def mapInsert (key : Nat) (value : StreamData) : List (Nat × StreamData) → List (Nat × StreamData)
  | [] => [(key, value)]
  | e :: es =>
    if key < e.1 then (key, value) :: e :: es
    else if key = e.1 then e :: es
    else e :: mapInsert key value es

/-- The function `BconAdapterStreamCreate`; the third component is the value written to
`*pHandle`.  The new session is `StreamData(handle)`: the constructor sets `myHandle` and leaves
`deviceID` the empty string. -/
def BconAdapterStreamCreate (K : BconDefines) (g : Registry) (pDeviceID : String) :
    Nat × Registry × Option Nat :=
  match g.g_theStreams.find? (fun e => e.2.deviceID == pDeviceID) with
  | some e => (K.BCON_S_ALREADY_CREATED, g, some e.1)
  | none =>
    (K.BCON_OK,
     { g_theStreams := mapInsert g.g_nextStreamHandle { myHandle := g.g_nextStreamHandle }
         g.g_theStreams
       g_nextStreamHandle := g.g_nextStreamHandle + 1 },
     some g.g_nextStreamHandle)

/-- The function `LookupStream`. -/
def LookupStream (g : Registry) (handle : Nat) : Option StreamData :=
  (g.g_theStreams.find? (fun e => e.1 == handle)).map (fun e => e.2)

/-- The registry when the library is loaded. -/
def emptyRegistry : Registry := {}

/-- The sample session with slots 0 and 1 in the ready queue and a ready-callback registered. -/
def readySession : StreamData :=
  { sampleSession with outputQueue := [0, 1], streamBufferReadyCallback := 0x4000 }

/-! ## Bytes per pixel in the words of the specification -/

/-- The bytes per pixel as the specification words it: the smallest whole number of bytes that
holds `b` bits.  This definition follows the specification, not the source. -/
def specBytesPerPixel (b : Nat) : Nat := (b + 7) / 8

/-! ## Status messages -/

/-- The value of `EINVAL` in `errno.h` on Linux. -/
def EINVAL : Nat := 22

/-- What one call of the C library function `strerror_r` does: the bytes it stores from the start
of the buffer it is given, and the value of `errno` after the call (the caller sets `errno` to zero
before). -/
structure StrerrorReply where
  written : List Nat
  errno : Nat
deriving DecidableEq

/-- The C library function `strlen` on the contents of a character array that holds a NUL: the
number of bytes before the first NUL. -/
def strlen (a : List Nat) : Nat := (a.takeWhile (fun c => c % 256 ≠ 0)).length

/-- The C library function `strncpy(dst, src, n)` into the caller memory: exactly `n` bytes are
stored, the bytes of the string in `src`, followed by NULs when the string is shorter than `n`. -/
def strncpy (mem : Mem) (dst : Nat) (src : List Nat) (n : Nat) : Mem :=
  fun a =>
    if dst ≤ a ∧ a < dst + n then
      (if a - dst < strlen src then src.getD (a - dst) 0 % 256 else 0)
    else mem a

/-- The local array `errorMessageBuffer` of `BconAdapterGetStatusMessage` after the call of
`strerror_r`: 2048 bytes, zeroed by `memset`, of which the call was offered the first 2047. -/
def errorMessageBuffer (reply : StrerrorReply) : List Nat :=
  (reply.written.take 2047 ++ List.replicate 2048 0).take 2048

/-- The function `BconAdapterGetStatusMessage` of `MyBconAdapterLogging.c`.  `libc` is the C
library: its reply to `strerror_r` for an error number.  `pRequiredSize` says whether that pointer
is non-null; the results are the status, the caller memory and the value written to
`*pRequiredSize`, if any. -/
def BconAdapterGetStatusMessage (K : BconDefines) (statusToDecode : Nat) (mem : Mem)
    (pBuffer bufferSize : Nat) (pRequiredSize : Bool) (libc : Nat → StrerrorReply) :
    Nat × Mem × Option Nat :=
  let errnum := BconStatusToErrno K statusToDecode
  let reply := libc errnum
  if reply.errno = EINVAL then (K.BCON_E_NOT_FOUND, mem, none)
  else
    let errorMessageLength := strlen (errorMessageBuffer reply)
    let required := if pRequiredSize then some (errorMessageLength + 1) else none
    if pBuffer ≠ 0 ∧ bufferSize ≠ 0 then
      let mem1 :=
        strncpy mem pBuffer (errorMessageBuffer reply) (min bufferSize errorMessageLength)
      (K.BCON_OK, fun a => if a = pBuffer + (bufferSize - 1) then 0 else mem1 a, required)
    else (K.BCON_OK, mem, required)

/-- The NUL-terminated string found at address `p`, reading at most `limit` bytes. -/
def cstring (mem : Mem) (p : Nat) : Nat → List Nat
  | 0 => []
  | limit + 1 =>
    if readByte mem p = 0 then [] else readByte mem p :: cstring mem (p + 1) limit

/-- The bytes of the text "No such file or directory". -/
def sampleMessage : List Nat :=
  [78, 111, 32, 115, 117, 99, 104, 32, 102, 105, 108, 101, 32, 111, 114, 32, 100, 105, 114, 101,
   99, 116, 111, 114, 121]

/-- A C library that knows the error number 2 (`ENOENT`) and no other. -/
def sampleStrerror : Nat → StrerrorReply :=
  fun e => if e = 2 then { written := sampleMessage ++ [0], errno := 0 }
           else { written := [], errno := EINVAL }

/-! ## The command line of `bconctl`

An embedding of `CBconCtlCommandLineParser::ParseCommandLine` of
`package/bconctl/bconctlCommandLineParser.cpp`.  A C string is the list of its characters; `argv`
is the list of the `argc` arguments, the program name first.  The help texts of the tables play no
part in parsing and are left out. -/

/-- The `enum EBconCtlCommand`. -/
inductive EBconCtlCommand where
  | BconCtlCommand_Unknown
  | BconCtlCommand_Version
  | BconCtlCommand_Help
  | BconCtlCommand_Config
  | BconCtlCommand_Led0
  | BconCtlCommand_Led1
  | BconCtlCommand_Led2
  | BconCtlCommand_Power
  | BconCtlCommand_Reset
  | BconCtlCommand_Trggen
deriving DecidableEq

/-- The `enum EBconCtlSubCommand`. -/
inductive EBconCtlSubCommand where
  | BconCtlSubCommand_Unknown
  | BconCtlSubCommand_On
  | BconCtlSubCommand_Off
  | BconCtlSubCommand_I2CId
deriving DecidableEq

/-- The `enum EBconCtlOption`. -/
inductive EBconCtlOption where
  | BconCtlOption_Unknown
  | BconCtlOption_Help
  | BconCtlOption_NoLogo
  | BconCtlOption_Quiet
  | BconCtlOption_Version
  | BconCtlOption_Pulse
deriving DecidableEq

/-- The `enum EBconCtlErrorState`. -/
inductive EBconCtlErrorState where
  | BconCtlErrorState_OK
  | BconCtlErrorState_OptionParamMissing
  | BconCtlErrorState_UnknownOption
  | BconCtlErrorState_UnknownCommand
  | BconCtlErrorState_UnknownSubCommand
deriving DecidableEq

/-- The `enum EBconCtlOptionForm`; the enumerators have the values 0, 1 and 2. -/
inductive EBconCtlOptionForm where
  | OptionForm_None
  | OptionForm_Short
  | OptionForm_Long
deriving DecidableEq

/-- The numeric value of an `EBconCtlOptionForm`. -/
def EBconCtlOptionForm.value : EBconCtlOptionForm → Nat
  | OptionForm_None => 0
  | OptionForm_Short => 1
  | OptionForm_Long => 2

/-- The `struct OptionDescription`; a null `const char*` is `none`. -/
structure OptionDescription where
  stringLong : Option String
  stringShort : Option String
  enumVal : EBconCtlOption
  additionalOptionParamsFollowing : Int
deriving DecidableEq

/-- The table `m_optionDescriptions`. -/
def m_optionDescriptions : List OptionDescription :=
  [{ stringLong := some "help", stringShort := some "h"
     enumVal := EBconCtlOption.BconCtlOption_Help, additionalOptionParamsFollowing := 0 },
   { stringLong := some "no-logo", stringShort := none
     enumVal := EBconCtlOption.BconCtlOption_NoLogo, additionalOptionParamsFollowing := 0 },
   { stringLong := some "quiet", stringShort := some "q"
     enumVal := EBconCtlOption.BconCtlOption_Quiet, additionalOptionParamsFollowing := 0 },
   { stringLong := some "version", stringShort := none
     enumVal := EBconCtlOption.BconCtlOption_Version, additionalOptionParamsFollowing := 0 },
   { stringLong := some "pulse", stringShort := some "p"
     enumVal := EBconCtlOption.BconCtlOption_Pulse, additionalOptionParamsFollowing := 1 }]

/-- The `struct SubCommandDescription`. -/
structure SubCommandDescription where
  string : String
  enumVal : EBconCtlSubCommand
  additionalSubCommandParamsFollowing : Int
deriving DecidableEq

/-- The table `m_subCommandDescriptions`. -/
def m_subCommandDescriptions : List SubCommandDescription :=
  [{ string := "on", enumVal := EBconCtlSubCommand.BconCtlSubCommand_On
     additionalSubCommandParamsFollowing := 0 },
   { string := "off", enumVal := EBconCtlSubCommand.BconCtlSubCommand_Off
     additionalSubCommandParamsFollowing := 0 },
   { string := "i2c_id", enumVal := EBconCtlSubCommand.BconCtlSubCommand_I2CId
     additionalSubCommandParamsFollowing := 1 }]

/-- The `struct CommandDescription`: the name, the command, the sub-commands and the options it
knows (the entries before the first `Unknown` of the arrays). -/
structure CommandDescription where
  string : String
  enumVal : EBconCtlCommand
  knownSubCommands : List EBconCtlSubCommand
  knownCommandOptions : List EBconCtlOption
deriving DecidableEq

/-- The table `m_commandDescriptions`. -/
def m_commandDescriptions : List CommandDescription :=
  [{ string := "version", enumVal := EBconCtlCommand.BconCtlCommand_Version
     knownSubCommands := []
     knownCommandOptions := [EBconCtlOption.BconCtlOption_Help] },
   { string := "help", enumVal := EBconCtlCommand.BconCtlCommand_Help
     knownSubCommands := []
     knownCommandOptions := [EBconCtlOption.BconCtlOption_Help] },
   { string := "config", enumVal := EBconCtlCommand.BconCtlCommand_Config
     knownSubCommands := [EBconCtlSubCommand.BconCtlSubCommand_I2CId]
     knownCommandOptions := [EBconCtlOption.BconCtlOption_Help,
       EBconCtlOption.BconCtlOption_NoLogo, EBconCtlOption.BconCtlOption_Quiet] },
   { string := "led0", enumVal := EBconCtlCommand.BconCtlCommand_Led0
     knownSubCommands := [EBconCtlSubCommand.BconCtlSubCommand_On,
       EBconCtlSubCommand.BconCtlSubCommand_Off]
     knownCommandOptions := [EBconCtlOption.BconCtlOption_Help,
       EBconCtlOption.BconCtlOption_NoLogo, EBconCtlOption.BconCtlOption_Quiet] },
   { string := "led1", enumVal := EBconCtlCommand.BconCtlCommand_Led1
     knownSubCommands := [EBconCtlSubCommand.BconCtlSubCommand_On,
       EBconCtlSubCommand.BconCtlSubCommand_Off]
     knownCommandOptions := [EBconCtlOption.BconCtlOption_Help,
       EBconCtlOption.BconCtlOption_NoLogo, EBconCtlOption.BconCtlOption_Quiet] },
   { string := "led2", enumVal := EBconCtlCommand.BconCtlCommand_Led2
     knownSubCommands := [EBconCtlSubCommand.BconCtlSubCommand_On,
       EBconCtlSubCommand.BconCtlSubCommand_Off]
     knownCommandOptions := [EBconCtlOption.BconCtlOption_Help,
       EBconCtlOption.BconCtlOption_NoLogo, EBconCtlOption.BconCtlOption_Quiet] },
   { string := "power", enumVal := EBconCtlCommand.BconCtlCommand_Power
     knownSubCommands := [EBconCtlSubCommand.BconCtlSubCommand_On,
       EBconCtlSubCommand.BconCtlSubCommand_Off]
     knownCommandOptions := [EBconCtlOption.BconCtlOption_Help,
       EBconCtlOption.BconCtlOption_NoLogo, EBconCtlOption.BconCtlOption_Quiet] },
   { string := "reset", enumVal := EBconCtlCommand.BconCtlCommand_Reset
     knownSubCommands := []
     knownCommandOptions := [EBconCtlOption.BconCtlOption_Help] },
   { string := "trggen", enumVal := EBconCtlCommand.BconCtlCommand_Trggen
     knownSubCommands := [EBconCtlSubCommand.BconCtlSubCommand_On,
       EBconCtlSubCommand.BconCtlSubCommand_Off]
     knownCommandOptions := [EBconCtlOption.BconCtlOption_Help,
       EBconCtlOption.BconCtlOption_NoLogo, EBconCtlOption.BconCtlOption_Quiet,
       EBconCtlOption.BconCtlOption_Pulse] }]

/-- The table `m_errorDescriptions`. -/
def m_errorDescriptions : List (EBconCtlErrorState × String) :=
  [(EBconCtlErrorState.BconCtlErrorState_OptionParamMissing, "parameter missing for option"),
   (EBconCtlErrorState.BconCtlErrorState_UnknownOption, "unknown option"),
   (EBconCtlErrorState.BconCtlErrorState_UnknownCommand, "unknown command"),
   (EBconCtlErrorState.BconCtlErrorState_UnknownSubCommand, "unknown subcommand")]

/-- The `struct ErrorInfo`. -/
structure ErrorInfo where
  errorState : EBconCtlErrorState := EBconCtlErrorState.BconCtlErrorState_OK
  errorDescription : String := ""
  errorArg : String := ""
deriving DecidableEq

/-- The method `ErrorInfo::set` for a state other than `BconCtlErrorState_OK`; every such state
has an entry in `m_errorDescriptions`. -/
def ErrorInfo.set (info : ErrorInfo) (state : EBconCtlErrorState) (arg : String) : ErrorInfo :=
  match m_errorDescriptions.find? (fun e => e.1 = state) with
  | some e => { errorState := state, errorDescription := e.2, errorArg := arg }
  | none => info

/-- The `struct SubCommand`: the sub-command found and its parameter. -/
structure SubCommand where
  enumVal : EBconCtlSubCommand := EBconCtlSubCommand.BconCtlSubCommand_Unknown
  parameter : String := ""
deriving DecidableEq

/-- The `struct Option` of the parser: an option found, its form and its parameter. -/
structure ParsedOption where
  enumVal : EBconCtlOption
  form : EBconCtlOptionForm
  parameter : String
deriving DecidableEq

/-- The data members of `class CBconCtlCommandLineParser`, with the values `Reset` gives them. -/
structure CBconCtlCommandLineParser where
  m_command : EBconCtlCommand := EBconCtlCommand.BconCtlCommand_Unknown
  m_subCommand : SubCommand := {}
  m_options : List ParsedOption := []
  m_errorInfo : ErrorInfo := {}
deriving DecidableEq

/-- The method `Reset`. -/
def CBconCtlCommandLineParser.Reset (_p : CBconCtlCommandLineParser) :
    CBconCtlCommandLineParser := {}

/-- The method `IsEqualStringIgnoreCase`. -/
def IsEqualStringIgnoreCase (pa pb : List Char) : Bool :=
  if pb.length ≠ pa.length then false
  else (pa.zip pb).all (fun c => c.1.toLower = c.2.toLower)

/-- The method `GetOptionForm`: the form and the value stored in `prefixSize`. -/
def GetOptionForm (arg : List Char) : EBconCtlOptionForm × Nat :=
  if arg.length > 2 ∧ arg.take 2 = ['-', '-'] then (EBconCtlOptionForm.OptionForm_Long, 2)
  else if arg.length > 1 ∧ arg.take 1 = ['-'] then (EBconCtlOptionForm.OptionForm_Short, 1)
  else (EBconCtlOptionForm.OptionForm_None, 0)

/-- The method `GetBconCtlCommand`. -/
def GetBconCtlCommand (commandString : List Char) : EBconCtlCommand :=
  match m_commandDescriptions.find?
      (fun d => IsEqualStringIgnoreCase commandString d.string.toList) with
  | some d => d.enumVal
  | none => EBconCtlCommand.BconCtlCommand_Unknown

/-- The `for` loop over `m_optionDescriptions` in `ParseCommandLine` up to the test of
`knownOptionFound`: the description at which the loop finds the option, if any.  The flag is
`false` whenever an iteration starts, since the loop is left as soon as it is `true`. -/
def findOptionDescription (optionPrefixLength : Nat) (optionNameBegin : List Char) :
    List OptionDescription → Option OptionDescription
  | [] => none
  | d :: ds =>
    let knownOptionFound : Bool :=
      if optionPrefixLength = EBconCtlOptionForm.OptionForm_Short.value ∧
          d.stringShort ≠ none then
        IsEqualStringIgnoreCase optionNameBegin ((d.stringShort.getD "").toList)
      else if optionPrefixLength = EBconCtlOptionForm.OptionForm_Long.value ∧
          d.stringLong ≠ none then
        IsEqualStringIgnoreCase optionNameBegin ((d.stringLong.getD "").toList)
      else false
    if knownOptionFound then some d
    else findOptionDescription optionPrefixLength optionNameBegin ds

/-- The loop "check if option is already set, then overwrite it", followed by the `push_back`
when no entry was overwritten. -/
def storeOption (option : ParsedOption) : List ParsedOption → List ParsedOption
  | [] => [option]
  | o :: os => if o.enumVal = option.enumVal then option :: os else o :: storeOption option os

/-- The loop "check for help or version option with no command": the command of the first such
option and the options without it. -/
def promoteOption : List ParsedOption → Option (EBconCtlCommand × List ParsedOption)
  | [] => none
  | o :: os =>
    if o.enumVal = EBconCtlOption.BconCtlOption_Help ∨
        o.enumVal = EBconCtlOption.BconCtlOption_Version then
      some (if o.enumVal = EBconCtlOption.BconCtlOption_Version then
              EBconCtlCommand.BconCtlCommand_Version
            else EBconCtlCommand.BconCtlCommand_Help, os)
    else (promoteOption os).map (fun r => (r.1, o :: r.2))

/-- The `while (i < argc)` loop of `ParseCommandLine` on the arguments `argv[i]`, ...,
`argv[argc - 1]` still to be read.  The result is `false` with the parser state where the source
returns `false`, and `true` with the state when the loop ends. -/
def parseArguments : List String → Bool → CBconCtlCommandLineParser →
    Bool × CBconCtlCommandLineParser
  | [], _, p => (true, p)
  | currentArg :: rest, knownCommandFound, p =>
    let optionForm := (GetOptionForm currentArg.toList).1
    let optionPrefixLength := (GetOptionForm currentArg.toList).2
    if optionForm = EBconCtlOptionForm.OptionForm_Short ∨
        optionForm = EBconCtlOptionForm.OptionForm_Long then
      match findOptionDescription optionPrefixLength (currentArg.toList.drop optionPrefixLength)
          m_optionDescriptions with
      | some d =>
        if d.additionalOptionParamsFollowing = 1 then
          match rest with
          | [] =>
            (false,
             { p with
               m_errorInfo :=
                 p.m_errorInfo.set EBconCtlErrorState.BconCtlErrorState_OptionParamMissing
                   currentArg })
          | parameter :: rest1 =>
            parseArguments rest1 knownCommandFound
              { p with
                m_options :=
                  storeOption { enumVal := d.enumVal, form := optionForm, parameter := parameter }
                    p.m_options }
        else
          parseArguments rest knownCommandFound
            { p with
              m_options :=
                storeOption { enumVal := d.enumVal, form := optionForm, parameter := "" }
                  p.m_options }
      | none =>
        (false,
             { p with
               m_errorInfo :=
                 p.m_errorInfo.set EBconCtlErrorState.BconCtlErrorState_UnknownOption
                   currentArg })
    else if ¬ knownCommandFound then
      let p1 := { p with m_command := GetBconCtlCommand currentArg.toList }
      if p1.m_command = EBconCtlCommand.BconCtlCommand_Unknown then
        (false,
             { p1 with
               m_errorInfo :=
                 p1.m_errorInfo.set EBconCtlErrorState.BconCtlErrorState_UnknownCommand
                   currentArg })
      else parseArguments rest true p1
    else
      match m_subCommandDescriptions.find?
          (fun d => IsEqualStringIgnoreCase currentArg.toList d.string.toList) with
      | some d =>
        if d.additionalSubCommandParamsFollowing = 1 then
          match rest with
          | [] =>
            parseArguments [] knownCommandFound
              { p with m_subCommand := { p.m_subCommand with enumVal := d.enumVal } }
          | parameter :: rest1 =>
            parseArguments rest1 knownCommandFound
              { p with m_subCommand := { enumVal := d.enumVal, parameter := parameter } }
        else
          parseArguments rest knownCommandFound
            { p with m_subCommand := { p.m_subCommand with enumVal := d.enumVal } }
      | none =>
        (false,
             { p with
               m_errorInfo :=
                 p.m_errorInfo.set EBconCtlErrorState.BconCtlErrorState_UnknownSubCommand
                   currentArg })

/-- The method `ParseCommandLine`: the result and the parser afterwards. -/
def CBconCtlCommandLineParser.ParseCommandLine (p : CBconCtlCommandLineParser)
    (argv : List String) : Bool × CBconCtlCommandLineParser :=
  let p0 := p.Reset
  if argv.length = 1 then (true, { p0 with m_command := EBconCtlCommand.BconCtlCommand_Help })
  else
    match parseArguments (argv.drop 1) false p0 with
    | (false, p1) => (false, p1)
    | (true, p1) =>
      if p1.m_command = EBconCtlCommand.BconCtlCommand_Unknown then
        match promoteOption p1.m_options with
        | some r => (true, { p1 with m_command := r.1, m_options := r.2 })
        | none => (true, p1)
      else (true, p1)

/-! ## Closing a session -/

/-- The function `BconAdapterStreamClose`. -/
def BconAdapterStreamClose (K : BconDefines) (s : StreamData) : Nat × StreamData :=
  (K.BCON_OK,
   { s with bufferContexts := [], inputQueue := [], outputQueue := [], fdV4L2 := -1
            fdVsrc := -1 })

/-- The device refuses `VIDIOC_REQBUFS` with `ENOMEM` (12). -/
def refusedReqBufs : ReqBufsReply := { reply := { ret := -1, errno := 12 }, count := 0 }

/-- The device grants one buffer whose `mmap` fails with `ENOMEM` (12). -/
def failedMaps : Nat → MapReply :=
  fun _ => { qbuf := okReply, length := 48, start := MAP_FAILED, mmapErrno := 12 }

/-- The sessions reachable from a successful `BconAdapterStreamPrepareGrab` by steps. -/
inductive Reachable (K : BconDefines) : StreamData → Mem → Prop where
  | prepare (s0 : StreamData) (mem : Mem) (maxNumBuffer : Nat) (req : ReqBufsReply)
      (maps : Nat → MapReply) (storage : Nat → ImageTrailer) (s : StreamData)
      (h : BconAdapterStreamPrepareGrab K s0 maxNumBuffer req maps storage = (K.BCON_OK, s))
      (hok : ¬ (PrepareV4L2Buffer { s0 with v4l2StreamingEnabled := false, bufferContexts := [] }
                  maxNumBuffer req maps).1 < 0) :
      Reachable K s mem
  | step (s : StreamData) (mem : Mem) (c : ApiCall) (o : Outcome) (s1 : StreamData) (mem1 : Mem)
      (h : Reachable K s mem) (hstep : step K s mem c = some (o, s1, mem1)) :
      Reachable K s1 mem1

/-! ## Repeated calls -/

/-- Call `BconAdapterStreamQueueBuffer` for each request in turn: a request is the slot index
whose handle is passed, the context and the reply to `VIDIOC_STREAMON`. -/
def queueAll (K : BconDefines) : StreamData → List (Nat × Nat × XioctlReply) → Option StreamData
  | s, [] => some s
  | s, (idx, context, streamOn) :: rest =>
    match BconAdapterStreamQueueBuffer K s (IndexToBufferHandle idx) context streamOn with
    | none => none
    | some (_, s1) => queueAll K s1 rest

/-- Call `BconAdapterStreamRetrieveResult` the given number of times with non-null arguments,
collecting the status and the grab result of each call. -/
def retrieveMany (K : BconDefines) :
    Nat → StreamData → Option (List (Nat × Option BconGrabResult) × StreamData)
  | 0, s => some ([], s)
  | n + 1, s =>
    match BconAdapterStreamRetrieveResult K s true true with
    | none => none
    | some (st, s1, res, _) =>
      match retrieveMany K n s1 with
      | none => none
      | some (rs, s2) => some ((st, res) :: rs, s2)

/-! ## Lemmas on the operations -/


theorem flushLoop_spec (st : Nat) : ∀ (p : List Nat) (ctxs : List BufferContextData)
    (out : List Nat) (ctxs1 : List BufferContextData) (out1 : List Nat),
    flushLoop st p ctxs out = some (ctxs1, out1) →
    out1 = out ++ p ∧ ctxs1.length = ctxs.length ∧
    ∀ i, ctxs1[i]? = (ctxs[i]?).map (fun d => if i ∈ p then { d with status := st } else d) := by
  intro p
  induction p with
  | nil =>
    intro ctxs out ctxs1 out1 h
    simp [flushLoop] at h
    obtain ⟨rfl, rfl⟩ := h
    simp
  | cons front rest ih =>
    intro ctxs out ctxs1 out1 h
    simp only [flushLoop] at h
    split at h
    · simp at h
    · rename_i d hd
      obtain ⟨h1, h2, h3⟩ := ih _ _ _ _ h
      have hlt : front < ctxs.length := by
        rcases Nat.lt_or_ge front ctxs.length with hl | hl
        · exact hl
        · rw [List.getElem?_eq_none hl] at hd; simp at hd
      refine ⟨by simp [h1], by simp [h2], ?_⟩
      intro i
      rw [h3 i]
      by_cases hi : front = i
      · subst hi
        simp [List.getElem?_set_self hlt, hd]
      · rw [List.getElem?_set_ne hi]
        have : (i ∈ front :: rest) ↔ i ∈ rest := by
          simp; intro h; exact absurd h.symm hi
        simp [this]

theorem flushLoop_some (st : Nat) : ∀ (p : List Nat) (ctxs : List BufferContextData)
    (out : List Nat), (∀ i ∈ p, i < ctxs.length) →
    ∃ r, flushLoop st p ctxs out = some r := by
  intro p
  induction p with
  | nil => intro ctxs out _; exact ⟨_, rfl⟩
  | cons front rest ih =>
    intro ctxs out h
    have hlt : front < ctxs.length := h front (by simp)
    simp only [flushLoop, List.getElem?_eq_getElem hlt]
    apply ih
    intro i hi
    simpa using h i (by simp [hi])

theorem queueBuffer_cases (K : BconDefines) (s : StreamData) (h c : Nat) (r : XioctlReply)
    (st : Nat) (s1 : StreamData)
    (hq : BconAdapterStreamQueueBuffer K s h c r = some (st, s1)) :
    s1 = s ∨ ∃ d, s.bufferContexts[BufferHandleToIndex h]? = some d ∧ d.pBuffer ≠ 0 ∧
      d.queued = false ∧ BufferHandleToIndex h < s.nBuffers ∧
      s1.inputQueue = s.inputQueue ++ [BufferHandleToIndex h] ∧
      s1.outputQueue = s.outputQueue ∧
      s1.bufferContexts = s.bufferContexts.set (BufferHandleToIndex h)
        (BufferContextData.OnBeforeQueue K { d with userContext := c }) := by
  unfold BconAdapterStreamQueueBuffer at hq
  simp only [QueueV4L2Buffer, StreamData.request] at hq
  split at hq
  · simp at hq; left; exact hq.2.symm
  · split at hq
    · simp at hq
    · rename_i d hd
      split at hq
      · simp at hq; left; exact hq.2.symm
      · split at hq
        · simp at hq; left; exact hq.2.symm
        · right
          refine ⟨d, hd, by assumption, by simpa using ‹¬ d.queued = true›, by omega, ?_⟩
          simp at hq
          split at hq
          · split at hq <;> (simp at hq; obtain ⟨-, rfl⟩ := hq; simp)
          · simp at hq; obtain ⟨-, rfl⟩ := hq; simp

theorem getElem?_some_lt {α : Type} {l : List α} {i : Nat} {a : α} (h : l[i]? = some a) :
    i < l.length := by
  rcases Nat.lt_or_ge i l.length with hl | hl
  · exact hl
  · rw [List.getElem?_eq_none hl] at h; simp at h

theorem dequeue_cases (K : BconDefines) (s : StreamData) (mem : Mem) (io : DequeueReply)
    (ret : Int) (s1 : StreamData) (mem1 : Mem)
    (h : DequeueV4L2Buffer K s mem io = some (ret, s1, mem1)) :
    (s1.inputQueue = s.inputQueue ∧ s1.outputQueue = s.outputQueue ∧
      s1.bufferContexts = s.bufferContexts ∧ mem1 = mem ∧
      (io.dqbuf.ret < 0 ∧ ret = io.dqbuf.ret ∨ ¬ io.dqbuf.ret < 0 ∧ s.inputQueue = [] ∧
        ret = io.qbuf.ret)) ∨
    ∃ front rest d vbuf, s.inputQueue = front :: rest ∧ s.bufferContexts[front]? = some d ∧
      s.v4l2Buffers[io.index]? = some vbuf ∧ s.height ≠ 0 ∧ ¬ io.dqbuf.ret < 0 ∧
      ret = io.qbuf.ret ∧
      s1.inputQueue = rest ∧ s1.outputQueue = s.outputQueue ++ [front] ∧
      s1.bufferContexts = s.bufferContexts.set front
        { d with queued := false
                 trailer := decodeTrailer K io.dev vbuf.start s.payloadSize (bytesPerLineOf s.payloadSize s.height)
                 status := (decodeTrailer K io.dev vbuf.start s.payloadSize
                   (bytesPerLineOf s.payloadSize s.height)).status } ∧
      memcpy_neon mem d.pBuffer io.dev vbuf.start
        (payloadCopySize io.bytesused (bytesPerLineOf s.payloadSize s.height)) = some mem1 := by
  unfold DequeueV4L2Buffer at h
  simp only [StreamData.request] at h
  split at h
  · simp at h
    obtain ⟨rfl, rfl, rfl⟩ := h
    left; simp [*]
  · rename_i hdq
    cases hq : s.inputQueue with
    | nil =>
      simp [hq] at h
      obtain ⟨rfl, rfl, rfl⟩ := h
      left; simp [hq, hdq]
    | cons front rest =>
      simp only [hq] at h
      right
      cases hd : s.bufferContexts[front]? with
      | none => simp [hd] at h
      | some d =>
        cases hv : s.v4l2Buffers[io.index]? with
        | none => simp [hd, hv] at h
        | some vbuf =>
          simp only [hd, hv] at h
          by_cases hh : s.height = 0
          · simp [hh] at h
          · simp only [hh, if_false] at h
            cases hm : memcpy_neon mem d.pBuffer io.dev vbuf.start
                (payloadCopySize io.bytesused (bytesPerLineOf s.payloadSize s.height)) with
            | none => simp [hm] at h
            | some m =>
              simp only [hm] at h
              simp at h
              obtain ⟨rfl, rfl, rfl⟩ := h
              exact ⟨front, rest, d, vbuf, rfl, hd, rfl, hh, hdq, rfl, rfl, rfl, rfl, hm⟩

theorem flushImpl_cases (K : BconDefines) (s : StreamData) (fs st : Nat) (s1 : StreamData)
    (h : BconAdapterStreamFlushBuffersImpl K s fs = some (st, s1)) :
    st = K.BCON_OK ∧ s1.inputQueue = [] ∧ s1.outputQueue = s.outputQueue ++ s.inputQueue ∧
    s1.bufferContexts.length = s.bufferContexts.length ∧
    ∀ i, s1.bufferContexts[i]? =
      (s.bufferContexts[i]?).map (fun d => if i ∈ s.inputQueue then { d with status := fs } else d) := by
  unfold BconAdapterStreamFlushBuffersImpl at h
  split at h
  · simp at h
  · rename_i ctxs out hf
    obtain ⟨h1, h2, h3⟩ := flushLoop_spec _ _ _ _ _ _ hf
    simp only [StreamData.notifyReady] at h
    simp at h
    obtain ⟨rfl, rfl⟩ := h
    split <;> simp [*]

theorem retrieve_cases (K : BconDefines) (s : StreamData) (g n : Bool) (st : Nat)
    (s1 : StreamData) (res : Option BconGrabResult) (left : Option Nat)
    (h : BconAdapterStreamRetrieveResult K s g n = some (st, s1, res, left)) :
    (s1 = s ∧ res = none ∧ left = none ∧ (g = false ∨ s.outputQueue = [])) ∨
    ∃ front rest d, s.outputQueue = front :: rest ∧ s.bufferContexts[front]? = some d ∧
      st = K.BCON_OK ∧ s1.outputQueue = rest ∧ s1.inputQueue = s.inputQueue ∧
      s1.bufferContexts = s.bufferContexts.set front (BufferContextData.OnDeQueue K d) ∧
      res = some
          { hBuffer := IndexToBufferHandle front, pBuffer := d.pBuffer
            userContext := d.userContext, payloadType := 0x0001
            blockId := d.trailer.blockId, timeStamp := d.trailer.timeStamp
            pixelFormat := d.trailer.pixelFormat, sizeX := s.width, sizeY := s.height
            offsetX := 0, offsetY := 0, paddingX := 0, paddingY := 0
            payloadSize := s.payloadSize, errorCode := d.status } ∧
      left = (if n then some rest.length else none) := by
  unfold BconAdapterStreamRetrieveResult at h
  split at h
  · simp at h
    obtain ⟨rfl, rfl, rfl, rfl⟩ := h
    left; simp_all
  · cases ho : s.outputQueue with
    | nil =>
      simp [ho] at h
      obtain ⟨rfl, rfl, rfl, rfl⟩ := h
      left; simp [ho]
    | cons front rest =>
      simp only [ho] at h
      cases hd : s.bufferContexts[front]? with
      | none => simp [hd] at h
      | some d =>
        simp only [hd, StreamData.notifyReady] at h
        simp at h
        obtain ⟨rfl, rfl, rfl, rfl⟩ := h
        right
        refine ⟨front, rest, d, rfl, hd, rfl, ?_, ?_, ?_, rfl, ?_⟩
        · split <;> rfl
        · split <;> rfl
        · split <;> rfl
        · by_cases hcb : s.streamBufferReadyCallback = 0 <;> simp [hcb]

theorem claimFirstFree_spec (p sz : Nat) : ∀ (l : List BufferContextData) (idx : Nat)
    (l1 : List BufferContextData), claimFirstFree p sz l = some (idx, l1) →
    ∃ d, l[idx]? = some d ∧ d.pBuffer = 0 ∧
      (∀ j, j < idx → ∀ e, l[j]? = some e → e.pBuffer ≠ 0) ∧
      l1 = l.set idx { d with pBuffer := p, bufferSize := sz } := by
  intro l
  induction l with
  | nil => intro idx l1 h; simp [claimFirstFree] at h
  | cons d ds ih =>
    intro idx l1 h
    simp only [claimFirstFree] at h
    split at h
    · simp at h
      obtain ⟨rfl, rfl⟩ := h
      exact ⟨d, by simp, by assumption, by intro j hj; omega, by simp⟩
    · rename_i hne
      split at h
      · simp at h
      · rename_i i ds1 hc
        simp at h
        obtain ⟨rfl, rfl⟩ := h
        obtain ⟨e, h1, h2, h3, h4⟩ := ih _ _ hc
        refine ⟨e, by simpa using h1, h2, ?_, by simp [h4]⟩
        intro j hj e1 he1
        cases j with
        | zero => simp at he1; subst he1; exact hne
        | succ j => simp at he1; exact h3 j (by omega) e1 he1

theorem claimFirstFree_none (p sz : Nat) : ∀ (l : List BufferContextData),
    claimFirstFree p sz l = none ↔ ∀ d ∈ l, d.pBuffer ≠ 0 := by
  intro l
  induction l with
  | nil => simp [claimFirstFree]
  | cons d ds ih =>
    simp only [claimFirstFree]
    split
    · simp [*]
    · rename_i hne
      split
      · rename_i hc
        simpa [hne] using ih.mp hc
      · rename_i i ds1 hc
        simp
        intro _
        by_contra hall
        push_neg at hall
        have := ih.mpr (fun d hd => hall d hd)
        rw [this] at hc; simp at hc

@[simp] theorem notifyReady_inputQueue (s : StreamData) :
    s.notifyReady.inputQueue = s.inputQueue := by
  unfold StreamData.notifyReady; split <;> rfl

@[simp] theorem notifyReady_outputQueue (s : StreamData) :
    s.notifyReady.outputQueue = s.outputQueue := by
  unfold StreamData.notifyReady; split <;> rfl

@[simp] theorem notifyReady_bufferContexts (s : StreamData) :
    s.notifyReady.bufferContexts = s.bufferContexts := by
  unfold StreamData.notifyReady; split <;> rfl

theorem pumpBody_cases (K : BconDefines) (s : StreamData) (mem : Mem) (io : DequeueReply)
    (running : Bool) (s2 : StreamData) (mem2 : Mem)
    (h : PumpThreadBody K s mem io = some (running, s2, mem2)) :
    ∃ ret s1, DequeueV4L2Buffer K s mem io = some (ret, s1, mem2) ∧
      ((ret < 0 ∧ running = false ∧
          ∃ st, BconAdapterStreamFlushBuffersImpl K s1 K.BCON_E_BUFFER_INCOMPLETE = some (st, s2)) ∨
       (¬ ret < 0 ∧ running = true ∧ s2 = s1.notifyReady)) := by
  unfold PumpThreadBody at h
  split at h
  · simp at h
  · rename_i ret s1 mem1 hd
    split at h
    · rename_i hret
      split at h
      · simp at h
      · rename_i st s3 hf
        simp at h
        obtain ⟨rfl, rfl, rfl⟩ := h
        exact ⟨ret, s1, hd, Or.inl ⟨hret, rfl, st, hf⟩⟩
    · rename_i hret
      simp at h
      obtain ⟨rfl, rfl, rfl⟩ := h
      exact ⟨ret, s1, hd, Or.inr ⟨hret, rfl, rfl⟩⟩

theorem register_cases (K : BconDefines) (s : StreamData) (p sz : Nat) :
    ((BconAdapterStreamRegisterBuffer K s p sz).2.1 = s ∧
      (BconAdapterStreamRegisterBuffer K s p sz).2.2 = none) ∨
    ∃ idx d, s.bufferContexts[idx]? = some d ∧ d.pBuffer = 0 ∧
      (∀ e ∈ s.bufferContexts, e.pBuffer ≠ p) ∧
      (∀ j, j < idx → ∀ e, s.bufferContexts[j]? = some e → e.pBuffer ≠ 0) ∧
      BconAdapterStreamRegisterBuffer K s p sz =
        (K.BCON_OK,
         { s with bufferContexts := s.bufferContexts.set idx { d with pBuffer := p, bufferSize := sz } },
         some (IndexToBufferHandle idx)) := by
  unfold BconAdapterStreamRegisterBuffer
  split
  · left; simp
  · rename_i hno
    split
    · rename_i idx ctxs hc
      right
      obtain ⟨d, h1, h2, h3, h4⟩ := claimFirstFree_spec _ _ _ _ _ hc
      refine ⟨idx, d, h1, h2, ?_, h3, by rw [h4]⟩
      intro e he hp
      exact hno ⟨e, he, hp⟩
    · left; simp

theorem deregister_cases (K : BconDefines) (s : StreamData) (h : Nat) (pp : Bool) :
    ((BconAdapterStreamDeregisterBuffer K s h pp).2.1 = s ∧
      (BconAdapterStreamDeregisterBuffer K s h pp).2.2 = none) ∨
    ∃ d, s.bufferContexts[BufferHandleToIndex h]? = some d ∧ d.pBuffer ≠ 0 ∧ d.queued = false ∧
      BconAdapterStreamDeregisterBuffer K s h pp =
        (K.BCON_OK,
         { s with bufferContexts :=
            s.bufferContexts.set (BufferHandleToIndex h) (BufferContextData.Clear K d) },
         if pp then some d.pBuffer else none) := by
  unfold BconAdapterStreamDeregisterBuffer
  simp only
  split
  · left; simp
  · split
    · left; simp
    · rename_i d hd
      split
      · left; simp
      · split
        · left; simp
        · right
          exact ⟨d, hd, by assumption, by simpa using ‹¬ d.queued = true›, rfl⟩

theorem step_completion (K : BconDefines) (s : StreamData) (mem : Mem) (io : DequeueReply)
    (o : Outcome) (s1 : StreamData) (mem1 : Mem)
    (h : step K s mem (ApiCall.deviceCompletion io) = some (o, s1, mem1)) :
    ∃ running, PumpThreadBody K s mem io = some (running, s1, mem1) ∧
      o = Outcome.completed running := by
  simp only [step, Option.map_eq_some'] at h
  obtain ⟨⟨running, s2, m2⟩, hb, heq⟩ := h
  simp only [Option.some.injEq, Prod.mk.injEq] at heq
  obtain ⟨rfl, rfl, rfl⟩ := heq
  exact ⟨running, hb, rfl⟩

theorem step_pipeline (K : BconDefines) (s : StreamData) (mem : Mem) (c : ApiCall)
    (o : Outcome) (s1 : StreamData) (mem1 : Mem) (h : step K s mem c = some (o, s1, mem1)) :
    (s.outputQueue ++ s.inputQueue).map IndexToBufferHandle
        ++ queuedHandles [{ before := s, call := c, outcome := o, after := s1 }]
      = retrievedHandles [{ before := s, call := c, outcome := o, after := s1 }]
        ++ (s1.outputQueue ++ s1.inputQueue).map IndexToBufferHandle := by
  cases c with
  | registerBuffer p sz =>
    simp [step] at h
    obtain ⟨rfl, rfl, rfl⟩ := h
    rcases register_cases K s p sz with ⟨h1, _⟩ | ⟨idx, d, _, _, _, _, h1⟩
    · simp [queuedHandles, retrievedHandles, h1]
    · simp [queuedHandles, retrievedHandles, h1]
  | deregisterBuffer hb pp =>
    simp [step] at h
    obtain ⟨rfl, rfl, rfl⟩ := h
    rcases deregister_cases K s hb pp with ⟨h1, _⟩ | ⟨d, _, _, _, h1⟩
    · simp [queuedHandles, retrievedHandles, h1]
    · simp [queuedHandles, retrievedHandles, h1]
  | queueBuffer hb ctx so =>
    simp [step] at h
    obtain ⟨st, s2, hq, rfl, rfl, rfl⟩ := h
    rcases queueBuffer_cases K s hb ctx so st _ hq with h1 | ⟨d, _, _, _, _, h1, h2, _⟩
    · subst h1; simp [queuedHandles, retrievedHandles]
    · simp [queuedHandles, retrievedHandles, h1, h2]
  | deviceCompletion io =>
    obtain ⟨running, hb, rfl⟩ := step_completion K s mem io o s1 mem1 h
    obtain ⟨ret, s3, hd, hcase⟩ := pumpBody_cases K s mem io running _ _ hb
    have hpipe : s3.outputQueue ++ s3.inputQueue = s.outputQueue ++ s.inputQueue := by
      rcases dequeue_cases K s mem io ret s3 _ hd with ⟨h1, h2, _⟩ |
        ⟨front, rest, d, vbuf, h1, _, _, _, _, _, h2, h3, _⟩
      · rw [h1, h2]
      · rw [h1, h2, h3]; simp
    rcases hcase with ⟨_, _, st, hf⟩ | ⟨_, _, rfl⟩
    · obtain ⟨_, h1, h2, _⟩ := flushImpl_cases K s3 _ st _ hf
      simp only [queuedHandles, retrievedHandles, List.append_nil, List.nil_append]
      rw [h1, h2, List.append_nil, hpipe]
    · have := congrArg (List.map IndexToBufferHandle) hpipe.symm
      simpa [queuedHandles, retrievedHandles] using this
  | flushBuffers =>
    simp [step, BconAdapterStreamFlushBuffers] at h
    obtain ⟨st, s2, hf, rfl, rfl, rfl⟩ := h
    obtain ⟨_, h1, h2, _⟩ := flushImpl_cases K s _ st _ hf
    simp [queuedHandles, retrievedHandles, h1, h2]
  | retrieveResult g n =>
    simp [step] at h
    obtain ⟨st, s2, res, left, hr, rfl, rfl, rfl⟩ := h
    rcases retrieve_cases K s g n st _ res left hr with ⟨rfl, rfl, rfl, _⟩ |
      ⟨front, rest, d, h1, _, _, h2, h3, _, rfl, _⟩
    · simp [queuedHandles, retrievedHandles]
    · simp [queuedHandles, retrievedHandles, h1, h2, h3]

theorem run_pipeline (K : BconDefines) : ∀ (cs : List ApiCall) (s : StreamData) (mem : Mem)
    (ts : List Transition) (s1 : StreamData) (mem1 : Mem),
    run K s mem cs = some (ts, s1, mem1) →
    (s.outputQueue ++ s.inputQueue).map IndexToBufferHandle ++ queuedHandles ts
      = retrievedHandles ts ++ (s1.outputQueue ++ s1.inputQueue).map IndexToBufferHandle := by
  intro cs
  induction cs with
  | nil =>
    intro s mem ts s1 mem1 h
    simp [run] at h
    obtain ⟨rfl, rfl, rfl⟩ := h
    simp [queuedHandles, retrievedHandles]
  | cons c cs ih =>
    intro s mem ts s1 mem1 h
    simp only [run] at h
    split at h
    · simp at h
    · rename_i o s2 mem2 hs
      split at h
      · simp at h
      · rename_i ts2 s3 mem3 hr
        simp at h
        obtain ⟨rfl, rfl, rfl⟩ := h
        have h1 := step_pipeline K s mem c o s2 mem2 hs
        have h2 := ih s2 mem2 ts2 _ _ hr
        have hq : ∀ t : Transition, queuedHandles (t :: ts2) = queuedHandles [t] ++ queuedHandles ts2 := by
          intro t; simp only [queuedHandles]; split <;> [split; skip] <;> simp
        have hrr : ∀ t : Transition, retrievedHandles (t :: ts2) = retrievedHandles [t] ++ retrievedHandles ts2 := by
          intro t; simp only [retrievedHandles]; split <;> simp
        rw [hq, hrr, ← List.append_assoc, h1, List.append_assoc, h2, List.append_assoc]

theorem copied_copied (mem : Mem) (dst : Nat) (dev : Mem) (src n m : Nat) :
    copied (copied mem dst dev src n) (dst + n) dev (src + n) m
      = copied mem dst dev src (n + m) := by
  funext a
  unfold copied
  by_cases h1 : dst + n ≤ a ∧ a < dst + n + m
  · have h2 : dst ≤ a ∧ a < dst + (n + m) := by omega
    have h3 : src + n + (a - (dst + n)) = src + (a - dst) := by omega
    simp only [if_pos h1, if_pos h2, h3]
  · simp only [if_neg h1]
    by_cases h2 : dst ≤ a ∧ a < dst + n
    · have h3 : dst ≤ a ∧ a < dst + (n + m) := by omega
      simp only [if_pos h2, if_pos h3]
    · have h3 : ¬ (dst ≤ a ∧ a < dst + (n + m)) := by omega
      simp only [if_neg h2, if_neg h3]

theorem copied_zero (mem : Mem) (dst : Nat) (dev : Mem) (src : Nat) :
    copied mem dst dev src 0 = mem := by
  funext a
  unfold copied
  have : ¬ (dst ≤ a ∧ a < dst + 0) := by omega
  simp only [if_neg this]

theorem NEONCopy_spec (dev : Mem) : ∀ (k fuel : Nat) (mem : Mem) (dst src : Nat),
    dst ≠ 0 → k + 1 ≤ fuel →
    NEONCopy fuel dev mem dst src ((128 * (k + 1) : Nat) : Int)
      = some (copied mem dst dev src (128 * (k + 1)), dst + 128 * (k + 1),
              src + 128 * (k + 1), 0) := by
  intro k
  induction k with
  | zero =>
    intro fuel mem dst src hdst hf
    obtain ⟨f, rfl⟩ : ∃ f, fuel = f + 1 := ⟨fuel - 1, by omega⟩
    simp [NEONCopy, memcpy, hdst]
  | succ k ih =>
    intro fuel mem dst src hdst hf
    obtain ⟨f, rfl⟩ : ∃ f, fuel = f + 1 := ⟨fuel - 1, by omega⟩
    have hpos : ((128 * (k + 1 + 1) : Nat) : Int) - 128 > 0 := by push_cast; omega
    have heq : ((128 * (k + 1 + 1) : Nat) : Int) - 128 = ((128 * (k + 1) : Nat) : Int) := by
      push_cast; omega
    simp only [NEONCopy, memcpy, hdst, if_false, if_pos hpos]
    rw [heq, ih f _ (dst + 128) (src + 128) (by omega) (by omega), copied_copied]
    have e1 : 128 + 128 * (k + 1) = 128 * (k + 1 + 1) := by omega
    have e2 : dst + 128 + 128 * (k + 1) = dst + 128 * (k + 1 + 1) := by omega
    have e3 : src + 128 + 128 * (k + 1) = src + 128 * (k + 1 + 1) := by omega
    rw [e1, e2, e3]

theorem memcpy_neon_spec (mem : Mem) (dst : Nat) (dev : Mem) (src : Nat) (n : Nat)
    (hdst : dst ≠ 0) :
    memcpy_neon mem dst dev src (n : Int) = some (copied mem dst dev src n) := by
  unfold memcpy_neon
  split
  · have : ¬ ((n : Int) < 0) := by omega
    simp [this, memcpy, hdst]
  · have hrest : (n : Int) % 128 = ((n % 128 : Nat) : Int) := by omega
    have halign : (n : Int) - (n : Int) % 128 = ((128 * (n / 128) : Nat) : Int) := by omega
    simp only [hrest]
    rw [show (n : Int) - ((n % 128 : Nat) : Int) = ((128 * (n / 128) : Nat) : Int) by omega]
    by_cases hk : n / 128 = 0
    · have hlt : ¬ (((128 * (n / 128) : Nat) : Int) ≥ 128) := by rw [hk]; simp
      simp only [if_neg hlt]
      have hn : n % 128 = n := by omega
      by_cases hr : n % 128 = 0
      · have hn0 : n = 0 := by omega
        simp [hr, hn0, copied_zero]
      · have hr1 : ¬ (((n % 128 : Nat) : Int) = 0) := by omega
        simp only [ne_eq, hr1, not_false_eq_true, if_true, hk]
        have hnn : ¬ ((dst : Int) + ((128 * 0 : Nat) : Int) < 0 ∨ (src : Int) + ((128 * 0 : Nat) : Int) < 0) := by
          omega
        simp only [if_neg hnn]
        simp [memcpy, hdst, hn]
    · obtain ⟨k, hk1⟩ : ∃ k, n / 128 = k + 1 := ⟨n / 128 - 1, by omega⟩
      have hge : ((128 * (n / 128) : Nat) : Int) ≥ 128 := by omega
      simp only [if_pos hge]
      have hfuel : ((128 * (n / 128) : Nat) : Int).toNat = 128 * (k + 1) := by
        rw [Int.toNat_ofNat, hk1]
      rw [hfuel]
      rw [hk1, NEONCopy_spec dev k (128 * (k + 1)) mem dst src hdst (by omega)]
      simp only
      by_cases hr : n % 128 = 0
      · have hr0 : (((n % 128 : Nat) : Int) = 0) := by omega
        have hn : 128 * (k + 1) = n := by omega
        simp [hr0, hn]
      · have hr1 : ¬ (((n % 128 : Nat) : Int) = 0) := by omega
        simp only [ne_eq, hr1, not_false_eq_true, if_true]
        have hnn : ¬ (((dst + 128 * (k + 1) : Nat) : Int) + 0 < 0 ∨
            ((src + 128 * (k + 1) : Nat) : Int) + 0 < 0) := by omega
        simp only [if_neg hnn]
        have hd1 : dst + 128 * (k + 1) ≠ 0 := by omega
        have hn : 128 * (k + 1) + n % 128 = n := by omega
        simp only [Int.add_zero, Int.toNat_ofNat, memcpy, hd1, if_false, copied_copied, hn]

theorem dequeue_moves (K : BconDefines) (s : StreamData) (mem : Mem) (io : DequeueReply)
    (front : Nat) (rest : List Nat) (d : BufferContextData) (vbuf : V4L2Buffer) (n : Nat)
    (hq : s.inputQueue = front :: rest) (hd : s.bufferContexts[front]? = some d)
    (hp : d.pBuffer ≠ 0) (hv : s.v4l2Buffers[io.index]? = some vbuf) (hh : s.height ≠ 0)
    (hdq : ¬ io.dqbuf.ret < 0)
    (hn : payloadCopySize io.bytesused (bytesPerLineOf s.payloadSize s.height) = (n : Int)) :
    DequeueV4L2Buffer K s mem io = some (io.qbuf.ret,
      { s with
          inputQueue := rest
          outputQueue := s.outputQueue ++ [front]
          bufferContexts := s.bufferContexts.set front
            { d with queued := false
                     trailer := decodeTrailer K io.dev vbuf.start s.payloadSize
                       (bytesPerLineOf s.payloadSize s.height)
                     status := (decodeTrailer K io.dev vbuf.start s.payloadSize
                       (bytesPerLineOf s.payloadSize s.height)).status }
          events := s.events ++ [Event.ioctl DeviceRequest.VIDIOC_DQBUF,
                                 Event.ioctl DeviceRequest.VIDIOC_QBUF] },
      copied mem d.pBuffer io.dev vbuf.start n) := by
  unfold DequeueV4L2Buffer
  simp only [StreamData.request, if_neg hdq, hq, hd, hv, if_neg hh, hn,
    memcpy_neon_spec mem d.pBuffer io.dev vbuf.start n hp]
  simp

theorem retrieve_pops (K : BconDefines) (s : StreamData) (n : Bool) (front : Nat)
    (rest : List Nat) (d : BufferContextData)
    (hq : s.outputQueue = front :: rest) (hd : s.bufferContexts[front]? = some d) :
    BconAdapterStreamRetrieveResult K s true n = some (K.BCON_OK,
      StreamData.notifyReady { s with
        bufferContexts := s.bufferContexts.set front (BufferContextData.OnDeQueue K d)
        outputQueue := rest },
      some { hBuffer := IndexToBufferHandle front, pBuffer := d.pBuffer
             userContext := d.userContext, payloadType := 0x0001
             blockId := d.trailer.blockId, timeStamp := d.trailer.timeStamp
             pixelFormat := d.trailer.pixelFormat, sizeX := s.width, sizeY := s.height
             offsetX := 0, offsetY := 0, paddingX := 0, paddingY := 0
             payloadSize := s.payloadSize, errorCode := d.status },
      if n then some rest.length else none) := by
  unfold BconAdapterStreamRetrieveResult
  simp [hq, hd]

theorem history_order (Q R T : List Nat) (A B : Nat) (hQ : Q = R ++ T)
    (hAB : List.indexOf A Q < List.indexOf B Q) (hB : B ∈ R) :
    A ∈ R ∧ List.indexOf A R < List.indexOf B R := by
  subst hQ
  rw [List.indexOf_append_of_mem hB] at hAB
  by_cases hA : A ∈ R
  · rw [List.indexOf_append_of_mem hA] at hAB
    exact ⟨hA, hAB⟩
  · rw [List.indexOf_append_of_not_mem hA] at hAB
    have := List.indexOf_lt_length.mpr hB
    omega

/-- C1 (FIFO).  Take any sequence of steps (`queueBuffer`, device completions, `retrieveResult`,
and also register, deregister and flush) that runs from a session with empty queues.  If handle
`A` is appended to the pending queue before handle `B` is, and `retrieveResult` returns `B`,
then `retrieveResult` has returned `A` before.  A device completion removes the front of the
pending queue and appends it to the ready queue; `retrieveResult` removes the front of the ready
queue and returns its handle. -/
theorem retrieve_fifo_order (K : BconDefines) (s : StreamData) (mem : Mem)
    (calls : List ApiCall) (A B : Nat)
    (hin : s.inputQueue = []) (hout : s.outputQueue = [])
    (hdef : (run K s mem calls).isSome = true)
    (hAB : List.indexOf A (queuedHandles (executed K s mem calls))
            < List.indexOf B (queuedHandles (executed K s mem calls)))
    (hB : B ∈ retrievedHandles (executed K s mem calls)) :
    (A ∈ retrievedHandles (executed K s mem calls) ∧
      List.indexOf A (retrievedHandles (executed K s mem calls))
        < List.indexOf B (retrievedHandles (executed K s mem calls))) ∧
    (∀ (s0 : StreamData) (mem0 : Mem) (io : DequeueReply) (front : Nat) (rest : List Nat)
        (d : BufferContextData) (vbuf : V4L2Buffer) (n : Nat),
        s0.inputQueue = front :: rest → s0.bufferContexts[front]? = some d → d.pBuffer ≠ 0 →
        s0.v4l2Buffers[io.index]? = some vbuf → s0.height ≠ 0 → ¬ io.dqbuf.ret < 0 →
        payloadCopySize io.bytesused (bytesPerLineOf s0.payloadSize s0.height) = (n : Int) →
        ∃ s1 mem1, DequeueV4L2Buffer K s0 mem0 io = some (io.qbuf.ret, s1, mem1) ∧
          s1.inputQueue = rest ∧ s1.outputQueue = s0.outputQueue ++ [front]) ∧
    (∀ (s0 : StreamData) (n : Bool) (front : Nat) (rest : List Nat) (d : BufferContextData),
        s0.outputQueue = front :: rest → s0.bufferContexts[front]? = some d →
        ∃ s1 r left, BconAdapterStreamRetrieveResult K s0 true n
            = some (K.BCON_OK, s1, some r, left) ∧
          r.hBuffer = IndexToBufferHandle front ∧ s1.outputQueue = rest ∧
          s1.inputQueue = s0.inputQueue) := by
  refine ⟨?_, ?_, ?_⟩
  · cases hr : run K s mem calls with
    | none => rw [hr] at hdef; simp at hdef
    | some r =>
      obtain ⟨ts, s1, mem1⟩ := r
      have hex : executed K s mem calls = ts := by simp [executed, hr]
      rw [hex] at hAB hB ⊢
      have hp := run_pipeline K calls s mem ts s1 mem1 hr
      rw [hin, hout] at hp
      simp only [List.append_nil, List.map_nil, List.nil_append] at hp
      exact history_order _ _ _ A B hp hAB hB
  · intro s0 mem0 io front rest d vbuf n hq hd hp hv hh hdq hn
    exact ⟨_, _, dequeue_moves K s0 mem0 io front rest d vbuf n hq hd hp hv hh hdq hn, rfl, rfl⟩
  · intro s0 n front rest d hq hd
    exact ⟨_, _, _, retrieve_pops K s0 n front rest d hq hd, rfl, by simp, by simp⟩

/-- Witness for C1: two buffers queued in the order 1, 2, both completed with a valid trailer and
both retrieved. -/
theorem retrieve_fifo_order_witness :
    (run sampleDefines sampleSession (fun _ => 0) sampleCalls).isSome = true ∧
    retrievedHandles (executed sampleDefines sampleSession (fun _ => 0) sampleCalls) = [1, 2] ∧
    (1 ∈ retrievedHandles (executed sampleDefines sampleSession (fun _ => 0) sampleCalls) ∧
      List.indexOf 1 (retrievedHandles (executed sampleDefines sampleSession (fun _ => 0) sampleCalls))
        < List.indexOf 2 (retrievedHandles (executed sampleDefines sampleSession (fun _ => 0) sampleCalls))) :=
  ⟨by decide, by decide,
   (retrieve_fifo_order sampleDefines sampleSession (fun _ => 0) sampleCalls 1 2 (by decide) (by decide)
      (by decide) (by decide) (by decide)).1⟩

theorem BufferHandleToIndex_handle (i : Nat) (hi : i < UINTPTR_MAX) :
    BufferHandleToIndex (IndexToBufferHandle i) = i := by
  unfold BufferHandleToIndex IndexToBufferHandle UINTPTR_MAX at *
  omega

theorem queueBuffer_enqueues (K : BconDefines) (s : StreamData) (i ctx : Nat)
    (so : XioctlReply) (d : BufferContextData)
    (hi : i < s.nBuffers) (hmax : s.nBuffers ≤ UINTPTR_MAX)
    (hd : s.bufferContexts[i]? = some d) (hp : d.pBuffer ≠ 0) (hq : d.queued = false) :
    ∃ st s1, BconAdapterStreamQueueBuffer K s (IndexToBufferHandle i) ctx so = some (st, s1) ∧
      s1.inputQueue = s.inputQueue ++ [i] ∧ s1.outputQueue = s.outputQueue ∧
      s1.bufferContexts = s.bufferContexts.set i
        (BufferContextData.OnBeforeQueue K { d with userContext := ctx }) ∧
      s1.nBuffers = s.nBuffers := by
  unfold BconAdapterStreamQueueBuffer
  have hidx := BufferHandleToIndex_handle i (by omega)
  simp only [hidx, QueueV4L2Buffer, StreamData.request]
  have h1 : ¬ (i ≥ s.nBuffers) := by omega
  simp only [if_neg h1, hd, if_neg hp, hq]
  by_cases hs : s.v4l2StreamingEnabled = true
  · simp [hs]
    exact ⟨_, _, ⟨rfl, rfl⟩, rfl, rfl, rfl, rfl⟩
  · by_cases hr : so.ret < 0
    · simp [hs, hr]
      exact ⟨_, _, ⟨rfl, rfl⟩, rfl, rfl, rfl, rfl⟩
    · simp [hs, hr]
      exact ⟨_, _, ⟨rfl, rfl⟩, rfl, rfl, rfl, rfl⟩

theorem queueAll_spec (K : BconDefines) : ∀ (reqs : List (Nat × Nat × XioctlReply))
    (s : StreamData), s.nBuffers ≤ UINTPTR_MAX → (reqs.map (·.1)).Nodup →
    (∀ i ∈ reqs.map (·.1), i < s.nBuffers ∧
      ∃ d, s.bufferContexts[i]? = some d ∧ d.pBuffer ≠ 0 ∧ d.queued = false) →
    ∃ sq, queueAll K s reqs = some sq ∧
      sq.inputQueue = s.inputQueue ++ reqs.map (·.1) ∧ sq.outputQueue = s.outputQueue ∧
      sq.bufferContexts.length = s.bufferContexts.length := by
  intro reqs
  induction reqs with
  | nil => intro s _ _ _; exact ⟨s, rfl, by simp, rfl, rfl⟩
  | cons r rest ih =>
    intro s hmax hnd hall
    obtain ⟨i, ctx, so⟩ := r
    simp only [List.map_cons, List.nodup_cons] at hnd
    obtain ⟨hi, d, hd, hp, hq⟩ := hall i (by simp)
    obtain ⟨st, s1, h1, h2, h3, h4, h5⟩ := queueBuffer_enqueues K s i ctx so d hi hmax hd hp hq
    have hrest : ∀ j ∈ rest.map (·.1), j < s1.nBuffers ∧
        ∃ e, s1.bufferContexts[j]? = some e ∧ e.pBuffer ≠ 0 ∧ e.queued = false := by
      intro j hj
      obtain ⟨hj1, e, he, hep, heq⟩ := hall j (by simp at hj ⊢; right; exact hj)
      have hne : i ≠ j := by
        intro hij; subst hij; exact hnd.1 hj
      refine ⟨by omega, e, ?_, hep, heq⟩
      rw [h4, List.getElem?_set_ne hne]; exact he
    obtain ⟨sq, g1, g2, g3, g4⟩ := ih s1 (by omega) hnd.2 hrest
    refine ⟨sq, ?_, ?_, ?_, ?_⟩
    · simp only [queueAll, h1]; exact g1
    · rw [g2, h2]; simp
    · rw [g3, h3]
    · rw [g4, h4]; simp

theorem flush_total (K : BconDefines) (s : StreamData) (fs : Nat)
    (h : ∀ i ∈ s.inputQueue, i < s.bufferContexts.length) :
    ∃ s1, BconAdapterStreamFlushBuffersImpl K s fs = some (K.BCON_OK, s1) := by
  obtain ⟨⟨ctxs, out⟩, hr⟩ := flushLoop_some fs s.inputQueue s.bufferContexts s.outputQueue h
  unfold BconAdapterStreamFlushBuffersImpl
  simp only [hr]
  exact ⟨_, rfl⟩

theorem retrieveMany_spec (K : BconDefines) : ∀ (q : List Nat) (s : StreamData),
    s.outputQueue = q →
    (∀ i ∈ q, ∃ d, s.bufferContexts[i]? = some d ∧ d.status = K.BCON_E_BUFFER_CANCELLED) →
    ∃ results sr, retrieveMany K q.length s = some (results, sr) ∧
      results.map (·.1) = q.map (fun _ => K.BCON_OK) ∧
      results.map (fun r => r.2.map (·.hBuffer)) = q.map (fun i => some (IndexToBufferHandle i)) ∧
      results.map (fun r => r.2.map (·.errorCode))
        = q.map (fun _ => some K.BCON_E_BUFFER_CANCELLED) ∧
      sr.outputQueue = [] ∧ sr.inputQueue = s.inputQueue := by
  intro q
  induction q with
  | nil =>
    intro s hq _
    exact ⟨[], s, rfl, rfl, rfl, rfl, hq, rfl⟩
  | cons front rest ih =>
    intro s hq hall
    obtain ⟨d, hd, hst⟩ := hall front (by simp)
    have hlt := getElem?_some_lt hd
    have hr := retrieve_pops K s true front rest d hq hd
    have hnext : ∀ i ∈ rest, ∃ e,
        (StreamData.notifyReady { s with
          bufferContexts := s.bufferContexts.set front (BufferContextData.OnDeQueue K d)
          outputQueue := rest }).bufferContexts[i]? = some e ∧
        e.status = K.BCON_E_BUFFER_CANCELLED := by
      intro i hi
      obtain ⟨e, he, hes⟩ := hall i (by simp [hi])
      simp only [notifyReady_bufferContexts]
      by_cases hfi : front = i
      · subst hfi
        exact ⟨_, List.getElem?_set_self hlt, rfl⟩
      · exact ⟨e, by rw [List.getElem?_set_ne hfi]; exact he, hes⟩
    obtain ⟨rs, sr, g1, g2, g3, g4, g5, g6⟩ := ih _ (by simp) hnext
    refine ⟨(K.BCON_OK, some
          { hBuffer := IndexToBufferHandle front, pBuffer := d.pBuffer
            userContext := d.userContext, payloadType := 0x0001
            blockId := d.trailer.blockId, timeStamp := d.trailer.timeStamp
            pixelFormat := d.trailer.pixelFormat, sizeX := s.width, sizeY := s.height
            offsetX := 0, offsetY := 0, paddingX := 0, paddingY := 0
            payloadSize := s.payloadSize, errorCode := d.status }) :: rs, sr, ?_, ?_, ?_, ?_, g5, ?_⟩
    · simp only [List.length_cons, retrieveMany, hr, g1]
    · simp [g2]
    · simp [g3]
    · simp [g4, hst]
    · rw [g6]; simp

/-- C2 (no loss, no duplication on flush).  In a session with empty queues, queue `N` distinct
registered, idle slots (whatever the device answers to stream-on) and call
`BconAdapterStreamFlushBuffers`: the calls are defined, the pending queue is empty, the ready
queue holds exactly the `N` slots in the order of queueing, each once and each with status
`BCON_E_BUFFER_CANCELLED`; the next `N` calls of `retrieveResult` return `BCON_OK` with the `N`
handles in that order and the call after them returns `BCON_E_NO_BUFFER_AVAILABLE`. -/
theorem flush_no_loss_no_duplication (K : BconDefines) (s : StreamData)
    (reqs : List (Nat × Nat × XioctlReply))
    (hin : s.inputQueue = []) (hout : s.outputQueue = [])
    (hmax : s.nBuffers ≤ UINTPTR_MAX)
    (hnd : (reqs.map (·.1)).Nodup)
    (hreg : ∀ i ∈ reqs.map (·.1), i < s.nBuffers ∧
      ∃ d, s.bufferContexts[i]? = some d ∧ d.pBuffer ≠ 0 ∧ d.queued = false) :
    ∃ sq sf results sr,
      queueAll K s reqs = some sq ∧
      sq.inputQueue = reqs.map (·.1) ∧ sq.outputQueue = [] ∧
      BconAdapterStreamFlushBuffers K sq = some (K.BCON_OK, sf) ∧
      sf.inputQueue = [] ∧ sf.outputQueue = reqs.map (·.1) ∧ sf.outputQueue.Nodup ∧
      (∀ i ∈ sf.outputQueue,
        ∃ d, sf.bufferContexts[i]? = some d ∧ d.status = K.BCON_E_BUFFER_CANCELLED) ∧
      retrieveMany K reqs.length sf = some (results, sr) ∧
      results.map (·.1) = reqs.map (fun _ => K.BCON_OK) ∧
      results.map (fun r => r.2.map (·.hBuffer))
        = reqs.map (fun r => some (IndexToBufferHandle r.1)) ∧
      BconAdapterStreamRetrieveResult K sr true true
        = some (K.BCON_E_NO_BUFFER_AVAILABLE, sr, none, none) := by
  obtain ⟨sq, h1, h2, h3, h4⟩ := queueAll_spec K reqs s hmax hnd hreg
  rw [hin] at h2
  rw [hout] at h3
  simp only [List.nil_append] at h2
  have hlt : ∀ i ∈ sq.inputQueue, i < sq.bufferContexts.length := by
    intro i hi
    rw [h2] at hi
    obtain ⟨_, d, hd, _⟩ := hreg i hi
    rw [h4]; exact getElem?_some_lt hd
  obtain ⟨sf, hf⟩ := flush_total K sq K.BCON_E_BUFFER_CANCELLED hlt
  obtain ⟨_, f1, f2, f3, f4⟩ := flushImpl_cases K sq _ _ _ hf
  rw [h2, h3] at f2
  simp only [List.nil_append] at f2
  have hst : ∀ i ∈ sf.outputQueue,
      ∃ d, sf.bufferContexts[i]? = some d ∧ d.status = K.BCON_E_BUFFER_CANCELLED := by
    intro i hi
    have hi2 : i ∈ sq.inputQueue := by rw [h2, ← f2]; exact hi
    have hil := hlt i hi2
    rw [f4 i, List.getElem?_eq_getElem hil]
    simp [hi2]
  obtain ⟨results, sr, r1, r2, r3, _, r5, _⟩ := retrieveMany_spec K sf.outputQueue sf rfl hst
  rw [f2] at r1 r2 r3
  simp only [List.length_map, List.map_map] at r1 r2 r3
  refine ⟨sq, sf, results, sr, h1, h2, h3, hf, f1, f2, by rw [f2]; exact hnd, hst, r1, ?_, ?_, ?_⟩
  · rw [r2]; rfl
  · rw [r3]; rfl
  · unfold BconAdapterStreamRetrieveResult
    simp [r5]

/-- Witness for C2: both buffers of the sample session are queued, then flushed. -/
theorem flush_no_loss_no_duplication_witness :
    ∃ sq sf results sr,
      queueAll sampleDefines sampleSession [(0, 7, okReply), (1, 9, okReply)] = some sq ∧
      sq.inputQueue = [0, 1] ∧ sq.outputQueue = [] ∧
      BconAdapterStreamFlushBuffers sampleDefines sq = some (sampleDefines.BCON_OK, sf) ∧
      sf.inputQueue = [] ∧ sf.outputQueue = [0, 1] ∧ sf.outputQueue.Nodup ∧
      (∀ i ∈ sf.outputQueue, ∃ d, sf.bufferContexts[i]? = some d ∧
        d.status = sampleDefines.BCON_E_BUFFER_CANCELLED) ∧
      retrieveMany sampleDefines 2 sf = some (results, sr) ∧
      results.map (·.1) = [sampleDefines.BCON_OK, sampleDefines.BCON_OK] ∧
      results.map (fun r => r.2.map (·.hBuffer)) = [some 1, some 2] ∧
      BconAdapterStreamRetrieveResult sampleDefines sr true true
        = some (sampleDefines.BCON_E_NO_BUFFER_AVAILABLE, sr, none, none) :=
  flush_no_loss_no_duplication sampleDefines sampleSession [(0, 7, okReply), (1, 9, okReply)]
    (by decide) (by decide) (by decide) (by decide) (by decide)

theorem getElem?_set_of_some {α : Type} {l : List α} {k i : Nat} {d v : α}
    (h : l[k]? = some d) : (l.set k v)[i]? = if k = i then some v else l[i]? := by
  rw [List.getElem?_set]
  simp [getElem?_some_lt h]

theorem run_reachable (K : BconDefines) : ∀ (cs : List ApiCall) (s : StreamData) (mem : Mem)
    (ts : List Transition) (s1 : StreamData) (mem1 : Mem),
    Reachable K s mem → run K s mem cs = some (ts, s1, mem1) → Reachable K s1 mem1 := by
  intro cs
  induction cs with
  | nil =>
    intro s mem ts s1 mem1 hr h
    simp [run] at h
    obtain ⟨-, rfl, rfl⟩ := h
    exact hr
  | cons c cs ih =>
    intro s mem ts s1 mem1 hr h
    simp only [run] at h
    split at h
    · simp at h
    · rename_i o s2 mem2 hs
      split at h
      · simp at h
      · rename_i ts2 s3 mem3 hrun
        simp at h
        obtain ⟨-, rfl, rfl⟩ := h
        exact ih s2 mem2 ts2 _ _ (Reachable.step s mem c o s2 mem2 hr hs) hrun

theorem prepare_success (K : BconDefines) (s0 : StreamData) (maxNumBuffer : Nat)
    (req : ReqBufsReply) (maps : Nat → MapReply) (storage : Nat → ImageTrailer)
    (hok : ¬ (PrepareV4L2Buffer { s0 with v4l2StreamingEnabled := false, bufferContexts := [] }
                maxNumBuffer req maps).1 < 0) :
    ∃ s2 : StreamData, BconAdapterStreamPrepareGrab K s0 maxNumBuffer req maps storage
      = (K.BCON_OK,
         { s2 with
            bufferContexts := ((List.range s2.nBuffers).map
              (fun i => BufferContextData.construct K (storage i))).map (BufferContextData.Clear K)
            inputQueue := [], outputQueue := [] }) := by
  unfold BconAdapterStreamPrepareGrab
  simp only
  generalize PrepareV4L2Buffer { s0 with v4l2StreamingEnabled := false, bufferContexts := [] }
    maxNumBuffer req maps = r at hok ⊢
  obtain ⟨ret, errno, s2⟩ := r
  simp only at hok
  simp only [if_neg hok]
  exact ⟨s2, rfl⟩

theorem reachable_prepare_fresh (K : BconDefines) (s0 : StreamData) (maxNumBuffer : Nat)
    (req : ReqBufsReply) (maps : Nat → MapReply) (storage : Nat → ImageTrailer) (s : StreamData)
    (h : BconAdapterStreamPrepareGrab K s0 maxNumBuffer req maps storage = (K.BCON_OK, s))
    (hok : ¬ (PrepareV4L2Buffer { s0 with v4l2StreamingEnabled := false, bufferContexts := [] }
                maxNumBuffer req maps).1 < 0) :
    s.inputQueue = [] ∧ s.outputQueue = [] ∧
    ∀ (i : Nat) (d : BufferContextData), s.bufferContexts[i]? = some d →
      d.pBuffer = 0 ∧ d.bufferSize = 0 ∧ d.userContext = 0 ∧ d.queued = false ∧
      d.status = K.BCON_E_BUFFER_CANCELLED := by
  obtain ⟨s2, h2⟩ := prepare_success K s0 maxNumBuffer req maps storage hok
  rw [h2] at h
  simp only [Prod.mk.injEq, true_and] at h
  subst h
  refine ⟨rfl, rfl, ?_⟩
  intro i d hd
  simp only [List.map_map, List.getElem?_map, Option.map_eq_some'] at hd
  obtain ⟨j, _, rfl⟩ := hd
  simp [BufferContextData.Clear]

/-- The pointers of the slots are the same in two sessions. -/
theorem step_pointers (K : BconDefines) (s : StreamData) (mem : Mem) (c : ApiCall)
    (o : Outcome) (s1 : StreamData) (mem1 : Mem) (h : step K s mem c = some (o, s1, mem1))
    (hc : ∀ p sz, c ≠ ApiCall.registerBuffer p sz) (hd : ∀ hb pp, c ≠ ApiCall.deregisterBuffer hb pp) :
    ∀ i : Nat, (s1.bufferContexts[i]?).map (·.pBuffer) = (s.bufferContexts[i]?).map (·.pBuffer) := by
  have hdeq : ∀ (s : StreamData) (mem : Mem) (io : DequeueReply) (ret : Int) (s3 : StreamData)
      (m3 : Mem), DequeueV4L2Buffer K s mem io = some (ret, s3, m3) →
      ∀ i : Nat, (s3.bufferContexts[i]?).map (·.pBuffer) = (s.bufferContexts[i]?).map (·.pBuffer) := by
    intro s mem io ret s3 m3 hd i
    rcases dequeue_cases K s mem io ret s3 _ hd with ⟨_, _, h1, _⟩ |
      ⟨front, rest, d, vbuf, _, h1, _, _, _, _, _, _, h2, _⟩
    · rw [h1]
    · rw [h2, getElem?_set_of_some h1]
      by_cases hfi : front = i
      · subst hfi; simp [h1]
      · simp [hfi]
  have hfl : ∀ (s : StreamData) (fs st : Nat) (s3 : StreamData),
      BconAdapterStreamFlushBuffersImpl K s fs = some (st, s3) →
      ∀ i : Nat, (s3.bufferContexts[i]?).map (·.pBuffer) = (s.bufferContexts[i]?).map (·.pBuffer) := by
    intro s fs st s3 hf i
    obtain ⟨_, _, _, _, h1⟩ := flushImpl_cases K s fs st s3 hf
    rw [h1 i]
    cases s.bufferContexts[i]? with
    | none => rfl
    | some d => simp only [Option.map_some']; split <;> rfl
  intro i
  cases c with
  | registerBuffer p sz => exact absurd rfl (hc p sz)
  | deregisterBuffer hb pp => exact absurd rfl (hd hb pp)
  | queueBuffer hb ctx so =>
    simp [step] at h
    obtain ⟨st, s2, hq, rfl, rfl, rfl⟩ := h
    rcases queueBuffer_cases K s hb ctx so st _ hq with h1 | ⟨d, h0, _, _, _, _, _, h1⟩
    · subst h1; rfl
    · rw [h1, getElem?_set_of_some h0]
      by_cases hfi : BufferHandleToIndex hb = i
      · subst hfi; simp [h0, BufferContextData.OnBeforeQueue]
      · simp [hfi]
  | deviceCompletion io =>
    obtain ⟨running, hb, rfl⟩ := step_completion K s mem io o s1 mem1 h
    obtain ⟨ret, s3, hd3, hcase⟩ := pumpBody_cases K s mem io running _ _ hb
    rcases hcase with ⟨_, _, st, hf⟩ | ⟨_, _, rfl⟩
    · rw [hfl s3 _ st s1 hf i, hdeq s mem io ret s3 _ hd3 i]
    · rw [notifyReady_bufferContexts, hdeq s mem io ret s3 _ hd3 i]
  | flushBuffers =>
    simp [step, BconAdapterStreamFlushBuffers] at h
    obtain ⟨st, s2, hf, rfl, rfl, rfl⟩ := h
    exact hfl s _ st _ hf i
  | retrieveResult g n =>
    simp [step] at h
    obtain ⟨st, s2, res, left, hr, rfl, rfl, rfl⟩ := h
    rcases retrieve_cases K s g n st _ res left hr with ⟨rfl, _⟩ |
      ⟨front, rest, d, _, h0, _, _, _, h1, _⟩
    · rfl
    · rw [h1, getElem?_set_of_some h0]
      by_cases hfi : front = i
      · subst hfi; simp [h0, BufferContextData.OnDeQueue]
      · simp [hfi]

theorem sampleSession_reachable : Reachable sampleDefines sampleSession (fun _ => 0) := by
  have h0 : Reachable sampleDefines preparedSession (fun _ => 0) :=
    Reachable.prepare configuredSession (fun _ => 0) 2 sampleReqBufs sampleMaps
      (fun _ => zeroTrailer) preparedSession (by decide) (by decide)
  have h1 := Reachable.step preparedSession (fun _ => 0) (ApiCall.registerBuffer 0x1000 16) _ _ _
    h0 rfl
  exact Reachable.step _ (fun _ => 0) (ApiCall.registerBuffer 0x2000 16) _ _ _ h1 rfl

theorem reachable_of_run (K : BconDefines) (s : StreamData) (mem : Mem) (cs : List ApiCall)
    (hr : Reachable K s mem) (hdef : (run K s mem cs).isSome = true) :
    ∃ ts s1 mem1, run K s mem cs = some (ts, s1, mem1) ∧ Reachable K s1 mem1 := by
  cases h : run K s mem cs with
  | none => rw [h] at hdef; simp at hdef
  | some r =>
    obtain ⟨ts, s1, mem1⟩ := r
    exact ⟨ts, s1, mem1, rfl, run_reachable K cs s mem ts s1 mem1 hr h⟩

/-- Every slot whose `queued` flag is set is in the pending or in the ready queue. -/
theorem step_queued_inv (K : BconDefines) (s : StreamData) (mem : Mem) (c : ApiCall)
    (o : Outcome) (s1 : StreamData) (mem1 : Mem) (h : step K s mem c = some (o, s1, mem1))
    (hinv : ∀ (i : Nat) (d : BufferContextData), s.bufferContexts[i]? = some d →
      d.queued = true → i ∈ s.inputQueue ∨ i ∈ s.outputQueue) :
    ∀ (i : Nat) (d : BufferContextData), s1.bufferContexts[i]? = some d →
      d.queued = true → i ∈ s1.inputQueue ∨ i ∈ s1.outputQueue := by
  have hdeq : ∀ (s : StreamData) (mem : Mem) (io : DequeueReply) (ret : Int) (s3 : StreamData)
      (m3 : Mem), DequeueV4L2Buffer K s mem io = some (ret, s3, m3) →
      (∀ (i : Nat) (d : BufferContextData), s.bufferContexts[i]? = some d →
        d.queued = true → i ∈ s.inputQueue ∨ i ∈ s.outputQueue) →
      ∀ (i : Nat) (d : BufferContextData), s3.bufferContexts[i]? = some d →
        d.queued = true → i ∈ s3.inputQueue ∨ i ∈ s3.outputQueue := by
    intro s mem io ret s3 m3 hd hinv i e he hq
    rcases dequeue_cases K s mem io ret s3 _ hd with ⟨h1, h2, h3, _⟩ |
      ⟨front, rest, d, vbuf, h1, h0, _, _, _, _, h2, h3, h4, _⟩
    · rw [h1, h2]; rw [h3] at he; exact hinv i e he hq
    · rw [h4, getElem?_set_of_some h0] at he
      by_cases hfi : front = i
      · subst hfi
        simp at he; subst he; simp at hq
      · simp only [if_neg hfi] at he
        rcases hinv i e he hq with hm | hm
        · rw [h1] at hm
          simp at hm
          rcases hm with hm | hm
          · exact absurd hm.symm hfi
          · left; rw [h2]; exact hm
        · right; rw [h3]; simp [hm]
  have hfl : ∀ (s : StreamData) (fs st : Nat) (s3 : StreamData),
      BconAdapterStreamFlushBuffersImpl K s fs = some (st, s3) →
      (∀ (i : Nat) (d : BufferContextData), s.bufferContexts[i]? = some d →
        d.queued = true → i ∈ s.inputQueue ∨ i ∈ s.outputQueue) →
      ∀ (i : Nat) (d : BufferContextData), s3.bufferContexts[i]? = some d →
        d.queued = true → i ∈ s3.inputQueue ∨ i ∈ s3.outputQueue := by
    intro s fs st s3 hf hinv i e he hq
    obtain ⟨_, _, h2, _, h3⟩ := flushImpl_cases K s fs st s3 hf
    rw [h3 i] at he
    cases hd : s.bufferContexts[i]? with
    | none => rw [hd] at he; simp at he
    | some d =>
      rw [hd] at he
      simp only [Option.map_some', Option.some.injEq] at he
      have hdq : d.queued = true := by
        subst he; split at hq <;> exact hq
      right; rw [h2]
      rcases hinv i d hd hdq with hm | hm <;> simp [hm]
  intro i e he hq
  cases c with
  | registerBuffer p sz =>
    simp [step] at h
    obtain ⟨rfl, rfl, rfl⟩ := h
    rcases register_cases K s p sz with ⟨h1, _⟩ | ⟨idx, d, h0, _, _, _, h1⟩
    · rw [h1] at he ⊢; exact hinv i e he hq
    · rw [h1] at he ⊢
      simp only at he ⊢
      rw [getElem?_set_of_some h0] at he
      by_cases hfi : idx = i
      · subst hfi
        simp at he; subst he
        exact hinv idx d h0 hq
      · simp only [if_neg hfi] at he
        exact hinv i e he hq
  | deregisterBuffer hb pp =>
    simp [step] at h
    obtain ⟨rfl, rfl, rfl⟩ := h
    rcases deregister_cases K s hb pp with ⟨h1, _⟩ | ⟨d, h0, _, _, h1⟩
    · rw [h1] at he ⊢; exact hinv i e he hq
    · rw [h1] at he ⊢
      simp only at he ⊢
      rw [getElem?_set_of_some h0] at he
      by_cases hfi : BufferHandleToIndex hb = i
      · simp only [if_pos hfi] at he
        simp at he; subst he
        simp [BufferContextData.Clear] at hq
      · simp only [if_neg hfi] at he
        exact hinv i e he hq
  | queueBuffer hb ctx so =>
    simp [step] at h
    obtain ⟨st, s2, hq2, rfl, rfl, rfl⟩ := h
    rcases queueBuffer_cases K s hb ctx so st _ hq2 with h1 | ⟨d, h0, _, _, _, h1, h2, h3⟩
    · subst h1; exact hinv i e he hq
    · rw [h3, getElem?_set_of_some h0] at he
      rw [h1, h2]
      by_cases hfi : BufferHandleToIndex hb = i
      · left; simp [hfi]
      · simp only [if_neg hfi] at he
        rcases hinv i e he hq with hm | hm
        · left; simp [hm]
        · right; exact hm
  | deviceCompletion io =>
    obtain ⟨running, hb, rfl⟩ := step_completion K s mem io o s1 mem1 h
    obtain ⟨ret, s3, hd3, hcase⟩ := pumpBody_cases K s mem io running _ _ hb
    have h3 := hdeq s mem io ret s3 _ hd3 hinv
    rcases hcase with ⟨_, _, st, hf⟩ | ⟨_, _, rfl⟩
    · exact hfl s3 _ st s1 hf h3 i e he hq
    · simp only [notifyReady_bufferContexts, notifyReady_inputQueue,
        notifyReady_outputQueue] at he ⊢
      exact h3 i e he hq
  | flushBuffers =>
    simp [step, BconAdapterStreamFlushBuffers] at h
    obtain ⟨st, s2, hf, rfl, rfl, rfl⟩ := h
    exact hfl s _ st _ hf hinv i e he hq
  | retrieveResult g n =>
    simp [step] at h
    obtain ⟨st, s2, res, left, hr, rfl, rfl, rfl⟩ := h
    rcases retrieve_cases K s g n st _ res left hr with ⟨rfl, _⟩ |
      ⟨front, rest, d, h1, h0, _, h2, h3, h4, _⟩
    · exact hinv i e he hq
    · rw [h4, getElem?_set_of_some h0] at he
      rw [h2, h3]
      by_cases hfi : front = i
      · simp only [if_pos hfi] at he
        simp at he; subst he
        simp [BufferContextData.OnDeQueue] at hq
      · simp only [if_neg hfi] at he
        rcases hinv i e he hq with hm | hm
        · left; exact hm
        · rw [h1] at hm
          simp at hm
          rcases hm with hm | hm
          · exact absurd hm.symm hfi
          · right; exact hm

/-- C3 (queue disjointness), evaluated at the failing input.  From the prepared session with
buffer 1 registered: `queueBuffer(1)`, one device completion with a valid trailer, and
`queueBuffer(1)` again.  The completion clears the `queued` flag, so the second call passes the
`BCON_E_BUFFER_ALREADY_QUEUED` test and returns `BCON_OK`: slot 0 is in the pending and in the
ready queue of a reachable session, and one more completion puts it twice into the ready
queue. -/
theorem requeue_completed_slot_in_both_queues :
    Reachable sampleDefines sampleSession (fun _ => 0) ∧
    (executed sampleDefines sampleSession (fun _ => 0) requeueCalls).map
        (fun t => (t.after.inputQueue, t.after.outputQueue))
      = [([0], []), ([], [0]), ([0], [0])] ∧
    ((executed sampleDefines sampleSession (fun _ => 0) requeueCalls).map
        (fun t => match t.outcome with
          | Outcome.queued st => some st
          | _ => none))
      = [some sampleDefines.BCON_OK, none, some sampleDefines.BCON_OK] ∧
    (run sampleDefines sampleSession (fun _ => 0)
        (requeueCalls ++ [ApiCall.deviceCompletion (sampleCompletion 0 2 200)])).map
        (fun r => (r.2.1.inputQueue, r.2.1.outputQueue))
      = some ([], [0, 0]) :=
  ⟨sampleSession_reachable, by decide, by decide, by decide⟩

/-- C4 as stated fails: after `queueBuffer(1)` and `BconAdapterStreamFlushBuffers` the session is
reachable, slot 0 is in the ready queue and not in the pending queue, and its `queued` flag is
still set. -/
theorem queued_flag_iff_pending_fails :
    ¬ (∀ (K : BconDefines) (s : StreamData) (mem : Mem), Reachable K s mem →
        ∀ (i : Nat) (d : BufferContextData), s.bufferContexts[i]? = some d →
          (d.queued = true ↔ i ∈ s.inputQueue)) := by
  intro hall
  obtain ⟨ts, s1, mem1, hrun, hreach⟩ :=
    reachable_of_run sampleDefines sampleSession (fun _ => 0) flushCalls
      sampleSession_reachable (by decide)
  have hs : (run sampleDefines sampleSession (fun _ => 0) flushCalls).map
      (fun r => (r.2.1.inputQueue, r.2.1.outputQueue, r.2.1.bufferContexts[0]?.map (·.queued)))
      = some ([], [0], some true) := by decide
  rw [hrun] at hs
  simp only [Option.map_some', Option.some.injEq, Prod.mk.injEq] at hs
  obtain ⟨h1, _, h3⟩ := hs
  cases hd : s1.bufferContexts[0]? with
  | none => rw [hd] at h3; simp at h3
  | some d =>
    rw [hd] at h3
    simp only [Option.map_some', Option.some.injEq] at h3
    have := (hall sampleDefines s1 mem1 hreach 0 d hd).mp h3
    rw [h1] at this
    simp at this

/-- C4 as amended.  In every session reachable from a successful prepare by register,
deregister, queue, device completion, flush and retrieve steps, a slot whose `queued` flag is
set is in the pending queue or in the ready queue.  (A flush moves a slot to the ready queue
without clearing the flag; `retrieveResult` clears it.) -/
theorem queued_flag_implies_in_a_queue (K : BconDefines) (s : StreamData) (mem : Mem)
    (hr : Reachable K s mem) (i : Nat) (d : BufferContextData)
    (hd : s.bufferContexts[i]? = some d) (hq : d.queued = true) :
    i ∈ s.inputQueue ∨ i ∈ s.outputQueue := by
  induction hr generalizing i d with
  | prepare s0 mem maxNumBuffer req maps storage s h hok =>
    obtain ⟨_, _, hall⟩ := reachable_prepare_fresh K s0 maxNumBuffer req maps storage s h hok
    have := (hall i d hd).2.2.2.1
    rw [this] at hq; simp at hq
  | step s mem c o s1 mem1 _ hstep ih =>
    exact step_queued_inv K s mem c o s1 mem1 hstep (fun i d hd hq => ih i d hd hq) i d hd hq

/-- Witness for the amended C4: in the sample session after `queueBuffer(1)` and a flush, slot 0
has its flag set and is in the ready queue. -/
theorem queued_flag_implies_in_a_queue_witness :
    ∃ s mem d, Reachable sampleDefines s mem ∧ s.bufferContexts[0]? = some d ∧
      d.queued = true ∧ s.outputQueue = [0] ∧ (0 ∈ s.inputQueue ∨ 0 ∈ s.outputQueue) := by
  obtain ⟨ts, s1, mem1, hrun, hreach⟩ :=
    reachable_of_run sampleDefines sampleSession (fun _ => 0) flushCalls
      sampleSession_reachable (by decide)
  have hs : (run sampleDefines sampleSession (fun _ => 0) flushCalls).map
      (fun r => (r.2.1.outputQueue, r.2.1.bufferContexts[0]?.map (·.queued)))
      = some ([0], some true) := by decide
  rw [hrun] at hs
  simp only [Option.map_some', Option.some.injEq, Prod.mk.injEq] at hs
  obtain ⟨h1, h3⟩ := hs
  cases hd : s1.bufferContexts[0]? with
  | none => rw [hd] at h3; simp at h3
  | some d =>
    rw [hd] at h3
    simp only [Option.map_some', Option.some.injEq] at h3
    exact ⟨s1, mem1, d, hreach, hd, h3, h1,
      queued_flag_implies_in_a_queue sampleDefines s1 mem1 hreach 0 d hd h3⟩

theorem readByte_storeLE32 (m : Mem) (a v x : Nat) :
    readByte (storeLE32 m a v) x
      = if a ≤ x ∧ x < a + 4 then (v / 2 ^ (8 * (x - a))) % 256 else readByte m x := by
  unfold readByte storeLE32
  split
  · exact Nat.mod_mod _ _
  · rfl

theorem readByte_storeLE64 (m : Mem) (a v x : Nat) :
    readByte (storeLE64 m a v) x
      = if a ≤ x ∧ x < a + 8 then (v / 2 ^ (8 * (x - a))) % 256 else readByte m x := by
  unfold readByte storeLE64
  split
  · exact Nat.mod_mod _ _
  · rfl

theorem loadLE32_storeLE32_same (m : Mem) (a v : Nat) :
    loadLE32 (storeLE32 m a v) a = v % 2 ^ 32 := by
  unfold loadLE32
  simp only [readByte_storeLE32]
  have h0 : a ≤ a ∧ a < a + 4 := by omega
  have h1 : a ≤ a + 1 ∧ a + 1 < a + 4 := by omega
  have h2 : a ≤ a + 2 ∧ a + 2 < a + 4 := by omega
  have h3 : a ≤ a + 3 ∧ a + 3 < a + 4 := by omega
  simp only [if_pos h0, if_pos h1, if_pos h2, if_pos h3, Nat.sub_self, Nat.add_sub_cancel_left]
  norm_num
  omega

theorem loadLE32_storeLE32_other (m : Mem) (a v b : Nat) (h : b + 4 ≤ a ∨ a + 4 ≤ b) :
    loadLE32 (storeLE32 m a v) b = loadLE32 m b := by
  unfold loadLE32
  simp only [readByte_storeLE32]
  have h0 : ¬ (a ≤ b ∧ b < a + 4) := by omega
  have h1 : ¬ (a ≤ b + 1 ∧ b + 1 < a + 4) := by omega
  have h2 : ¬ (a ≤ b + 2 ∧ b + 2 < a + 4) := by omega
  have h3 : ¬ (a ≤ b + 3 ∧ b + 3 < a + 4) := by omega
  simp only [if_neg h0, if_neg h1, if_neg h2, if_neg h3]

theorem loadLE32_storeLE64_other (m : Mem) (a v b : Nat) (h : b + 4 ≤ a ∨ a + 8 ≤ b) :
    loadLE32 (storeLE64 m a v) b = loadLE32 m b := by
  unfold loadLE32
  simp only [readByte_storeLE64]
  have h0 : ¬ (a ≤ b ∧ b < a + 8) := by omega
  have h1 : ¬ (a ≤ b + 1 ∧ b + 1 < a + 8) := by omega
  have h2 : ¬ (a ≤ b + 2 ∧ b + 2 < a + 8) := by omega
  have h3 : ¬ (a ≤ b + 3 ∧ b + 3 < a + 8) := by omega
  simp only [if_neg h0, if_neg h1, if_neg h2, if_neg h3]

theorem loadLE64_storeLE64_other (m : Mem) (a v b : Nat) (h : b + 8 ≤ a ∨ a + 8 ≤ b) :
    loadLE64 (storeLE64 m a v) b = loadLE64 m b := by
  unfold loadLE64
  rw [loadLE32_storeLE64_other m a v b (by omega),
    loadLE32_storeLE64_other m a v (b + 4) (by omega)]

theorem loadLE64_storeLE64_same (m : Mem) (a v : Nat) :
    loadLE64 (storeLE64 m a v) a = v % 2 ^ 64 := by
  unfold loadLE64 loadLE32
  simp only [readByte_storeLE64]
  have h0 : a ≤ a ∧ a < a + 8 := by omega
  have h1 : a ≤ a + 1 ∧ a + 1 < a + 8 := by omega
  have h2 : a ≤ a + 2 ∧ a + 2 < a + 8 := by omega
  have h3 : a ≤ a + 3 ∧ a + 3 < a + 8 := by omega
  have h4 : a ≤ a + 4 ∧ a + 4 < a + 8 := by omega
  have h5 : a ≤ a + 4 + 1 ∧ a + 4 + 1 < a + 8 := by omega
  have h6 : a ≤ a + 4 + 2 ∧ a + 4 + 2 < a + 8 := by omega
  have h7 : a ≤ a + 4 + 3 ∧ a + 4 + 3 < a + 8 := by omega
  have e5 : a + 4 + 1 - a = 5 := by omega
  have e6 : a + 4 + 2 - a = 6 := by omega
  have e7 : a + 4 + 3 - a = 7 := by omega
  simp only [if_pos h0, if_pos h1, if_pos h2, if_pos h3, if_pos h4, if_pos h5, if_pos h6,
    if_pos h7, Nat.sub_self, Nat.add_sub_cancel_left, e5, e6, e7]
  norm_num
  omega

theorem decodeTrailer_writeTrailer (K : BconDefines) (frame : Mem)
    (src payloadSize L status pixelFormat blockId timeStamp : Nat)
    (hL : 8 ≤ L) (hwrap : 3 * L < 2 ^ 32) :
    decodeTrailer K (writeTrailer frame src payloadSize L status pixelFormat blockId timeStamp)
        src payloadSize L
      = { magic := TrailerMagic, version := TrailerVersion
          status := status % 2 ^ 32, pixelFormat := pixelFormat % 2 ^ 32
          blockId := blockId % 2 ^ 64, timeStamp := timeStamp % 2 ^ 64 } := by
  have e2 : (2 * L) % 2 ^ 32 = 2 * L := Nat.mod_eq_of_lt (by omega)
  have e3 : (3 * L) % 2 ^ 32 = 3 * L := Nat.mod_eq_of_lt hwrap
  have hmagic : loadLE32 (writeTrailer frame src payloadSize L status pixelFormat blockId
      timeStamp) (src + payloadSize) = TrailerMagic := by
    unfold writeTrailer
    simp only
    rw [loadLE32_storeLE64_other _ _ _ _ (by omega), loadLE32_storeLE64_other _ _ _ _ (by omega),
      loadLE32_storeLE32_other _ _ _ _ (by omega), loadLE32_storeLE32_other _ _ _ _ (by omega),
      loadLE32_storeLE32_other _ _ _ _ (by omega), loadLE32_storeLE32_same]
    decide
  have hversion : loadLE32 (writeTrailer frame src payloadSize L status pixelFormat blockId
      timeStamp) (src + payloadSize + 4) = TrailerVersion := by
    unfold writeTrailer
    simp only
    rw [loadLE32_storeLE64_other _ _ _ _ (by omega), loadLE32_storeLE64_other _ _ _ _ (by omega),
      loadLE32_storeLE32_other _ _ _ _ (by omega), loadLE32_storeLE32_other _ _ _ _ (by omega),
      loadLE32_storeLE32_same]
    decide
  have hstatus : loadLE32 (writeTrailer frame src payloadSize L status pixelFormat blockId
      timeStamp) (src + payloadSize + L) = status % 2 ^ 32 := by
    unfold writeTrailer
    simp only
    rw [loadLE32_storeLE64_other _ _ _ _ (by omega), loadLE32_storeLE64_other _ _ _ _ (by omega),
      loadLE32_storeLE32_other _ _ _ _ (by omega), loadLE32_storeLE32_same]
  have hpf : loadLE32 (writeTrailer frame src payloadSize L status pixelFormat blockId
      timeStamp) (src + payloadSize + L + 4) = pixelFormat % 2 ^ 32 := by
    unfold writeTrailer
    simp only
    rw [loadLE32_storeLE64_other _ _ _ _ (by omega), loadLE32_storeLE64_other _ _ _ _ (by omega),
      loadLE32_storeLE32_same]
  have hbid : loadLE64 (writeTrailer frame src payloadSize L status pixelFormat blockId
      timeStamp) (src + payloadSize + 2 * L) = blockId % 2 ^ 64 := by
    unfold writeTrailer
    simp only
    rw [loadLE64_storeLE64_other _ _ _ _ (by omega), loadLE64_storeLE64_same]
  have hts : loadLE64 (writeTrailer frame src payloadSize L status pixelFormat blockId
      timeStamp) (src + payloadSize + 3 * L) = timeStamp % 2 ^ 64 := by
    unfold writeTrailer
    simp only
    rw [loadLE64_storeLE64_same]
  unfold decodeTrailer
  simp only [e2, e3, hmagic, hversion, hstatus, hpf, hbid, hts]
  simp

theorem decodeTrailer_fallback (K : BconDefines) (dev : Mem) (src payloadSize L : Nat)
    (h : loadLE32 dev (src + payloadSize) ≠ TrailerMagic ∨
         (loadLE32 dev (src + payloadSize) = TrailerMagic ∧
          loadLE32 dev (src + payloadSize + 4) ≠ TrailerVersion)) :
    decodeTrailer K dev src payloadSize L
      = { magic := loadLE32 dev (src + payloadSize)
          version := if loadLE32 dev (src + payloadSize) ≠ TrailerMagic then 0
                     else loadLE32 dev (src + payloadSize + 4)
          status := K.BCON_E_BUFFER_INCOMPLETE, pixelFormat := 2 ^ 32 - 1
          blockId := UINT64_MAX, timeStamp := 0 } := by
  unfold decodeTrailer
  rcases h with h | ⟨h1, h2⟩
  · simp [h]
  · simp [h1, h2]

/-- C5 as stated fails for lines shorter than eight bytes.  With `payloadSize = 4` and
`height = 1` the line has four bytes, the status is written over the version, and the decoder
falls back: the decoded pixel format, block id and timestamp are not the written ones. -/
theorem trailer_round_trip_fails_on_short_lines :
    0 < 1 ∧ 1 ≤ 4 / 1 ∧
    (decodeTrailer sampleDefines
        (writeTrailer (fun _ => 0) 0x10000 4 (4 / 1) 0 0x01080001 1 100)
        0x10000 4 (bytesPerLineOf 4 1)).pixelFormat ≠ 0x01080001 ∧
    (decodeTrailer sampleDefines
        (writeTrailer (fun _ => 0) 0x10000 4 (4 / 1) 0 0x01080001 1 100)
        0x10000 4 (bytesPerLineOf 4 1)).blockId ≠ 1 ∧
    (decodeTrailer sampleDefines
        (writeTrailer (fun _ => 0) 0x10000 4 (4 / 1) 0 0x01080001 1 100)
        0x10000 4 (bytesPerLineOf 4 1)).timeStamp ≠ 100 := by
  decide

/-- C5 as amended (trailer round trip).  Let the line have at least eight bytes
(`bytesPerLine = payloadSize / height ≥ 8`, with `3 * bytesPerLine` below `2^32`).  For every
32-bit status and pixel format and every 64-bit block id and timestamp, write the trailer into
the frame at the offsets of the layout and let `DequeueV4L2Buffer` take the frame for the pending slot
`front`: the decoded trailer has the magic, the version and exactly the four written values, the
call is defined, and the slot holds that trailer and the written status. -/
theorem trailer_round_trip (K : BconDefines) (s : StreamData) (mem : Mem) (io : DequeueReply)
    (front : Nat) (rest : List Nat) (d : BufferContextData) (vbuf : V4L2Buffer) (n : Nat)
    (frame : Mem) (status pixelFormat blockId timeStamp : Nat)
    (hq : s.inputQueue = front :: rest) (hd : s.bufferContexts[front]? = some d)
    (hp : d.pBuffer ≠ 0) (hv : s.v4l2Buffers[io.index]? = some vbuf) (hh : 0 < s.height)
    (hdq : ¬ io.dqbuf.ret < 0)
    (hn : payloadCopySize io.bytesused (bytesPerLineOf s.payloadSize s.height) = (n : Int))
    (hL : 8 ≤ s.payloadSize / s.height) (hwrap : 3 * (s.payloadSize / s.height) < 2 ^ 32)
    (hst : status < 2 ^ 32) (hpf : pixelFormat < 2 ^ 32)
    (hbid : blockId < 2 ^ 64) (hts : timeStamp < 2 ^ 64)
    (hdev : io.dev = writeTrailer frame vbuf.start s.payloadSize (s.payloadSize / s.height)
              status pixelFormat blockId timeStamp) :
    decodeTrailer K io.dev vbuf.start s.payloadSize (bytesPerLineOf s.payloadSize s.height)
      = { magic := TrailerMagic, version := TrailerVersion, status := status
          pixelFormat := pixelFormat, blockId := blockId, timeStamp := timeStamp } ∧
    ∃ s1 mem1 d1, DequeueV4L2Buffer K s mem io = some (io.qbuf.ret, s1, mem1) ∧
      s1.bufferContexts[front]? = some d1 ∧
      d1.trailer = { magic := TrailerMagic, version := TrailerVersion, status := status
                     pixelFormat := pixelFormat, blockId := blockId, timeStamp := timeStamp } ∧
      d1.status = status := by
  have hbpl : bytesPerLineOf s.payloadSize s.height = s.payloadSize / s.height := by
    unfold bytesPerLineOf; exact Nat.mod_eq_of_lt (by omega)
  have hdec : decodeTrailer K io.dev vbuf.start s.payloadSize
      (bytesPerLineOf s.payloadSize s.height)
      = { magic := TrailerMagic, version := TrailerVersion, status := status
          pixelFormat := pixelFormat, blockId := blockId, timeStamp := timeStamp } := by
    rw [hbpl, hdev, decodeTrailer_writeTrailer K frame _ _ _ _ _ _ _ hL hwrap,
      Nat.mod_eq_of_lt hst, Nat.mod_eq_of_lt hpf, Nat.mod_eq_of_lt hbid, Nat.mod_eq_of_lt hts]
  have hm := dequeue_moves K s mem io front rest d vbuf n hq hd hp hv (by omega) hdq hn
  refine ⟨hdec, _, _,
    { d with queued := false
             trailer := decodeTrailer K io.dev vbuf.start s.payloadSize
               (bytesPerLineOf s.payloadSize s.height)
             status := (decodeTrailer K io.dev vbuf.start s.payloadSize
               (bytesPerLineOf s.payloadSize s.height)).status }, hm, ?_, ?_, ?_⟩
  · simp only
    exact List.getElem?_set_self (getElem?_some_lt hd)
  · simp only [hdec]
  · simp only [hdec]

/-- Witness for the amended C5: the queued sample session takes a frame of two lines of eight
bytes whose trailer carries status 0, block id 1 and timestamp 100. -/
theorem trailer_round_trip_witness :
    decodeTrailer sampleDefines (sampleCompletion 0 1 100).dev 0x10000 16 (bytesPerLineOf 16 2)
      = { magic := TrailerMagic, version := TrailerVersion, status := 0
          pixelFormat := 0x01080001, blockId := 1, timeStamp := 100 } ∧
    ∃ s1 mem1 d1, DequeueV4L2Buffer sampleDefines queuedSession (fun _ => 0)
        (sampleCompletion 0 1 100) = some (0, s1, mem1) ∧
      s1.bufferContexts[0]? = some d1 ∧
      d1.trailer = { magic := TrailerMagic, version := TrailerVersion, status := 0
                     pixelFormat := 0x01080001, blockId := 1, timeStamp := 100 } ∧
      d1.status = 0 :=
  trailer_round_trip sampleDefines queuedSession (fun _ => 0) (sampleCompletion 0 1 100)
    0 [] queuedSlot { start := 0x10000, length := 48 } 16 (fun _ => 0) 0 0x01080001 1 100
    (by decide) (by decide) (by decide) (by decide) (by decide) (by decide) (by decide)
    (by decide) (by decide) (by decide) (by decide) (by decide) (by decide) rfl

/-- C6 (trailer fallback).  If the four bytes at offset `payloadSize` of the frame are not the
magic, or they are and the next four bytes are not the version, then the decoded trailer has
status `BCON_E_BUFFER_INCOMPLETE`, pixel format `0xFFFFFFFF`, block id `UINT64_MAX` and
timestamp 0, whatever the other bytes of the frame are; `DequeueV4L2Buffer` is defined, moves
the slot from the front of the pending queue to the back of the ready queue, clears its `queued`
flag and gives it that trailer and the status `BCON_E_BUFFER_INCOMPLETE`. -/
theorem trailer_fallback (K : BconDefines) (s : StreamData) (mem : Mem) (io : DequeueReply)
    (front : Nat) (rest : List Nat) (d : BufferContextData) (vbuf : V4L2Buffer) (n : Nat)
    (hq : s.inputQueue = front :: rest) (hd : s.bufferContexts[front]? = some d)
    (hp : d.pBuffer ≠ 0) (hv : s.v4l2Buffers[io.index]? = some vbuf) (hh : 0 < s.height)
    (hdq : ¬ io.dqbuf.ret < 0)
    (hn : payloadCopySize io.bytesused (bytesPerLineOf s.payloadSize s.height) = (n : Int))
    (hbad : loadLE32 io.dev (vbuf.start + s.payloadSize) ≠ TrailerMagic ∨
      (loadLE32 io.dev (vbuf.start + s.payloadSize) = TrailerMagic ∧
       loadLE32 io.dev (vbuf.start + s.payloadSize + 4) ≠ TrailerVersion)) :
    ((decodeTrailer K io.dev vbuf.start s.payloadSize
        (bytesPerLineOf s.payloadSize s.height)).status = K.BCON_E_BUFFER_INCOMPLETE ∧
     (decodeTrailer K io.dev vbuf.start s.payloadSize
        (bytesPerLineOf s.payloadSize s.height)).pixelFormat = 0xFFFFFFFF ∧
     (decodeTrailer K io.dev vbuf.start s.payloadSize
        (bytesPerLineOf s.payloadSize s.height)).blockId = UINT64_MAX ∧
     (decodeTrailer K io.dev vbuf.start s.payloadSize
        (bytesPerLineOf s.payloadSize s.height)).timeStamp = 0) ∧
    ∃ s1 mem1 d1, DequeueV4L2Buffer K s mem io = some (io.qbuf.ret, s1, mem1) ∧
      s1.inputQueue = rest ∧ s1.outputQueue = s.outputQueue ++ [front] ∧
      s1.bufferContexts[front]? = some d1 ∧ d1.queued = false ∧
      d1.status = K.BCON_E_BUFFER_INCOMPLETE ∧
      d1.trailer.status = K.BCON_E_BUFFER_INCOMPLETE ∧ d1.trailer.pixelFormat = 0xFFFFFFFF ∧
      d1.trailer.blockId = UINT64_MAX ∧ d1.trailer.timeStamp = 0 := by
  have hdec := decodeTrailer_fallback K io.dev vbuf.start s.payloadSize
    (bytesPerLineOf s.payloadSize s.height) hbad
  have hm := dequeue_moves K s mem io front rest d vbuf n hq hd hp hv (by omega) hdq hn
  refine ⟨by rw [hdec]; exact ⟨rfl, rfl, rfl, rfl⟩, _, _,
    { d with queued := false
             trailer := decodeTrailer K io.dev vbuf.start s.payloadSize
               (bytesPerLineOf s.payloadSize s.height)
             status := (decodeTrailer K io.dev vbuf.start s.payloadSize
               (bytesPerLineOf s.payloadSize s.height)).status }, hm, rfl, rfl, ?_,
    rfl, ?_, ?_, ?_, ?_, ?_⟩
  · simp only
    exact List.getElem?_set_self (getElem?_some_lt hd)
  all_goals simp only [hdec]
  all_goals rfl

/-- Witness for C6: the queued sample session takes a frame of zeros. -/
theorem trailer_fallback_witness :
    ((decodeTrailer sampleDefines blankCompletion.dev 0x10000 16
        (bytesPerLineOf 16 2)).status = sampleDefines.BCON_E_BUFFER_INCOMPLETE ∧
     (decodeTrailer sampleDefines blankCompletion.dev 0x10000 16
        (bytesPerLineOf 16 2)).pixelFormat = 0xFFFFFFFF ∧
     (decodeTrailer sampleDefines blankCompletion.dev 0x10000 16
        (bytesPerLineOf 16 2)).blockId = UINT64_MAX ∧
     (decodeTrailer sampleDefines blankCompletion.dev 0x10000 16
        (bytesPerLineOf 16 2)).timeStamp = 0) ∧
    ∃ s1 mem1 d1, DequeueV4L2Buffer sampleDefines queuedSession (fun _ => 0) blankCompletion
        = some (0, s1, mem1) ∧
      s1.inputQueue = [] ∧ s1.outputQueue = [] ++ [0] ∧
      s1.bufferContexts[0]? = some d1 ∧ d1.queued = false ∧
      d1.status = sampleDefines.BCON_E_BUFFER_INCOMPLETE ∧
      d1.trailer.status = sampleDefines.BCON_E_BUFFER_INCOMPLETE ∧
      d1.trailer.pixelFormat = 0xFFFFFFFF ∧
      d1.trailer.blockId = UINT64_MAX ∧ d1.trailer.timeStamp = 0 :=
  trailer_fallback sampleDefines queuedSession (fun _ => 0) blankCompletion 0 [] queuedSlot
    { start := 0x10000, length := 48 } 16 (by decide) (by decide) (by decide) (by decide)
    (by decide) (by decide) (by decide) (Or.inl (by decide))

theorem resizeV4L2Buffers_length (v : List V4L2Buffer) (n : Nat) :
    (resizeV4L2Buffers v n).length = n := by
  unfold resizeV4L2Buffers
  simp
  omega

theorem prepareLoop_ok (maps : Nat → MapReply) : ∀ (todo i : Nat) (ret : Int) (errno : Nat)
    (s : StreamData), ¬ ret < 0 → i + todo ≤ s.v4l2Buffers.length →
    (∀ j, i ≤ j → j < i + todo → ¬ (maps j).qbuf.ret < 0 ∧ (maps j).start ≠ MAP_FAILED) →
    ∃ bufs evs, (prepareLoop maps todo i ret errno s).2.2
        = { s with v4l2Buffers := bufs, events := evs } ∧
      ¬ (prepareLoop maps todo i ret errno s).1 < 0 ∧
      bufs.length = s.v4l2Buffers.length ∧
      (∀ j, i ≤ j → j < i + todo →
        bufs[j]? = some { start := (maps j).start, length := (maps j).length }) ∧
      (∀ j, j < i → bufs[j]? = s.v4l2Buffers[j]?) := by
  intro todo
  induction todo with
  | zero =>
    intro i ret errno s hret _ _
    refine ⟨s.v4l2Buffers, s.events, rfl, hret, rfl, ?_, fun _ _ => rfl⟩
    intro j h1 h2; omega
  | succ todo ih =>
    intro i ret errno s hret hlen hmaps
    obtain ⟨hq, hm⟩ := hmaps i (by omega) (by omega)
    simp only [prepareLoop, if_neg hq, if_neg hm, StreamData.request]
    obtain ⟨bufs, evs, h1, h2, h3, h4, h5⟩ := ih (i + 1) (maps i).qbuf.ret (maps i).qbuf.errno
      { s with
        events := s.events ++ [Event.ioctl DeviceRequest.VIDIOC_QBUF] ++
          [Event.ioctl DeviceRequest.mmap]
        v4l2Buffers := s.v4l2Buffers.set i { start := (maps i).start, length := (maps i).length } }
      hq (by simp; omega) (fun j hj1 hj2 => hmaps j (by omega) (by omega))
    refine ⟨bufs, evs, h1, h2, by simpa using h3, ?_, ?_⟩
    · intro j hj1 hj2
      by_cases hji : j = i
      · subst hji
        rw [h5 j (by omega)]
        simp only
        exact List.getElem?_set_self (by omega)
      · exact h4 j (by omega) (by omega)
    · intro j hj
      rw [h5 j (by omega)]
      simp only
      exact List.getElem?_set_ne (by omega)

theorem prepare_ok (K : BconDefines) (s : StreamData) (maxNumBuffer : Nat) (req : ReqBufsReply)
    (maps : Nat → MapReply) (storage : Nat → ImageTrailer)
    (hreq : ¬ req.reply.ret < 0)
    (hmaps : ∀ j, j < req.count → ¬ (maps j).qbuf.ret < 0 ∧ (maps j).start ≠ MAP_FAILED) :
    ∃ bufs evs, BconAdapterStreamPrepareGrab K s maxNumBuffer req maps storage
      = (K.BCON_OK,
         { s with
            v4l2StreamingEnabled := false
            nBuffers := maxNumBuffer
            bufferContexts := ((List.range maxNumBuffer).map
              (fun i => BufferContextData.construct K (storage i))).map (BufferContextData.Clear K)
            inputQueue := [], outputQueue := []
            v4l2Buffers := bufs, events := evs }) ∧
      ¬ (PrepareV4L2Buffer { s with v4l2StreamingEnabled := false, bufferContexts := [] }
            maxNumBuffer req maps).1 < 0 ∧
      bufs.length = req.count ∧
      ∀ j, j < req.count →
        bufs[j]? = some { start := (maps j).start, length := (maps j).length } := by
  obtain ⟨bufs, evs, h1, h2, h3, h4, _⟩ := prepareLoop_ok maps req.count 0 req.reply.ret
    req.reply.errno
    { s with
      v4l2StreamingEnabled := false, bufferContexts := []
      events := s.events ++ [Event.ioctl DeviceRequest.VIDIOC_REQBUFS]
      nBuffers := maxNumBuffer
      v4l2Buffers := resizeV4L2Buffers s.v4l2Buffers req.count }
    hreq (by simp [resizeV4L2Buffers_length]) (fun j _ hj => hmaps j (by omega))
  have hP : PrepareV4L2Buffer { s with v4l2StreamingEnabled := false, bufferContexts := [] }
      maxNumBuffer req maps
      = prepareLoop maps req.count 0 req.reply.ret req.reply.errno
        { s with
          v4l2StreamingEnabled := false, bufferContexts := []
          events := s.events ++ [Event.ioctl DeviceRequest.VIDIOC_REQBUFS]
          nBuffers := maxNumBuffer
          v4l2Buffers := resizeV4L2Buffers s.v4l2Buffers req.count } := by
    simp only [PrepareV4L2Buffer, if_neg hreq, StreamData.request]
  refine ⟨bufs, evs, ?_, by rw [hP]; exact h2, by simpa [resizeV4L2Buffers_length] using h3,
    fun j hj => h4 j (by omega) (by omega)⟩
  unfold BconAdapterStreamPrepareGrab
  simp only
  rw [hP]
  generalize prepareLoop maps req.count 0 req.reply.ret req.reply.errno
        { s with
          v4l2StreamingEnabled := false, bufferContexts := []
          events := s.events ++ [Event.ioctl DeviceRequest.VIDIOC_REQBUFS]
          nBuffers := maxNumBuffer
          v4l2Buffers := resizeV4L2Buffers s.v4l2Buffers req.count } = r at h1 h2
  obtain ⟨ret, errno, s2⟩ := r
  simp only at h1 h2
  subst h1
  simp only [if_neg h2]

theorem configure_ok (K : BconDefines) (s : StreamData)
    (width height pf clock ppc : Nat) (getFmt : XioctlReply) (setFmt subdevFmt : SetFormatReply)
    (hErr : K.BCON_ERROR K.BCON_OK = false) (hbits : (pf >>> 16) &&& 0xFF ≤ 48)
    (hget : ¬ getFmt.ret < 0) (hset : ¬ setFmt.reply.ret < 0)
    (hsub : ¬ subdevFmt.reply.ret < 0) :
    BconAdapterStreamConfigureStreamingParameters K s width height pf clock ppc getFmt setFmt
        subdevFmt
      = (K.BCON_OK,
         { s with
            events := s.events ++ [Event.ioctl DeviceRequest.VIDIOC_G_FMT] ++
              [Event.ioctl DeviceRequest.VIDIOC_S_FMT] ++
              [Event.ioctl DeviceRequest.VIDIOC_SUBDEV_S_FMT]
            width := width, height := height, pixelFormatPfncValue := pf
            payloadSize := (setFmt.sizeimage + 2 ^ 32 - (TrailerExtraLines *
              ((width * ((((pf >>> 16) &&& 0xFF) + 4) / 8)) % 2 ^ 32)) % 2 ^ 32) % 2 ^ 32
            pixelsPerClockCycle := ppc },
         some ((setFmt.sizeimage + 2 ^ 32 - (TrailerExtraLines *
              ((width * ((((pf >>> 16) &&& 0xFF) + 4) / 8)) % 2 ^ 32)) % 2 ^ 32) % 2 ^ 32)) := by
  have hb : ¬ ((pf >>> 16) &&& 0xFF > 48) := by omega
  simp only [BconAdapterStreamConfigureStreamingParameters,
    BconAdapterStreamCalculateGrabberParams, if_neg hb, hErr, Bool.false_eq_true, if_false,
    if_neg hget, if_neg hset, if_neg hsub, StreamData.request]

theorem payload_arith (gw height : Nat) (h32 : gw * (height + 4) < 2 ^ 32) :
    (gw * (height + 4) + 2 ^ 32 - (TrailerExtraLines * gw) % 2 ^ 32) % 2 ^ 32 = gw * height := by
  unfold TrailerExtraLines
  have e : gw * (height + 4) = gw * height + 4 * gw := by ring
  rw [e] at h32 ⊢
  generalize gw * height = X at h32 ⊢
  omega

theorem copySize_arith (gw height : Nat) (hh : 0 < height) (h32 : gw * (height + 4) < 2 ^ 32)
    (hint : gw * height < 2 ^ 31) :
    bytesPerLineOf (gw * height) height = gw ∧
    payloadCopySize (gw * height + 4 * gw) (bytesPerLineOf (gw * height) height)
      = ((gw * height : Nat) : Int) := by
  have hdiv : gw * height / height = gw := Nat.mul_div_cancel gw hh
  have e : gw * (height + 4) = gw * height + 4 * gw := by ring
  rw [e] at h32
  have hb : bytesPerLineOf (gw * height) height = gw := by
    unfold bytesPerLineOf
    rw [hdiv]
    exact Nat.mod_eq_of_lt (by omega)
  refine ⟨hb, ?_⟩
  rw [hb]
  unfold payloadCopySize toInt32 TrailerExtraLines
  generalize gw * height = X at h32 hint ⊢
  have h1 : (X + 4 * gw + 2 ^ 32 - 4 * gw % 2 ^ 32) % 2 ^ 32 = X := by omega
  rw [h1]
  rw [if_pos hint]

theorem freshPool_cons (K : BconDefines) (storage : Nat → ImageTrailer) (n : Nat) (hn : 1 ≤ n) :
    ∃ rest, ((List.range n).map (fun i => BufferContextData.construct K (storage i))).map
        (BufferContextData.Clear K)
      = BufferContextData.Clear K (BufferContextData.construct K (storage 0)) :: rest ∧
      ∀ d ∈ rest, d.pBuffer = 0 := by
  obtain ⟨m, rfl⟩ : ∃ m, n = m + 1 := ⟨n - 1, by omega⟩
  rw [List.range_succ_eq_map]
  refine ⟨_, by simp only [List.map_cons]; rfl, ?_⟩
  intro d hd
  simp only [List.map_map, List.mem_map] at hd
  obtain ⟨j, _, rfl⟩ := hd
  rfl

theorem register_first (K : BconDefines) (s : StreamData) (p size : Nat)
    (d0 : BufferContextData) (rest : List BufferContextData)
    (hpool : s.bufferContexts = d0 :: rest) (hd0 : d0.pBuffer = 0)
    (hrest : ∀ d ∈ rest, d.pBuffer = 0) (hp : p ≠ 0) :
    BconAdapterStreamRegisterBuffer K s p size
      = (K.BCON_OK,
         { s with bufferContexts := { d0 with pBuffer := p, bufferSize := size } :: rest },
         some 1) := by
  have hno : ¬ ∃ d ∈ s.bufferContexts, d.pBuffer = p := by
    rintro ⟨d, hd, hdp⟩
    rw [hpool] at hd
    simp only [List.mem_cons] at hd
    rcases hd with rfl | hd
    · exact hp (hdp ▸ hd0)
    · exact hp (hdp ▸ hrest d hd)
  unfold BconAdapterStreamRegisterBuffer
  rw [if_neg hno]
  simp only [hpool, claimFirstFree, if_pos hd0, IndexToBufferHandle]

theorem queueBuffer_first (K : BconDefines) (s : StreamData) (ctx : Nat) (so : XioctlReply)
    (d0 : BufferContextData) (rest : List BufferContextData)
    (hpool : s.bufferContexts = d0 :: rest) (hn : 1 ≤ s.nBuffers) (hp : d0.pBuffer ≠ 0)
    (hq : d0.queued = false) (hs : s.v4l2StreamingEnabled = false) (hon : ¬ so.ret < 0) :
    BconAdapterStreamQueueBuffer K s 1 ctx so
      = some (K.BCON_OK,
          { s with
              bufferContexts :=
                BufferContextData.OnBeforeQueue K { d0 with userContext := ctx } :: rest
              inputQueue := s.inputQueue ++ [0]
              events := s.events ++ [Event.ioctl DeviceRequest.VIDIOC_STREAMON]
              v4l2StreamingEnabled := true }) := by
  have hidx : BufferHandleToIndex 1 = 0 := by decide
  have h1 : ¬ (0 ≥ s.nBuffers) := by omega
  unfold BconAdapterStreamQueueBuffer
  simp only [hidx, if_neg h1, hpool, List.getElem?_cons_zero, if_neg hp, hq,
    Bool.false_eq_true, if_false, QueueV4L2Buffer, StreamData.request, hs, List.set_cons_zero]
  simp [hon]

theorem copied_apply (mem : Mem) (dst : Nat) (dev : Mem) (src n i : Nat) (hi : i < n) :
    copied mem dst dev src n (dst + i) = readByte dev (src + i) := by
  unfold copied
  have h : dst ≤ dst + i ∧ dst + i < dst + n := by omega
  simp only [if_pos h, Nat.add_sub_cancel_left]

@[simp] theorem notifyReady_width (s : StreamData) : s.notifyReady.width = s.width := by
  unfold StreamData.notifyReady; split <;> rfl

@[simp] theorem notifyReady_height (s : StreamData) : s.notifyReady.height = s.height := by
  unfold StreamData.notifyReady; split <;> rfl

@[simp] theorem notifyReady_payloadSize (s : StreamData) :
    s.notifyReady.payloadSize = s.payloadSize := by
  unfold StreamData.notifyReady; split <;> rfl

theorem pumpBody_after_dequeue (K : BconDefines) (s : StreamData) (mem : Mem)
    (io : DequeueReply) (ret : Int) (sD : StreamData) (m : Mem)
    (hd : DequeueV4L2Buffer K s mem io = some (ret, sD, m)) (hin : sD.inputQueue = []) :
    ∃ running s5, PumpThreadBody K s mem io = some (running, s5, m) ∧
      s5.bufferContexts = sD.bufferContexts ∧ s5.outputQueue = sD.outputQueue ∧
      s5.inputQueue = [] ∧ s5.width = sD.width ∧ s5.height = sD.height ∧
      s5.payloadSize = sD.payloadSize := by
  unfold PumpThreadBody
  simp only [hd]
  by_cases hret : ret < 0
  · simp only [if_pos hret, BconAdapterStreamFlushBuffersImpl, hin, flushLoop]
    refine ⟨false, _, rfl, ?_, ?_, ?_, ?_, ?_, ?_⟩ <;> (split <;> simp)
  · simp only [if_neg hret]
    exact ⟨true, _, rfl, by simp, by simp, by simp [hin], by simp, by simp, by simp⟩

/-- C7 (end-to-end capture).  Configure a session for `width` x `height` with a pixel format of
at most 48 bits (device-side line width `gw`), where the device accepts the format and reports
`sizeimage = gw * (height + 4)`; prepare for at least one buffer; register one buffer `p`; queue
it with context `ctx`; let the device complete one frame of `bytesused = payloadSize +
4 * bytesPerLine` that carries a valid trailer with `status`, `pixelFormat`, `blockId` and
`timeStamp`.  All device calls succeed, `height > 0`, and the sizes fit the C types that hold
them (`sizeimage` a `uint32_t`, the copy length an `int`).  Then every call is defined and
returns `BCON_OK`, `payloadSize` is `gw * height`, `retrieveResult` returns handle 1, pointer
`p`, context `ctx`, the trailer values, `status` as error code, the configured width, height and
payload size, and the first `payloadSize` bytes of the caller's buffer are those of the device
frame. -/
theorem capture_scenario (K : BconDefines) (s0 : StreamData) (mem : Mem)
    (width height pf clock ppc : Nat) (getFmt : XioctlReply) (setFmt subdevFmt : SetFormatReply)
    (maxNumBuffer : Nat) (req : ReqBufsReply) (maps : Nat → MapReply)
    (storage : Nat → ImageTrailer) (p size ctx : Nat) (streamOn : XioctlReply)
    (io : DequeueReply) (gw status pixelFormat blockId timeStamp : Nat)
    (hErr : K.BCON_ERROR K.BCON_OK = false)
    (hbits : (pf >>> 16) &&& 0xFF ≤ 48)
    (hgw : gw = (width * ((((pf >>> 16) &&& 0xFF) + 4) / 8)) % 2 ^ 32)
    (hheight : 0 < height)
    (hget : ¬ getFmt.ret < 0) (hset : ¬ setFmt.reply.ret < 0)
    (hsub : ¬ subdevFmt.reply.ret < 0)
    (hsize : setFmt.sizeimage = gw * (height + 4)) (hsize32 : gw * (height + 4) < 2 ^ 32)
    (hint : gw * height < 2 ^ 31)
    (hmax : 1 ≤ maxNumBuffer)
    (hreq : ¬ req.reply.ret < 0)
    (hmaps : ∀ j, j < req.count → ¬ (maps j).qbuf.ret < 0 ∧ (maps j).start ≠ MAP_FAILED)
    (hp : p ≠ 0) (hon : ¬ streamOn.ret < 0)
    (hdq : ¬ io.dqbuf.ret < 0) (hidx : io.index < req.count)
    (hused : io.bytesused = gw * height + 4 * gw)
    (hmagic : loadLE32 io.dev ((maps io.index).start + gw * height) = TrailerMagic)
    (hversion : loadLE32 io.dev ((maps io.index).start + gw * height + 4) = TrailerVersion)
    (hstatus : loadLE32 io.dev ((maps io.index).start + gw * height + gw) = status)
    (hpixel : loadLE32 io.dev ((maps io.index).start + gw * height + gw + 4) = pixelFormat)
    (hblock : loadLE64 io.dev ((maps io.index).start + gw * height + 2 * gw) = blockId)
    (htime : loadLE64 io.dev ((maps io.index).start + gw * height + 3 * gw) = timeStamp) :
    ∃ s1 s2 s3 s4 s5 s6 running mem1,
      BconAdapterStreamConfigureStreamingParameters K s0 width height pf clock ppc getFmt setFmt
          subdevFmt = (K.BCON_OK, s1, some (gw * height)) ∧
      BconAdapterStreamPrepareGrab K s1 maxNumBuffer req maps storage = (K.BCON_OK, s2) ∧
      BconAdapterStreamRegisterBuffer K s2 p size = (K.BCON_OK, s3, some 1) ∧
      BconAdapterStreamQueueBuffer K s3 1 ctx streamOn = some (K.BCON_OK, s4) ∧
      PumpThreadBody K s4 mem io = some (running, s5, mem1) ∧
      BconAdapterStreamRetrieveResult K s5 true true
        = some (K.BCON_OK, s6,
            some { hBuffer := 1, pBuffer := p, userContext := ctx, payloadType := 0x0001
                   blockId := blockId, timeStamp := timeStamp, pixelFormat := pixelFormat
                   sizeX := width, sizeY := height, offsetX := 0, offsetY := 0
                   paddingX := 0, paddingY := 0, payloadSize := gw * height
                   errorCode := status },
            some 0) ∧
      ∀ i, i < gw * height → mem1 (p + i) = readByte io.dev ((maps io.index).start + i) := by
  -- configure
  have h1 := configure_ok K s0 width height pf clock ppc getFmt setFmt subdevFmt hErr hbits
    hget hset hsub
  rw [← hgw, hsize, payload_arith gw height hsize32] at h1
  -- prepare
  obtain ⟨bufs, evs, h2, _, _, hbufs⟩ := prepare_ok K
    { s0 with
        events := s0.events ++ [Event.ioctl DeviceRequest.VIDIOC_G_FMT] ++
          [Event.ioctl DeviceRequest.VIDIOC_S_FMT] ++
          [Event.ioctl DeviceRequest.VIDIOC_SUBDEV_S_FMT]
        width := width, height := height, pixelFormatPfncValue := pf
        payloadSize := gw * height, pixelsPerClockCycle := ppc }
    maxNumBuffer req maps storage hreq hmaps
  obtain ⟨rest, hpool, hrest⟩ := freshPool_cons K storage maxNumBuffer hmax
  rw [hpool] at h2
  simp only at h2
  -- register
  have h3 := register_first K
    { s0 with
        events := evs, width := width, height := height, pixelFormatPfncValue := pf
        payloadSize := gw * height, pixelsPerClockCycle := ppc, v4l2StreamingEnabled := false
        nBuffers := maxNumBuffer
        bufferContexts := BufferContextData.Clear K (BufferContextData.construct K (storage 0))
          :: rest
        inputQueue := [], outputQueue := [], v4l2Buffers := bufs }
    p size (BufferContextData.Clear K (BufferContextData.construct K (storage 0))) rest
    rfl rfl hrest hp
  simp only at h3
  -- queue
  have h4 := queueBuffer_first K
    { s0 with
        events := evs, width := width, height := height, pixelFormatPfncValue := pf
        payloadSize := gw * height, pixelsPerClockCycle := ppc, v4l2StreamingEnabled := false
        nBuffers := maxNumBuffer
        bufferContexts :=
          { BufferContextData.Clear K (BufferContextData.construct K (storage 0)) with
            pBuffer := p, bufferSize := size } :: rest
        inputQueue := [], outputQueue := [], v4l2Buffers := bufs }
    ctx streamOn
    { BufferContextData.Clear K (BufferContextData.construct K (storage 0)) with
      pBuffer := p, bufferSize := size } rest
    rfl hmax hp rfl rfl hon
  simp only [List.nil_append] at h4
  -- device completion
  obtain ⟨hbpl, hcopy⟩ := copySize_arith gw height hheight hsize32 hint
  have hdec : decodeTrailer K io.dev (maps io.index).start (gw * height) gw
      = { magic := TrailerMagic, version := TrailerVersion, status := status
          pixelFormat := pixelFormat, blockId := blockId, timeStamp := timeStamp } := by
    have e32 : gw * (height + 4) = gw * height + 4 * gw := by ring
    have e2 : (2 * gw) % 2 ^ 32 = 2 * gw := Nat.mod_eq_of_lt (by omega)
    have e3 : (3 * gw) % 2 ^ 32 = 3 * gw := Nat.mod_eq_of_lt (by omega)
    unfold decodeTrailer
    simp only [e2, e3, hmagic, hversion, hstatus, hpixel, hblock, htime]
    simp
  have h5 := dequeue_moves K
    { s0 with
        width := width, height := height, pixelFormatPfncValue := pf
        payloadSize := gw * height, pixelsPerClockCycle := ppc
        nBuffers := maxNumBuffer
        bufferContexts := BufferContextData.OnBeforeQueue K
          { BufferContextData.Clear K (BufferContextData.construct K (storage 0)) with
            pBuffer := p, bufferSize := size, userContext := ctx } :: rest
        inputQueue := [0], outputQueue := [], v4l2Buffers := bufs
        events := evs ++ [Event.ioctl DeviceRequest.VIDIOC_STREAMON]
        v4l2StreamingEnabled := true }
    mem io 0 []
    (BufferContextData.OnBeforeQueue K
      { BufferContextData.Clear K (BufferContextData.construct K (storage 0)) with
        pBuffer := p, bufferSize := size, userContext := ctx })
    { start := (maps io.index).start, length := (maps io.index).length } (gw * height)
    rfl (by simp) hp (hbufs io.index hidx) (by simp only; omega) hdq
    (by simp only; rw [hused]; exact hcopy)
  simp only [hbpl, hdec, List.set_cons_zero, List.nil_append] at h5
  obtain ⟨running, s5, h6, g1, g2, _, g4, g5, g6⟩ :=
    pumpBody_after_dequeue K _ mem io _ _ _ h5 rfl
  have h7 := retrieve_pops K s5 true 0 []
    { status := status, pBuffer := p, bufferSize := size, userContext := ctx, queued := false
      trailer := { magic := TrailerMagic, version := TrailerVersion, status := status
                   pixelFormat := pixelFormat, blockId := blockId, timeStamp := timeStamp } }
    (by rw [g2]) (by rw [g1]; simp [BufferContextData.OnBeforeQueue])
  simp only [g4, g5, g6, IndexToBufferHandle, List.length_nil, if_true] at h7
  exact ⟨_, _, _, _, _, _, _, _, h1, h2, h3, h4, h6, h7,
    fun i hi => copied_apply mem p io.dev (maps io.index).start (gw * height) i hi⟩

/-- Witness for C7, the scenario of the specification: 1600 x 1204 at one byte per pixel, one
buffer at `0x1000000` queued with context 7, a frame with trailer status 0, block id 42 and
timestamp 1000. -/
theorem capture_scenario_witness :
    ∃ s1 s2 s3 s4 s5 s6 running mem1,
      BconAdapterStreamConfigureStreamingParameters sampleDefines {} 1600 1204 0x01080001 0 1
          okReply captureSetFmt captureSetFmt = (sampleDefines.BCON_OK, s1, some 1926400) ∧
      BconAdapterStreamPrepareGrab sampleDefines s1 1 sampleReqBufs sampleMaps
          (fun _ => zeroTrailer) = (sampleDefines.BCON_OK, s2) ∧
      BconAdapterStreamRegisterBuffer sampleDefines s2 0x1000000 1926400
          = (sampleDefines.BCON_OK, s3, some 1) ∧
      BconAdapterStreamQueueBuffer sampleDefines s3 1 7 okReply
          = some (sampleDefines.BCON_OK, s4) ∧
      PumpThreadBody sampleDefines s4 (fun _ => 0) captureCompletion
          = some (running, s5, mem1) ∧
      BconAdapterStreamRetrieveResult sampleDefines s5 true true
        = some (sampleDefines.BCON_OK, s6,
            some { hBuffer := 1, pBuffer := 0x1000000, userContext := 7, payloadType := 0x0001
                   blockId := 42, timeStamp := 1000, pixelFormat := 0x01080001
                   sizeX := 1600, sizeY := 1204, offsetX := 0, offsetY := 0
                   paddingX := 0, paddingY := 0, payloadSize := 1926400
                   errorCode := 0 },
            some 0) ∧
      ∀ i, i < 1926400 →
        mem1 (0x1000000 + i) = readByte captureCompletion.dev (0x10000 + i) :=
  capture_scenario sampleDefines {} (fun _ => 0) 1600 1204 0x01080001 0 1 okReply captureSetFmt
    captureSetFmt 1 sampleReqBufs sampleMaps (fun _ => zeroTrailer) 0x1000000 1926400 7 okReply
    captureCompletion 1600 0 0x01080001 42 1000
    (by decide) (by decide) (by decide) (by decide) (by decide) (by decide) (by decide)
    (by decide) (by decide) (by decide) (by decide) (by decide) (by decide) (by decide)
    (by decide) (by decide) (by decide) (by decide) (by decide) (by decide) (by decide)
    (by decide) (by decide) (by decide)

/-- C8 as stated fails.  In the streaming sample session with slot 0 pending, stop before any
completion: stream-off succeeds, the blocked `VIDIOC_DQBUF` of the pump thread fails, the pump
thread flushes with `BCON_E_BUFFER_INCOMPLETE`.  The next `retrieveResult` returns `BCON_OK`
for handle 1 with error code `BCON_E_BUFFER_INCOMPLETE`, which is not
`BCON_E_BUFFER_CANCELLED`. -/
theorem stop_before_completion_not_cancelled :
    (streamingSession.inputQueue, streamingSession.outputQueue,
      streamingSession.v4l2StreamingEnabled, streamingSession.pumpThreadRun) = ([0], [], true, true) ∧
    (match BconAdapterStreamStopStreaming sampleDefines streamingSession (fun _ => 0) okReply
        abortedDequeue with
      | some (st, s1, _) =>
        (some st, (BconAdapterStreamRetrieveResult sampleDefines s1 true true).map
          (fun r => (r.1, r.2.2.1.map (fun g => (g.hBuffer, g.errorCode)))))
      | none => (none, none))
      = (some sampleDefines.BCON_OK,
         some (sampleDefines.BCON_OK, some (1, sampleDefines.BCON_E_BUFFER_INCOMPLETE))) ∧
    sampleDefines.BCON_E_BUFFER_INCOMPLETE ≠ sampleDefines.BCON_E_BUFFER_CANCELLED := by
  decide

/-- C8 as amended (stop before completion).  Let the pump thread be started, the device be
streaming and one slot be pending, with an empty ready queue.  If `stopStreaming` is called
before the device completes a frame (stream-off succeeds and the blocked dequeue of the pump
thread fails), it returns `BCON_OK` with the run flag and the streaming flag cleared and the
pending queue empty, and the next `retrieveResult` returns `BCON_OK` for that buffer (its
handle, pointer and context) with per-frame status `BCON_E_BUFFER_INCOMPLETE`. -/
theorem stop_before_completion (K : BconDefines) (s : StreamData) (mem : Mem)
    (streamOff : XioctlReply) (inFlight : DequeueReply) (i : Nat) (d : BufferContextData)
    (hthread : s.pumpThread ≠ 0) (hstreaming : s.v4l2StreamingEnabled = true)
    (hin : s.inputQueue = [i]) (hout : s.outputQueue = [])
    (hd : s.bufferContexts[i]? = some d)
    (hoff : ¬ streamOff.ret < 0) (hfail : inFlight.dqbuf.ret < 0) :
    ∃ s1 s2, BconAdapterStreamStopStreaming K s mem streamOff inFlight
        = some (K.BCON_OK, s1, mem) ∧
      s1.pumpThreadRun = false ∧ s1.v4l2StreamingEnabled = false ∧ s1.inputQueue = [] ∧
      BconAdapterStreamRetrieveResult K s1 true true
        = some (K.BCON_OK, s2,
            some { hBuffer := IndexToBufferHandle i, pBuffer := d.pBuffer
                   userContext := d.userContext, payloadType := 0x0001
                   blockId := d.trailer.blockId, timeStamp := d.trailer.timeStamp
                   pixelFormat := d.trailer.pixelFormat, sizeX := s.width, sizeY := s.height
                   offsetX := 0, offsetY := 0, paddingX := 0, paddingY := 0
                   payloadSize := s.payloadSize
                   errorCode := K.BCON_E_BUFFER_INCOMPLETE },
            some 0) := by
  have hlt := getElem?_some_lt hd
  have hstop : BconAdapterStreamStopStreaming K s mem streamOff inFlight
      = some (K.BCON_OK,
          StreamData.notifyReady { s with
            pumpThreadRun := false, v4l2StreamingEnabled := false
            events := s.events ++ [Event.ioctl DeviceRequest.VIDIOC_STREAMOFF] ++
              [Event.ioctl DeviceRequest.VIDIOC_DQBUF]
            bufferContexts := s.bufferContexts.set i
              { d with status := K.BCON_E_BUFFER_INCOMPLETE }
            inputQueue := [], outputQueue := [i] }, mem) := by
    unfold BconAdapterStreamStopStreaming
    simp only [hthread, ne_eq, not_false_eq_true, if_true, hstreaming, if_neg hoff,
      StreamData.request, PumpThreadBody, DequeueV4L2Buffer, if_pos hfail,
      BconAdapterStreamFlushBuffersImpl, hin, hout, flushLoop, hd, List.nil_append]
    by_cases hcb : s.streamBufferReadyCallback = 0 <;> simp [StreamData.notifyReady, hcb]
  have h7 := retrieve_pops K
      (StreamData.notifyReady { s with
            pumpThreadRun := false, v4l2StreamingEnabled := false
            events := s.events ++ [Event.ioctl DeviceRequest.VIDIOC_STREAMOFF] ++
              [Event.ioctl DeviceRequest.VIDIOC_DQBUF]
            bufferContexts := s.bufferContexts.set i
              { d with status := K.BCON_E_BUFFER_INCOMPLETE }
            inputQueue := [], outputQueue := [i] })
      true i [] { d with status := K.BCON_E_BUFFER_INCOMPLETE }
      (by simp) (by simp [List.getElem?_set_self hlt])
  simp only [notifyReady_width, notifyReady_height, notifyReady_payloadSize, List.length_nil,
    if_true] at h7
  refine ⟨_, _, hstop, ?_, ?_, ?_, h7⟩
  · unfold StreamData.notifyReady; split <;> rfl
  · unfold StreamData.notifyReady; split <;> rfl
  · simp

/-- Witness for the amended C8 on the streaming sample session. -/
theorem stop_before_completion_witness :
    ∃ s1 s2, BconAdapterStreamStopStreaming sampleDefines streamingSession (fun _ => 0) okReply
        abortedDequeue = some (sampleDefines.BCON_OK, s1, fun _ => 0) ∧
      s1.pumpThreadRun = false ∧ s1.v4l2StreamingEnabled = false ∧ s1.inputQueue = [] ∧
      BconAdapterStreamRetrieveResult sampleDefines s1 true true
        = some (sampleDefines.BCON_OK, s2,
            some { hBuffer := 1, pBuffer := 0x1000
                   userContext := 7, payloadType := 0x0001
                   blockId := 0, timeStamp := 0
                   pixelFormat := 0, sizeX := 8, sizeY := 2
                   offsetX := 0, offsetY := 0, paddingX := 0, paddingY := 0
                   payloadSize := 16
                   errorCode := sampleDefines.BCON_E_BUFFER_INCOMPLETE },
            some 0) :=
  stop_before_completion sampleDefines streamingSession (fun _ => 0) okReply abortedDequeue 0
    queuedSlot (by decide) (by decide) (by decide) (by decide) (by decide) (by decide)
    (by decide)

theorem step_distinct_inv (K : BconDefines) (s : StreamData) (mem : Mem) (c : ApiCall)
    (o : Outcome) (s1 : StreamData) (mem1 : Mem) (h : step K s mem c = some (o, s1, mem1))
    (hinv : ∀ (i j : Nat) (p : Nat), (s.bufferContexts[i]?).map (·.pBuffer) = some p →
      (s.bufferContexts[j]?).map (·.pBuffer) = some p → p ≠ 0 → i = j) :
    ∀ (i j : Nat) (p : Nat), (s1.bufferContexts[i]?).map (·.pBuffer) = some p →
      (s1.bufferContexts[j]?).map (·.pBuffer) = some p → p ≠ 0 → i = j := by
  intro i j p hi hj hp
  cases c with
  | registerBuffer q sz =>
    simp [step] at h
    obtain ⟨rfl, rfl, rfl⟩ := h
    rcases register_cases K s q sz with ⟨h1, _⟩ | ⟨idx, d, h0, _, hno, _, h1⟩
    · rw [h1] at hi hj; exact hinv i j p hi hj hp
    · rw [h1] at hi hj
      simp only at hi hj
      rw [getElem?_set_of_some h0] at hi hj
      have hold : ∀ k : Nat, (s.bufferContexts[k]?).map (·.pBuffer) ≠ some q := by
        intro k hk
        cases hk2 : s.bufferContexts[k]? with
        | none => rw [hk2] at hk; simp at hk
        | some e =>
          rw [hk2] at hk
          simp only [Option.map_some', Option.some.injEq] at hk
          exact hno e (List.getElem?_mem hk2) hk
      by_cases hii : idx = i <;> by_cases hjj : idx = j
      · omega
      · simp only [if_pos hii, if_neg hjj, Option.map_some', Option.some.injEq] at hi hj
        subst hi
        exact absurd hj (hold j)
      · simp only [if_neg hii, if_pos hjj, Option.map_some', Option.some.injEq] at hi hj
        subst hj
        exact absurd hi (hold i)
      · simp only [if_neg hii, if_neg hjj] at hi hj
        exact hinv i j p hi hj hp
  | deregisterBuffer hb pp =>
    simp [step] at h
    obtain ⟨rfl, rfl, rfl⟩ := h
    rcases deregister_cases K s hb pp with ⟨h1, _⟩ | ⟨d, h0, _, _, h1⟩
    · rw [h1] at hi hj; exact hinv i j p hi hj hp
    · rw [h1] at hi hj
      simp only at hi hj
      rw [getElem?_set_of_some h0] at hi hj
      by_cases hii : BufferHandleToIndex hb = i
      · simp only [if_pos hii, Option.map_some', Option.some.injEq,
          BufferContextData.Clear] at hi
        exact absurd hi.symm hp
      · by_cases hjj : BufferHandleToIndex hb = j
        · simp only [if_pos hjj, Option.map_some', Option.some.injEq,
            BufferContextData.Clear] at hj
          exact absurd hj.symm hp
        · simp only [if_neg hii, if_neg hjj] at hi hj
          exact hinv i j p hi hj hp
  | queueBuffer hb ctx so =>
    have hv := step_pointers K s mem _ o s1 mem1 h (by intro _ _ hc; cases hc)
      (by intro _ _ hc; cases hc)
    rw [hv i] at hi; rw [hv j] at hj
    exact hinv i j p hi hj hp
  | deviceCompletion io =>
    have hv := step_pointers K s mem _ o s1 mem1 h (by intro _ _ hc; cases hc)
      (by intro _ _ hc; cases hc)
    rw [hv i] at hi; rw [hv j] at hj
    exact hinv i j p hi hj hp
  | flushBuffers =>
    have hv := step_pointers K s mem _ o s1 mem1 h (by intro _ _ hc; cases hc)
      (by intro _ _ hc; cases hc)
    rw [hv i] at hi; rw [hv j] at hj
    exact hinv i j p hi hj hp
  | retrieveResult g n =>
    have hv := step_pointers K s mem _ o s1 mem1 h (by intro _ _ hc; cases hc)
      (by intro _ _ hc; cases hc)
    rw [hv i] at hi; rw [hv j] at hj
    exact hinv i j p hi hj hp

theorem reachable_distinct (K : BconDefines) (s : StreamData) (mem : Mem)
    (hr : Reachable K s mem) :
    ∀ (i j : Nat) (p : Nat), (s.bufferContexts[i]?).map (·.pBuffer) = some p →
      (s.bufferContexts[j]?).map (·.pBuffer) = some p → p ≠ 0 → i = j := by
  induction hr with
  | prepare s0 mem maxNumBuffer req maps storage s h hok =>
    obtain ⟨_, _, hall⟩ := reachable_prepare_fresh K s0 maxNumBuffer req maps storage s h hok
    intro i j p hi _ hp
    cases hd : s.bufferContexts[i]? with
    | none => rw [hd] at hi; simp at hi
    | some d =>
      rw [hd] at hi
      simp only [Option.map_some', Option.some.injEq] at hi
      exact absurd (hi ▸ (hall i d hd).1) hp
  | step s mem c o s1 mem1 _ hstep ih =>
    exact step_distinct_inv K s mem c o s1 mem1 hstep ih

/-- C9 (distinct registered pointers).  In every session reachable from a successful prepare
by register and deregister calls (and by queue, device completion, flush and retrieve steps as
well), two different slots never hold the same non-null pointer; and `registerBuffer` with the
pointer of a registered slot returns `BCON_E_BUFFER_ALREADY_REGISTERED`, writes no handle and
leaves the session, hence the pool, unchanged. -/
theorem registered_pointers_distinct (K : BconDefines) (s : StreamData) (mem : Mem)
    (hr : Reachable K s mem) :
    (∀ (i j : Nat) (d e : BufferContextData), s.bufferContexts[i]? = some d →
      s.bufferContexts[j]? = some e → d.pBuffer ≠ 0 → d.pBuffer = e.pBuffer → i = j) ∧
    (∀ (i : Nat) (d : BufferContextData) (size : Nat), s.bufferContexts[i]? = some d →
      d.pBuffer ≠ 0 →
      BconAdapterStreamRegisterBuffer K s d.pBuffer size
        = (K.BCON_E_BUFFER_ALREADY_REGISTERED, s, none)) := by
  constructor
  · intro i j d e hd he hp heq
    exact reachable_distinct K s mem hr i j d.pBuffer (by rw [hd]; rfl)
      (by rw [he]; simp [heq]) hp
  · intro i d size hd _
    have hex : ∃ e ∈ s.bufferContexts, e.pBuffer = d.pBuffer :=
      ⟨d, List.getElem?_mem hd, rfl⟩
    unfold BconAdapterStreamRegisterBuffer
    rw [if_pos hex]

/-- Witness for C9: the sample session is reachable, its two slots hold `0x1000` and `0x2000`,
and registering `0x1000` again is rejected without a change. -/
theorem registered_pointers_distinct_witness :
    Reachable sampleDefines sampleSession (fun _ => 0) ∧
    sampleSession.bufferContexts.map (·.pBuffer) = [0x1000, 0x2000] ∧
    BconAdapterStreamRegisterBuffer sampleDefines sampleSession (sampleSlot 0x1000 16).pBuffer 64
      = (sampleDefines.BCON_E_BUFFER_ALREADY_REGISTERED, sampleSession, none) :=
  ⟨sampleSession_reachable, by decide,
   (registered_pointers_distinct sampleDefines sampleSession (fun _ => 0)
      sampleSession_reachable).2 0 (sampleSlot 0x1000 16) 64 (by decide) (by decide)⟩

theorem claimFirstFree_first (p sz : Nat) : ∀ (l : List BufferContextData) (idx : Nat)
    (d : BufferContextData), l[idx]? = some d → d.pBuffer = 0 →
    (∀ (j : Nat), j < idx → ∀ e, l[j]? = some e → e.pBuffer ≠ 0) →
    claimFirstFree p sz l = some (idx, l.set idx { d with pBuffer := p, bufferSize := sz }) := by
  intro l
  induction l with
  | nil => intro idx d hd; simp at hd
  | cons a as ih =>
    intro idx d hd h0 hmin
    cases idx with
    | zero =>
      simp only [List.getElem?_cons_zero, Option.some.injEq] at hd
      subst hd
      simp only [claimFirstFree, if_pos h0, List.set_cons_zero]
    | succ k =>
      have ha : a.pBuffer ≠ 0 := hmin 0 (by omega) a (by simp)
      simp only [List.getElem?_cons_succ] at hd
      have := ih k d hd h0 (fun j hj e he => hmin (j + 1) (by omega) e (by simpa using he))
      simp only [claimFirstFree, if_neg ha, this, List.set_cons_succ]

/-- C10 as stated fails for the null pointer.  In the prepared sample session no slot is
registered and both slots are free, yet `registerBuffer(NULL, 16)` returns
`BCON_E_BUFFER_ALREADY_REGISTERED`, not `BCON_OK`, writes no handle and claims no slot: the
test for an already registered pointer compares `NULL` with the pointers of the free slots. -/
theorem register_null_pointer_rejected :
    preparedSession.bufferContexts.map (·.pBuffer) = [0, 0] ∧
    BconAdapterStreamRegisterBuffer sampleDefines preparedSession 0 16
      = (sampleDefines.BCON_E_BUFFER_ALREADY_REGISTERED, preparedSession, none) ∧
    sampleDefines.BCON_E_BUFFER_ALREADY_REGISTERED ≠ sampleDefines.BCON_OK := by
  decide

/-- C10 as amended (result of `registerBuffer`).  For every session and every non-null pointer
`p` that is not the pointer of a registered slot: if `idx` is the lowest index of a slot without
memory, `registerBuffer(p, size)` returns `BCON_OK` with handle `idx + 1` (not the zero handle),
stores `p` and `size` in that slot and changes nothing else, neither in that slot nor in any
other one; if no slot is free it returns `BCON_E_OPERATION_FAILED`, writes no handle and leaves
the session unchanged. -/
theorem register_result (K : BconDefines) (s : StreamData) (p size : Nat) (hp : p ≠ 0)
    (hnew : ∀ d ∈ s.bufferContexts, d.pBuffer ≠ 0 → d.pBuffer ≠ p) :
    (∀ (idx : Nat) (d : BufferContextData), s.bufferContexts[idx]? = some d → d.pBuffer = 0 →
      (∀ (j : Nat), j < idx → ∀ e, s.bufferContexts[j]? = some e → e.pBuffer ≠ 0) →
      BconAdapterStreamRegisterBuffer K s p size
        = (K.BCON_OK,
           { s with
               bufferContexts :=
                 s.bufferContexts.set idx { d with pBuffer := p, bufferSize := size } },
           some (IndexToBufferHandle idx)) ∧
      IndexToBufferHandle idx = idx + 1 ∧ IndexToBufferHandle idx ≠ 0 ∧
      (s.bufferContexts.set idx { d with pBuffer := p, bufferSize := size })[idx]?
        = some { d with pBuffer := p, bufferSize := size } ∧
      ∀ (j : Nat), j ≠ idx →
        (s.bufferContexts.set idx { d with pBuffer := p, bufferSize := size })[j]?
          = s.bufferContexts[j]?) ∧
    ((∀ d ∈ s.bufferContexts, d.pBuffer ≠ 0) →
      BconAdapterStreamRegisterBuffer K s p size = (K.BCON_E_OPERATION_FAILED, s, none)) := by
  have hno : ¬ ∃ d ∈ s.bufferContexts, d.pBuffer = p := by
    rintro ⟨d, hd, hdp⟩
    by_cases h0 : d.pBuffer = 0
    · exact hp (hdp ▸ h0)
    · exact hnew d hd h0 hdp
  constructor
  · intro idx d hd h0 hmin
    refine ⟨?_, rfl, by unfold IndexToBufferHandle; omega,
      List.getElem?_set_self (getElem?_some_lt hd),
      fun j hj => List.getElem?_set_ne (fun h => hj h.symm)⟩
    unfold BconAdapterStreamRegisterBuffer
    rw [if_neg hno]
    simp only [claimFirstFree_first p size s.bufferContexts idx d hd h0 hmin]
  · intro hfull
    unfold BconAdapterStreamRegisterBuffer
    rw [if_neg hno]
    simp only [(claimFirstFree_none p size s.bufferContexts).mpr hfull]

/-- Witness for the amended C10: registering `0x3000` in the prepared sample session claims
slot 0 and returns handle 1; in the sample session, where both slots are taken, it fails. -/
theorem register_result_witness :
    BconAdapterStreamRegisterBuffer sampleDefines preparedSession 0x3000 16
      = (sampleDefines.BCON_OK,
         { preparedSession with
             bufferContexts := preparedSession.bufferContexts.set 0
               { BufferContextData.construct sampleDefines zeroTrailer with
                 pBuffer := 0x3000, bufferSize := 16 } },
         some (IndexToBufferHandle 0)) ∧
    BconAdapterStreamRegisterBuffer sampleDefines sampleSession 0x3000 16
      = (sampleDefines.BCON_E_OPERATION_FAILED, sampleSession, none) :=
  ⟨((register_result sampleDefines preparedSession 0x3000 16 (by decide) (by decide)).1 0
      (BufferContextData.construct sampleDefines zeroTrailer) (by decide) (by decide)
      (by decide)).1,
   (register_result sampleDefines sampleSession 0x3000 16 (by decide) (by decide)).2
      (by decide)⟩

/-- C11, evaluated at the failing input.  In the sample session: `queueBuffer(1)`, one device
completion with a valid trailer, then `deregisterBuffer(1)` before any `retrieveResult`.  The
completion has cleared the `queued` flag, so `deregisterBuffer` does not return
`BCON_E_BUFFER_STILL_QUEUED`: it returns `BCON_OK`, writes the pointer `0x1000` and clears the
slot, which is still in the ready queue; the following `retrieveResult` returns handle 1 with a
null pointer. -/
theorem deregister_completed_slot_succeeds :
    (executed sampleDefines sampleSession (fun _ => 0) deregisterCompletedCalls).map
        (fun t => (t.after.inputQueue, t.after.outputQueue,
          t.after.bufferContexts.map (fun d => (d.pBuffer, d.queued))))
      = [([0], [], [(0x1000, true), (0x2000, false)]),
         ([], [0], [(0x1000, false), (0x2000, false)]),
         ([], [0], [(0, false), (0x2000, false)]),
         ([], [], [(0, false), (0x2000, false)])] ∧
    (executed sampleDefines sampleSession (fun _ => 0) deregisterCompletedCalls).map
        (fun t => outcomeSummary t.outcome)
      = [(some sampleDefines.BCON_OK, none, none), (none, none, none),
         (some sampleDefines.BCON_OK, some 0x1000, none),
         (some sampleDefines.BCON_OK, some 1, some 0)] ∧
    sampleDefines.BCON_OK ≠ sampleDefines.BCON_E_BUFFER_STILL_QUEUED := by
  decide

theorem deregister_invalid (K : BconDefines) (s : StreamData) (h : Nat) (pp : Bool)
    (hbad : BufferHandleToIndex h ≥ s.bufferContexts.length ∨
      ∃ e, s.bufferContexts[BufferHandleToIndex h]? = some e ∧ e.pBuffer = 0) :
    BconAdapterStreamDeregisterBuffer K s h pp = (K.BCON_E_INVALID_HANDLE, s, none) := by
  unfold BconAdapterStreamDeregisterBuffer
  simp only
  rcases hbad with hge | ⟨e, he, h0⟩
  · rw [if_pos hge]
  · have hlt := getElem?_some_lt he
    rw [if_neg (by omega)]
    simp only [he, if_pos h0]

/-- C12 (register/deregister round trip).  Let `p` be a non-null pointer that no registered slot
holds and let `idx` be the lowest slot without memory, in the unregistered state (size 0, null
context, not queued); the pool size fits `size_t`.  Then `registerBuffer(p, size)` returns
`BCON_OK` with handle `idx + 1`, the immediately following `deregisterBuffer` on that handle
returns `BCON_OK` and writes `p`, and afterwards every slot but `idx` is as before and slot
`idx` is unregistered again (null pointer, size 0, null context, not queued, status
`BCON_E_BUFFER_CANCELLED`, trailer as before), so that the session is exactly the one before the
registration when the slot had the status `BCON_E_BUFFER_CANCELLED` that `Clear` leaves.
`deregisterBuffer` on the zero handle, on a handle whose index is outside the pool or on an
unregistered slot returns `BCON_E_INVALID_HANDLE`, writes nothing and changes nothing. -/
theorem register_deregister_round_trip (K : BconDefines) (s : StreamData) (p size idx : Nat)
    (d : BufferContextData) (hp : p ≠ 0)
    (hnew : ∀ e ∈ s.bufferContexts, e.pBuffer ≠ 0 → e.pBuffer ≠ p)
    (hd : s.bufferContexts[idx]? = some d) (hfree : d.pBuffer = 0)
    (hmin : ∀ (j : Nat), j < idx → ∀ e, s.bufferContexts[j]? = some e → e.pBuffer ≠ 0)
    (hsize : d.bufferSize = 0) (hctx : d.userContext = 0) (hidle : d.queued = false)
    (hlen : s.bufferContexts.length ≤ UINTPTR_MAX) :
    (∃ s1, BconAdapterStreamRegisterBuffer K s p size
          = (K.BCON_OK, s1, some (IndexToBufferHandle idx)) ∧
        BconAdapterStreamDeregisterBuffer K s1 (IndexToBufferHandle idx) true
          = (K.BCON_OK,
             { s with bufferContexts :=
                 s.bufferContexts.set idx { d with status := K.BCON_E_BUFFER_CANCELLED } },
             some p) ∧
        (d.status = K.BCON_E_BUFFER_CANCELLED →
          BconAdapterStreamDeregisterBuffer K s1 (IndexToBufferHandle idx) true
            = (K.BCON_OK, s, some p))) ∧
    (∀ (pp : Bool), BconAdapterStreamDeregisterBuffer K s 0 pp
        = (K.BCON_E_INVALID_HANDLE, s, none)) ∧
    (∀ (h : Nat) (pp : Bool), BufferHandleToIndex h ≥ s.bufferContexts.length →
      BconAdapterStreamDeregisterBuffer K s h pp = (K.BCON_E_INVALID_HANDLE, s, none)) ∧
    (∀ (h : Nat) (pp : Bool) (e : BufferContextData),
      s.bufferContexts[BufferHandleToIndex h]? = some e → e.pBuffer = 0 →
      BconAdapterStreamDeregisterBuffer K s h pp = (K.BCON_E_INVALID_HANDLE, s, none)) := by
  have hlt := getElem?_some_lt hd
  have hreg := ((register_result K s p size hp hnew).1 idx d hd hfree hmin).1
  have hidx : BufferHandleToIndex (IndexToBufferHandle idx) = idx :=
    BufferHandleToIndex_handle idx (by omega)
  have hder : BconAdapterStreamDeregisterBuffer K
      { s with bufferContexts :=
          s.bufferContexts.set idx { d with pBuffer := p, bufferSize := size } }
      (IndexToBufferHandle idx) true
      = (K.BCON_OK,
         { s with bufferContexts :=
             s.bufferContexts.set idx { d with status := K.BCON_E_BUFFER_CANCELLED } },
         some p) := by
    unfold BconAdapterStreamDeregisterBuffer
    simp only [hidx, List.length_set, List.getElem?_set_self hlt]
    rw [if_neg (by omega)]
    simp only [if_neg hp, hidle, Bool.false_eq_true, if_false, if_true, List.set_set,
      BufferContextData.Clear]
    simp only [hfree, hsize, hctx, hidle]
  refine ⟨⟨_, hreg, hder, ?_⟩, ?_, ?_, ?_⟩
  · intro hst
    rw [hder]
    have hdd : { d with status := K.BCON_E_BUFFER_CANCELLED } = d := by rw [← hst]
    rw [hdd]
    have hset : s.bufferContexts.set idx d = s.bufferContexts := by
      apply List.ext_getElem?
      intro j
      rw [getElem?_set_of_some hd]
      split
      · rename_i hij; rw [← hij, hd]
      · rfl
    rw [hset]
  · intro pp
    exact deregister_invalid K s 0 pp (Or.inl (by
      have : BufferHandleToIndex 0 = UINTPTR_MAX := by decide
      omega))
  · intro h pp hge
    exact deregister_invalid K s h pp (Or.inl hge)
  · intro h pp e he h0
    exact deregister_invalid K s h pp (Or.inr ⟨e, he, h0⟩)

/-- Witness for C12: in the prepared sample session, registering `0x3000` and deregistering
handle 1 gives back `0x3000` and the prepared session. -/
theorem register_deregister_round_trip_witness :
    ∃ s1, BconAdapterStreamRegisterBuffer sampleDefines preparedSession 0x3000 16
        = (sampleDefines.BCON_OK, s1, some 1) ∧
      BconAdapterStreamDeregisterBuffer sampleDefines s1 1 true
        = (sampleDefines.BCON_OK, preparedSession, some 0x3000) :=
  let ⟨s1, h1, _, h3⟩ :=
    (register_deregister_round_trip sampleDefines preparedSession 0x3000 16 0
      (BufferContextData.construct sampleDefines zeroTrailer) (by decide) (by decide)
      (by decide) (by decide) (by decide) (by decide) (by decide) (by decide) (by decide)).1
  ⟨s1, h1, h3 (by decide)⟩

/-- C13 (double queue).  For every handle of a registered slot inside the pool, two calls of
`queueBuffer` with nothing in between are defined and the second returns
`BCON_E_BUFFER_ALREADY_QUEUED` and changes nothing (whatever the device answered to the first).
If the slot was idle and not in the pending queue before the first call, the pending queue
afterwards holds exactly one entry for the slot and the stored context is that of the first
call. -/
theorem double_queue_rejected (K : BconDefines) (s : StreamData) (h ctx1 ctx2 : Nat)
    (so1 so2 : XioctlReply) (d : BufferContextData)
    (hi : BufferHandleToIndex h < s.nBuffers)
    (hd : s.bufferContexts[BufferHandleToIndex h]? = some d) (hp : d.pBuffer ≠ 0) :
    ∃ st1 s1, BconAdapterStreamQueueBuffer K s h ctx1 so1 = some (st1, s1) ∧
      BconAdapterStreamQueueBuffer K s1 h ctx2 so2
        = some (K.BCON_E_BUFFER_ALREADY_QUEUED, s1) ∧
      (d.queued = false → BufferHandleToIndex h ∉ s.inputQueue →
        s1.inputQueue.count (BufferHandleToIndex h) = 1 ∧
        s1.inputQueue = s.inputQueue ++ [BufferHandleToIndex h] ∧
        ∃ d1, s1.bufferContexts[BufferHandleToIndex h]? = some d1 ∧ d1.userContext = ctx1 ∧
          d1.queued = true) := by
  have hlt := getElem?_some_lt hd
  have hnot : ¬ (BufferHandleToIndex h ≥ s.nBuffers) := by omega
  by_cases hq : d.queued = true
  · have h1 : BconAdapterStreamQueueBuffer K s h ctx1 so1
        = some (K.BCON_E_BUFFER_ALREADY_QUEUED, s) := by
      unfold BconAdapterStreamQueueBuffer
      simp only [if_neg hnot, hd, if_neg hp, hq, if_true]
    have h2 : BconAdapterStreamQueueBuffer K s h ctx2 so2
        = some (K.BCON_E_BUFFER_ALREADY_QUEUED, s) := by
      unfold BconAdapterStreamQueueBuffer
      simp only [if_neg hnot, hd, if_neg hp, hq, if_true]
    refine ⟨_, _, h1, h2, ?_⟩
    intro hf
    rw [hq] at hf
    exact absurd hf (by decide)
  · have hqf : d.queued = false := by simpa using hq
    have hsecond : ∀ (s1 : StreamData), s1.nBuffers = s.nBuffers →
        s1.bufferContexts = s.bufferContexts.set (BufferHandleToIndex h)
          (BufferContextData.OnBeforeQueue K { d with userContext := ctx1 }) →
        BconAdapterStreamQueueBuffer K s1 h ctx2 so2
          = some (K.BCON_E_BUFFER_ALREADY_QUEUED, s1) := by
      intro s1 hn hb
      have hnot1 : ¬ (BufferHandleToIndex h ≥ s1.nBuffers) := by omega
      unfold BconAdapterStreamQueueBuffer
      simp only [if_neg hnot1, hb, List.getElem?_set_self hlt,
        BufferContextData.OnBeforeQueue, if_neg hp, if_true]
    have hfacts : ∀ (s1 : StreamData),
        s1.inputQueue = s.inputQueue ++ [BufferHandleToIndex h] →
        s1.bufferContexts = s.bufferContexts.set (BufferHandleToIndex h)
          (BufferContextData.OnBeforeQueue K { d with userContext := ctx1 }) →
        (BufferHandleToIndex h ∉ s.inputQueue →
          s1.inputQueue.count (BufferHandleToIndex h) = 1 ∧
          s1.inputQueue = s.inputQueue ++ [BufferHandleToIndex h] ∧
          ∃ d1, s1.bufferContexts[BufferHandleToIndex h]? = some d1 ∧ d1.userContext = ctx1 ∧
            d1.queued = true) := by
      intro s1 hin hb hnotin
      refine ⟨?_, hin, _, by rw [hb]; exact List.getElem?_set_self hlt, rfl, rfl⟩
      rw [hin, List.count_append, List.count_eq_zero_of_not_mem hnotin]
      simp
    unfold BconAdapterStreamQueueBuffer
    simp only [if_neg hnot, hd, if_neg hp, hqf, Bool.false_eq_true, if_false, QueueV4L2Buffer,
      StreamData.request]
    by_cases hs : s.v4l2StreamingEnabled = true
    · simp only [hs, lt_self_iff_false, if_false, not_true_eq_false]
      exact ⟨_, _, rfl, hsecond _ rfl rfl, fun _ hn => hfacts _ rfl rfl hn⟩
    · by_cases hr : so1.ret < 0
      · simp only [hs, lt_self_iff_false, if_false, not_false_eq_true, if_true, if_pos hr]
        exact ⟨_, _, rfl, hsecond _ rfl rfl, fun _ hn => hfacts _ rfl rfl hn⟩
      · simp only [hs, lt_self_iff_false, if_false, not_false_eq_true, if_true, if_neg hr]
        exact ⟨_, _, rfl, hsecond _ rfl rfl, fun _ hn => hfacts _ rfl rfl hn⟩

/-- Witness for C13: handle 1 of the sample session is queued twice, with contexts 7 and 8. -/
theorem double_queue_rejected_witness :
    ∃ st1 s1, BconAdapterStreamQueueBuffer sampleDefines sampleSession 1 7 okReply
        = some (st1, s1) ∧
      BconAdapterStreamQueueBuffer sampleDefines s1 1 8 okReply
        = some (sampleDefines.BCON_E_BUFFER_ALREADY_QUEUED, s1) ∧
      s1.inputQueue.count 0 = 1 ∧
      ∃ d1, s1.bufferContexts[0]? = some d1 ∧ d1.userContext = 7 ∧ d1.queued = true :=
  let ⟨st1, s1, h1, h2, h3⟩ :=
    double_queue_rejected sampleDefines sampleSession 1 7 8 okReply okReply
      (sampleSlot 0x1000 16) (by decide) (by decide) (by decide)
  ⟨st1, s1, h1, h2, (h3 (by decide) (by decide)).1, (h3 (by decide) (by decide)).2.2⟩

/-- C14 (`queueBuffer` on an unregistered slot).  If the index of the handle lies inside the pool
and the slot has no memory registered, `queueBuffer` returns `BCON_E_INVALID_HANDLE` and the
session is the one before the call: slot, both queues, streaming flag and the trace of device
requests are unchanged. -/
theorem queue_unregistered_slot (K : BconDefines) (s : StreamData) (h ctx : Nat)
    (so : XioctlReply) (d : BufferContextData)
    (hi : BufferHandleToIndex h < s.nBuffers)
    (hd : s.bufferContexts[BufferHandleToIndex h]? = some d) (hp : d.pBuffer = 0) :
    BconAdapterStreamQueueBuffer K s h ctx so = some (K.BCON_E_INVALID_HANDLE, s) := by
  have hnot : ¬ (BufferHandleToIndex h ≥ s.nBuffers) := by omega
  unfold BconAdapterStreamQueueBuffer
  simp only [if_neg hnot, hd, if_pos hp]

/-- Witness for C14: handle 1 of the prepared sample session, where nothing is registered. -/
theorem queue_unregistered_slot_witness :
    BconAdapterStreamQueueBuffer sampleDefines preparedSession 1 7 okReply
      = some (sampleDefines.BCON_E_INVALID_HANDLE, preparedSession) :=
  queue_unregistered_slot sampleDefines preparedSession 1 7 okReply
    (BufferContextData.construct sampleDefines zeroTrailer) (by decide) (by decide) (by decide)

/-- C15 as stated fails.  In the sample session, prepared for two buffers, `queueBuffer` with
the zero handle and with handle 5 returns `BCON_OK`, not `BCON_E_INVALID_HANDLE`. -/
theorem queue_unknown_handle_returns_ok :
    sampleSession.nBuffers = 2 ∧ BufferHandleToIndex 0 = 2 ^ 32 - 1 ∧ BufferHandleToIndex 5 = 4 ∧
    BconAdapterStreamQueueBuffer sampleDefines sampleSession 0 7 okReply
      = some (sampleDefines.BCON_OK, sampleSession) ∧
    BconAdapterStreamQueueBuffer sampleDefines sampleSession 5 7 okReply
      = some (sampleDefines.BCON_OK, sampleSession) ∧
    sampleDefines.BCON_OK ≠ sampleDefines.BCON_E_INVALID_HANDLE := by
  decide

/-- C15 as amended (`queueBuffer` on an unknown buffer handle).  For every handle that denotes
no slot of the pool (its index is at least the prepared buffer count; this holds for the zero
handle whenever the buffer count fits `size_t`), `queueBuffer` returns `BCON_OK` and changes
nothing: extra buffers are ignored. -/
theorem queue_unknown_handle_ignored (K : BconDefines) (s : StreamData) (h ctx : Nat)
    (so : XioctlReply) (hunknown : BufferHandleToIndex h ≥ s.nBuffers) :
    BconAdapterStreamQueueBuffer K s h ctx so = some (K.BCON_OK, s) ∧
    (s.nBuffers ≤ UINTPTR_MAX →
      BconAdapterStreamQueueBuffer K s 0 ctx so = some (K.BCON_OK, s)) := by
  constructor
  · unfold BconAdapterStreamQueueBuffer
    simp only [if_pos hunknown]
  · intro hmax
    have h0 : BufferHandleToIndex 0 = UINTPTR_MAX := by decide
    have hge : BufferHandleToIndex 0 ≥ s.nBuffers := by omega
    unfold BconAdapterStreamQueueBuffer
    simp only [if_pos hge]

/-- Witness for the amended C15: handle 5 in the sample session. -/
theorem queue_unknown_handle_ignored_witness :
    BconAdapterStreamQueueBuffer sampleDefines sampleSession 5 7 okReply
      = some (sampleDefines.BCON_OK, sampleSession) ∧
    (sampleSession.nBuffers ≤ UINTPTR_MAX →
      BconAdapterStreamQueueBuffer sampleDefines sampleSession 0 7 okReply
        = some (sampleDefines.BCON_OK, sampleSession)) :=
  queue_unknown_handle_ignored sampleDefines sampleSession 5 7 okReply (by decide)

/-- C16 (effect of a successful `queueBuffer`).  For the handle of a registered slot inside the
pool that is not queued, when the stream-on request succeeds should it be issued, `queueBuffer`
returns `BCON_OK`.  Afterwards the slot has the `queued` flag set, the given context and the
status `BCON_E_BUFFER_CANCELLED`, pointer, size and trailer as before; the other slots are
unchanged; the pending queue is the old one with the slot appended, the ready queue is
unchanged; `VIDIOC_STREAMON` is the one device request issued if the stream was not streaming
before and no request is issued if it was; the stream is streaming; nothing else changed. -/
theorem queue_success_effect (K : BconDefines) (s : StreamData) (h ctx : Nat)
    (so : XioctlReply) (d : BufferContextData)
    (hi : BufferHandleToIndex h < s.nBuffers)
    (hd : s.bufferContexts[BufferHandleToIndex h]? = some d) (hp : d.pBuffer ≠ 0)
    (hq : d.queued = false) (hon : ¬ so.ret < 0) :
    BconAdapterStreamQueueBuffer K s h ctx so
      = some (K.BCON_OK,
          { s with
              bufferContexts := s.bufferContexts.set (BufferHandleToIndex h)
                { d with userContext := ctx, status := K.BCON_E_BUFFER_CANCELLED
                         queued := true }
              inputQueue := s.inputQueue ++ [BufferHandleToIndex h]
              v4l2StreamingEnabled := true
              events := s.events ++
                (if s.v4l2StreamingEnabled then []
                 else [Event.ioctl DeviceRequest.VIDIOC_STREAMON]) }) ∧
    (∀ (j : Nat), j ≠ BufferHandleToIndex h →
      (s.bufferContexts.set (BufferHandleToIndex h)
        { d with userContext := ctx, status := K.BCON_E_BUFFER_CANCELLED
                 queued := true })[j]? = s.bufferContexts[j]?) := by
  have hnot : ¬ (BufferHandleToIndex h ≥ s.nBuffers) := by omega
  refine ⟨?_, fun j hj => List.getElem?_set_ne (fun e => hj e.symm)⟩
  unfold BconAdapterStreamQueueBuffer
  simp only [if_neg hnot, hd, if_neg hp, hq, Bool.false_eq_true, if_false, QueueV4L2Buffer,
    StreamData.request, BufferContextData.OnBeforeQueue]
  by_cases hs : s.v4l2StreamingEnabled = true
  · simp [hs]
  · simp [hs, hon]

/-- Witness for C16: handle 1 of the sample session, which is not streaming. -/
theorem queue_success_effect_witness :
    BconAdapterStreamQueueBuffer sampleDefines sampleSession 1 7 okReply
      = some (sampleDefines.BCON_OK,
          { sampleSession with
              bufferContexts := sampleSession.bufferContexts.set 0
                { sampleSlot 0x1000 16 with
                  userContext := 7, status := sampleDefines.BCON_E_BUFFER_CANCELLED
                  queued := true }
              inputQueue := [0]
              v4l2StreamingEnabled := true
              events := sampleSession.events ++ [Event.ioctl DeviceRequest.VIDIOC_STREAMON] }) :=
  (queue_success_effect sampleDefines sampleSession 1 7 okReply (sampleSlot 0x1000 16)
    (by decide) (by decide) (by decide) (by decide) (by decide)).1

/-- C17 (`retrieveResult` on an empty ready queue).  With an empty ready queue and a non-null
result pointer, `retrieveResult` returns `BCON_E_NO_BUFFER_AVAILABLE`; the session is the one
before the call (pool, queues, streaming flag, and the trace: no callback invocation) and
neither the grab result nor the buffers-left counter is written. -/
theorem retrieve_empty (K : BconDefines) (s : StreamData) (n : Bool)
    (hempty : s.outputQueue = []) :
    BconAdapterStreamRetrieveResult K s true n
      = some (K.BCON_E_NO_BUFFER_AVAILABLE, s, none, none) := by
  unfold BconAdapterStreamRetrieveResult
  simp [hempty]

/-- Witness for C17: the sample session, whose ready queue is empty. -/
theorem retrieve_empty_witness :
    BconAdapterStreamRetrieveResult sampleDefines sampleSession true true
      = some (sampleDefines.BCON_E_NO_BUFFER_AVAILABLE, sampleSession, none, none) :=
  retrieve_empty sampleDefines sampleSession true (by decide)

/-- C18 (successful `retrieveResult`).  With a non-null result pointer and a ready queue whose
oldest entry `front` is a slot of the pool, `retrieveResult` returns `BCON_OK`.  It removes
exactly `front` from the ready queue (the rest keeps its order, the pending queue is
unchanged); reports handle `front + 1`, the registered pointer, the queued context, block id,
timestamp and pixel format of the slot's trailer, the configured width, height and payload size
and the slot's status as error code; clears the slot's `queued` flag (and resets its status);
writes the remaining ready count to the buffers-left output when that is requested; and, when a
ready-callback is registered, invokes it exactly once, with that remaining count. -/
theorem retrieve_success (K : BconDefines) (s : StreamData) (n : Bool) (front : Nat)
    (rest : List Nat) (d : BufferContextData)
    (hq : s.outputQueue = front :: rest) (hd : s.bufferContexts[front]? = some d) :
    BconAdapterStreamRetrieveResult K s true n
      = some (K.BCON_OK,
          { s with
              bufferContexts := s.bufferContexts.set front
                { d with status := K.BCON_E_BUFFER_CANCELLED, queued := false }
              outputQueue := rest
              events := s.events ++
                (if s.streamBufferReadyCallback ≠ 0 then [Event.callback rest.length]
                 else []) },
          some { hBuffer := front + 1, pBuffer := d.pBuffer
                 userContext := d.userContext, payloadType := 0x0001
                 blockId := d.trailer.blockId, timeStamp := d.trailer.timeStamp
                 pixelFormat := d.trailer.pixelFormat, sizeX := s.width, sizeY := s.height
                 offsetX := 0, offsetY := 0, paddingX := 0, paddingY := 0
                 payloadSize := s.payloadSize, errorCode := d.status },
          if n then some rest.length else none) ∧
    (∀ (j : Nat), j ≠ front →
      (s.bufferContexts.set front
        { d with status := K.BCON_E_BUFFER_CANCELLED, queued := false })[j]?
        = s.bufferContexts[j]?) := by
  refine ⟨?_, fun j hj => List.getElem?_set_ne (fun e => hj e.symm)⟩
  rw [retrieve_pops K s n front rest d hq hd]
  unfold StreamData.notifyReady
  by_cases hcb : s.streamBufferReadyCallback = 0
  · simp [hcb, BufferContextData.OnDeQueue, IndexToBufferHandle]
  · simp [hcb, BufferContextData.OnDeQueue, IndexToBufferHandle]

/-- Witness for C18: the sample session with slots 0 and 1 ready and a callback registered. -/
theorem retrieve_success_witness :
    BconAdapterStreamRetrieveResult sampleDefines readySession true true
      = some (sampleDefines.BCON_OK,
          { readySession with
              bufferContexts := readySession.bufferContexts.set 0
                { sampleSlot 0x1000 16 with
                  status := sampleDefines.BCON_E_BUFFER_CANCELLED, queued := false }
              outputQueue := [1]
              events := readySession.events ++ [Event.callback 1] },
          some { hBuffer := 1, pBuffer := 0x1000
                 userContext := 0, payloadType := 0x0001
                 blockId := 0, timeStamp := 0
                 pixelFormat := 0, sizeX := 8, sizeY := 2
                 offsetX := 0, offsetY := 0, paddingX := 0, paddingY := 0
                 payloadSize := 16, errorCode := sampleDefines.BCON_E_BUFFER_CANCELLED },
          some 1) :=
  (retrieve_success sampleDefines readySession true 0 [1] (sampleSlot 0x1000 16) (by decide)
    (by decide)).1

/-- C19, evaluated at the failing input.  On the empty registry, `BconAdapterStreamCreate` is
called twice for the device identifier `bcon0`.  The new session never receives the
identifier (its `deviceID` stays empty), so the search for an existing session finds nothing the
second time: both calls return `BCON_OK`, the handles are 1 and 2, and the registry holds two
sessions after the second call, one after the first. -/
theorem create_twice_allocates_two_sessions :
    (BconAdapterStreamCreate sampleDefines emptyRegistry "bcon0").1 = sampleDefines.BCON_OK ∧
    (BconAdapterStreamCreate sampleDefines emptyRegistry "bcon0").2.2 = some 1 ∧
    (BconAdapterStreamCreate sampleDefines emptyRegistry "bcon0").2.1.g_theStreams.length = 1 ∧
    (BconAdapterStreamCreate sampleDefines emptyRegistry "bcon0").2.1.g_theStreams.map
        (fun e => e.2.deviceID) = [""] ∧
    (BconAdapterStreamCreate sampleDefines
        (BconAdapterStreamCreate sampleDefines emptyRegistry "bcon0").2.1 "bcon0").1
      = sampleDefines.BCON_OK ∧
    (BconAdapterStreamCreate sampleDefines
        (BconAdapterStreamCreate sampleDefines emptyRegistry "bcon0").2.1 "bcon0").2.2
      = some 2 ∧
    (BconAdapterStreamCreate sampleDefines
        (BconAdapterStreamCreate sampleDefines emptyRegistry "bcon0").2.1
        "bcon0").2.1.g_theStreams.length = 2 := by
  decide

/-- C20 (parameter check of configureFormat).  `BCON_ERROR` holds for
`BCON_E_INVALID_PARAMETER` and not for `BCON_OK`.  If the bits-per-pixel field
`(tag >> 16) & 0xFF` of the pixel format exceeds 48, then
`BconAdapterStreamConfigureStreamingParameters` returns `BCON_E_INVALID_PARAMETER`, the session
is the one before the call (stored width, height, pixel format and payload size unchanged, no
device request issued) and the payload-size output is not written.  If the field is at most 48,
`BconAdapterStreamCalculateGrabberParams` returns `BCON_OK` and the check does not fail. -/
theorem configure_parameter_check (K : BconDefines) (s : StreamData)
    (width height pf clock ppc : Nat) (getFmt : XioctlReply) (setFmt subdevFmt : SetFormatReply)
    (hErr : K.BCON_ERROR K.BCON_E_INVALID_PARAMETER = true)
    (hOk : K.BCON_ERROR K.BCON_OK = false) :
    ((pf >>> 16) &&& 0xFF > 48 →
      BconAdapterStreamCalculateGrabberParams K 0 width pf = (K.BCON_E_INVALID_PARAMETER, 0) ∧
      BconAdapterStreamConfigureStreamingParameters K s width height pf clock ppc getFmt setFmt
          subdevFmt = (K.BCON_E_INVALID_PARAMETER, s, none)) ∧
    ((pf >>> 16) &&& 0xFF ≤ 48 →
      (BconAdapterStreamCalculateGrabberParams K 0 width pf).1 = K.BCON_OK ∧
      K.BCON_ERROR (BconAdapterStreamCalculateGrabberParams K 0 width pf).1 = false) := by
  constructor
  · intro hbig
    constructor
    · simp only [BconAdapterStreamCalculateGrabberParams, if_pos hbig]
    · simp only [BconAdapterStreamConfigureStreamingParameters,
        BconAdapterStreamCalculateGrabberParams, if_pos hbig, hErr, if_true]
  · intro hsmall
    have hb : ¬ ((pf >>> 16) &&& 0xFF > 48) := by omega
    simp only [BconAdapterStreamCalculateGrabberParams, if_neg hb, hOk, and_self]

/-- Witness for C20: a pixel format tag with 64 bits per pixel on a new session, and the tag of
an 8-bit format. -/
theorem configure_parameter_check_witness :
    (BconAdapterStreamCalculateGrabberParams sampleDefines 0 1600 0x01400001
        = (sampleDefines.BCON_E_INVALID_PARAMETER, 0) ∧
      BconAdapterStreamConfigureStreamingParameters sampleDefines {} 1600 1204 0x01400001 0 1
          okReply captureSetFmt captureSetFmt
        = (sampleDefines.BCON_E_INVALID_PARAMETER, {}, none)) ∧
    ((BconAdapterStreamCalculateGrabberParams sampleDefines 0 1600 0x01080001).1
        = sampleDefines.BCON_OK ∧
      sampleDefines.BCON_ERROR
        (BconAdapterStreamCalculateGrabberParams sampleDefines 0 1600 0x01080001).1 = false) :=
  ⟨(configure_parameter_check sampleDefines {} 1600 1204 0x01400001 0 1 okReply captureSetFmt
      captureSetFmt (by decide) (by decide)).1 (by decide),
   (configure_parameter_check sampleDefines {} 1600 1204 0x01080001 0 1 okReply captureSetFmt
      captureSetFmt (by decide) (by decide)).2 (by decide)⟩

/-- C21: payload size excludes the trailer lines.  When the pixel format is accepted, the three
device requests succeed and the device reports `sizeimage = gw * (height + 4)` for the grabber
width `gw = width * bytesPerPixel` without 32-bit overflow, then
`BconAdapterStreamConfigureStreamingParameters` returns and stores the payload size
`gw * height`; the bytes-per-line that `DequeueV4L2Buffer` derives from it is `gw`; and the trailer
decoder reads magic and version at offset `gw * height`, status and pixel format at
`gw * height + gw`, the block id at `gw * height + 2 * gw` and the timestamp at
`gw * height + 3 * gw` of the device buffer. -/
theorem payload_excludes_trailer (K : BconDefines) (s : StreamData)
    (width height pf clock ppc : Nat) (getFmt : XioctlReply) (setFmt subdevFmt : SetFormatReply)
    (gw : Nat) (dev : Mem) (src : Nat)
    (hErr : K.BCON_ERROR K.BCON_OK = false)
    (hbits : (pf >>> 16) &&& 0xFF ≤ 48)
    (hgw : gw = width * ((((pf >>> 16) &&& 0xFF) + 4) / 8))
    (hheight : 0 < height)
    (hget : ¬ getFmt.ret < 0) (hset : ¬ setFmt.reply.ret < 0)
    (hsub : ¬ subdevFmt.reply.ret < 0)
    (hsize : setFmt.sizeimage = gw * (height + 4)) (h32 : gw * (height + 4) < 2 ^ 32) :
    ∃ s1, BconAdapterStreamConfigureStreamingParameters K s width height pf clock ppc getFmt
          setFmt subdevFmt = (K.BCON_OK, s1, some (gw * height)) ∧
      s1.payloadSize = gw * height ∧ s1.height = height ∧
      bytesPerLineOf s1.payloadSize s1.height = gw ∧
      decodeTrailer K dev src s1.payloadSize (bytesPerLineOf s1.payloadSize s1.height)
        = (if loadLE32 dev (src + gw * height) = TrailerMagic ∧
              loadLE32 dev (src + gw * height + 4) = TrailerVersion then
            { magic := TrailerMagic, version := TrailerVersion
              status := loadLE32 dev (src + gw * height + gw)
              pixelFormat := loadLE32 dev (src + gw * height + gw + 4)
              blockId := loadLE64 dev (src + gw * height + 2 * gw)
              timeStamp := loadLE64 dev (src + gw * height + 3 * gw) }
          else
            { magic := loadLE32 dev (src + gw * height)
              version := if loadLE32 dev (src + gw * height) ≠ TrailerMagic then 0
                         else loadLE32 dev (src + gw * height + 4)
              status := K.BCON_E_BUFFER_INCOMPLETE, pixelFormat := 2 ^ 32 - 1
              blockId := UINT64_MAX, timeStamp := 0 }) := by
  have hexp : gw * (height + 4) = gw * height + 4 * gw := by ring
  have hle : gw ≤ gw * height := Nat.le_mul_of_pos_right gw hheight
  have hgw32 : gw < 2 ^ 32 := by omega
  have hmod : (width * ((((pf >>> 16) &&& 0xFF) + 4) / 8)) % 2 ^ 32 = gw := by
    rw [← hgw]; exact Nat.mod_eq_of_lt hgw32
  have hcfg := configure_ok K s width height pf clock ppc getFmt setFmt subdevFmt hErr hbits
    hget hset hsub
  rw [hmod, hsize, payload_arith gw height h32] at hcfg
  have hbpl : bytesPerLineOf (gw * height) height = gw := by
    unfold bytesPerLineOf
    rw [Nat.mul_div_cancel _ hheight]
    exact Nat.mod_eq_of_lt hgw32
  refine ⟨_, hcfg, rfl, rfl, hbpl, ?_⟩
  show decodeTrailer K dev src (gw * height) (bytesPerLineOf (gw * height) height) = _
  rw [hbpl]
  have h2 : (2 * gw) % 2 ^ 32 = 2 * gw := Nat.mod_eq_of_lt (by omega)
  have h3 : (3 * gw) % 2 ^ 32 = 3 * gw := Nat.mod_eq_of_lt (by omega)
  unfold decodeTrailer
  simp only [h2, h3]
  by_cases hm : loadLE32 dev (src + gw * height) = TrailerMagic
  · by_cases hv : loadLE32 dev (src + gw * height + 4) = TrailerVersion
    · simp [hm, hv]
    · simp [hm, hv]
  · simp [hm]

/-- Witness for C21: 1600 x 1204 at one byte per pixel gives the payload size 1926400 and 1600
bytes per line. -/
theorem payload_excludes_trailer_witness :
    ∃ s1, BconAdapterStreamConfigureStreamingParameters sampleDefines {} 1600 1204 0x01080001 0 1
          okReply captureSetFmt captureSetFmt = (sampleDefines.BCON_OK, s1, some 1926400) ∧
      s1.payloadSize = 1926400 ∧ s1.height = 1204 ∧
      bytesPerLineOf s1.payloadSize s1.height = 1600 ∧
      decodeTrailer sampleDefines captureCompletion.dev 0x10000 s1.payloadSize
          (bytesPerLineOf s1.payloadSize s1.height)
        = (if loadLE32 captureCompletion.dev (0x10000 + 1600 * 1204) = TrailerMagic ∧
              loadLE32 captureCompletion.dev (0x10000 + 1600 * 1204 + 4) = TrailerVersion then
            { magic := TrailerMagic, version := TrailerVersion
              status := loadLE32 captureCompletion.dev (0x10000 + 1600 * 1204 + 1600)
              pixelFormat := loadLE32 captureCompletion.dev (0x10000 + 1600 * 1204 + 1600 + 4)
              blockId := loadLE64 captureCompletion.dev (0x10000 + 1600 * 1204 + 2 * 1600)
              timeStamp := loadLE64 captureCompletion.dev (0x10000 + 1600 * 1204 + 3 * 1600) }
          else
            { magic := loadLE32 captureCompletion.dev (0x10000 + 1600 * 1204)
              version := if loadLE32 captureCompletion.dev (0x10000 + 1600 * 1204) ≠ TrailerMagic
                         then 0
                         else loadLE32 captureCompletion.dev (0x10000 + 1600 * 1204 + 4)
              status := sampleDefines.BCON_E_BUFFER_INCOMPLETE, pixelFormat := 2 ^ 32 - 1
              blockId := UINT64_MAX, timeStamp := 0 }) :=
  payload_excludes_trailer sampleDefines {} 1600 1204 0x01080001 0 1 okReply captureSetFmt
    captureSetFmt 1600 captureCompletion.dev 0x10000
    (by decide) (by decide) (by decide) (by decide) (by decide) (by decide) (by decide)
    (by decide) (by decide)

/-- The loop of `PrepareV4L2Buffer` writes only the device buffers and the trace. -/
theorem prepareLoop_fields (maps : Nat → MapReply) : ∀ (todo i : Nat) (ret : Int) (errno : Nat)
    (s : StreamData),
    (prepareLoop maps todo i ret errno s).2.2.nBuffers = s.nBuffers ∧
    (prepareLoop maps todo i ret errno s).2.2.v4l2StreamingEnabled = s.v4l2StreamingEnabled ∧
    (prepareLoop maps todo i ret errno s).2.2.bufferContexts = s.bufferContexts := by
  intro todo
  induction todo with
  | zero => intro i ret errno s; simp [prepareLoop]
  | succ n ih =>
    intro i ret errno s
    simp only [prepareLoop]
    split
    · simp [StreamData.request]
    · split
      · simp [StreamData.request]
      · obtain ⟨h1, h2, h3⟩ := ih (i + 1) (maps i).qbuf.ret (maps i).qbuf.errno
          { (s.request DeviceRequest.VIDIOC_QBUF).request DeviceRequest.mmap with
            v4l2Buffers := (s.request DeviceRequest.VIDIOC_QBUF).v4l2Buffers.set i
              { start := (maps i).start, length := (maps i).length } }
        rw [h1, h2, h3]
        simp [StreamData.request]

/-- A successful `PrepareV4L2Buffer` has stored the requested buffer count. -/
theorem prepareV4L2_fields (s : StreamData) (numBuffers : Nat) (req : ReqBufsReply)
    (maps : Nat → MapReply) (hok : ¬ (PrepareV4L2Buffer s numBuffers req maps).1 < 0) :
    (PrepareV4L2Buffer s numBuffers req maps).2.2.nBuffers = numBuffers ∧
    (PrepareV4L2Buffer s numBuffers req maps).2.2.v4l2StreamingEnabled
      = s.v4l2StreamingEnabled := by
  unfold PrepareV4L2Buffer at hok ⊢
  simp only at hok ⊢
  split
  · rename_i h
    rw [if_pos h] at hok
    exact absurd h hok
  · obtain ⟨h1, h2, -⟩ := prepareLoop_fields maps req.count 0 req.reply.ret req.reply.errno
      { s.request DeviceRequest.VIDIOC_REQBUFS with
        nBuffers := numBuffers
        v4l2Buffers := resizeV4L2Buffers (s.request DeviceRequest.VIDIOC_REQBUFS).v4l2Buffers
          req.count }
    rw [h1, h2]
    simp [StreamData.request]

/-- C22: prepare resets the session.  For every session and every `maxNumBuffer`, when the request
for device buffers (`PrepareV4L2Buffer`) does not fail, `BconAdapterStreamPrepareGrab` returns
`BCON_OK` and leaves a pool of exactly `maxNumBuffer` slots, each with null pointer, size 0, null
context and not queued, the pending and the ready queue empty and the streaming flag false. -/
theorem prepare_resets_session (K : BconDefines) (s : StreamData) (maxNumBuffer : Nat)
    (req : ReqBufsReply) (maps : Nat → MapReply) (storage : Nat → ImageTrailer)
    (hok : ¬ (PrepareV4L2Buffer { s with v4l2StreamingEnabled := false, bufferContexts := [] }
                maxNumBuffer req maps).1 < 0) :
    ∃ s1, BconAdapterStreamPrepareGrab K s maxNumBuffer req maps storage = (K.BCON_OK, s1) ∧
      s1.bufferContexts.length = maxNumBuffer ∧ s1.nBuffers = maxNumBuffer ∧
      (∀ d ∈ s1.bufferContexts,
        d.pBuffer = 0 ∧ d.bufferSize = 0 ∧ d.userContext = 0 ∧ d.queued = false) ∧
      s1.inputQueue = [] ∧ s1.outputQueue = [] ∧ s1.v4l2StreamingEnabled = false := by
  obtain ⟨hn, hs⟩ := prepareV4L2_fields _ maxNumBuffer req maps hok
  unfold BconAdapterStreamPrepareGrab
  simp only
  generalize PrepareV4L2Buffer { s with v4l2StreamingEnabled := false, bufferContexts := [] }
    maxNumBuffer req maps = r at hok hn hs ⊢
  obtain ⟨ret, errno, s2⟩ := r
  simp only at hok hn hs
  simp only [if_neg hok]
  refine ⟨_, rfl, ?_, hn, ?_, rfl, rfl, hs⟩
  · simp [hn]
  · intro d hd
    simp only [List.map_map, List.mem_map] at hd
    obtain ⟨j, _, rfl⟩ := hd
    simp [BufferContextData.Clear]

/-- Witness for C22: the sample session, with two registered buffers, is prepared again for three
buffers. -/
theorem prepare_resets_session_witness :
    ∃ s1, BconAdapterStreamPrepareGrab sampleDefines readySession 3 sampleReqBufs sampleMaps
        (fun _ => zeroTrailer) = (sampleDefines.BCON_OK, s1) ∧
      s1.bufferContexts.length = 3 ∧ s1.nBuffers = 3 ∧
      (∀ d ∈ s1.bufferContexts,
        d.pBuffer = 0 ∧ d.bufferSize = 0 ∧ d.userContext = 0 ∧ d.queued = false) ∧
      s1.inputQueue = [] ∧ s1.outputQueue = [] ∧ s1.v4l2StreamingEnabled = false :=
  prepare_resets_session sampleDefines readySession 3 sampleReqBufs sampleMaps
    (fun _ => zeroTrailer) (by decide)

/-- C23: dropped completion.  When the pending queue is empty and `VIDIOC_DQBUF` succeeds,
`DequeueV4L2Buffer` returns the result of the `VIDIOC_QBUF` that re-submits the device buffer; the
session differs from the one before only by the two device requests in the trace (slot pool,
pending queue and ready queue are the same) and the caller memory is the same.  When the
re-submission succeeds the result is not negative, and the pass of the pump thread goes on without
flushing: it leaves slot pool, pending queue, ready queue and caller memory as they were. -/
theorem dropped_completion (K : BconDefines) (s : StreamData) (mem : Mem) (io : DequeueReply)
    (hempty : s.inputQueue = []) (hdq : ¬ io.dqbuf.ret < 0) :
    DequeueV4L2Buffer K s mem io
      = some (io.qbuf.ret,
              (s.request DeviceRequest.VIDIOC_DQBUF).request DeviceRequest.VIDIOC_QBUF, mem) ∧
    ((s.request DeviceRequest.VIDIOC_DQBUF).request DeviceRequest.VIDIOC_QBUF).bufferContexts
      = s.bufferContexts ∧
    ((s.request DeviceRequest.VIDIOC_DQBUF).request DeviceRequest.VIDIOC_QBUF).inputQueue
      = s.inputQueue ∧
    ((s.request DeviceRequest.VIDIOC_DQBUF).request DeviceRequest.VIDIOC_QBUF).outputQueue
      = s.outputQueue ∧
    (¬ io.qbuf.ret < 0 →
      ∃ s1, PumpThreadBody K s mem io = some (true, s1, mem) ∧
        s1.bufferContexts = s.bufferContexts ∧ s1.inputQueue = s.inputQueue ∧
        s1.outputQueue = s.outputQueue) := by
  have hd : DequeueV4L2Buffer K s mem io
      = some (io.qbuf.ret,
              (s.request DeviceRequest.VIDIOC_DQBUF).request DeviceRequest.VIDIOC_QBUF, mem) := by
    unfold DequeueV4L2Buffer
    simp only [if_neg hdq]
    have hq : (s.request DeviceRequest.VIDIOC_DQBUF).inputQueue = [] := hempty
    simp only [hq]
  refine ⟨hd, rfl, rfl, rfl, ?_⟩
  intro hq
  refine ⟨((s.request DeviceRequest.VIDIOC_DQBUF).request DeviceRequest.VIDIOC_QBUF).notifyReady,
    ?_, ?_, ?_, ?_⟩
  · unfold PumpThreadBody
    rw [hd]
    simp only [if_neg hq]
  · simp [StreamData.notifyReady, StreamData.request]; split <;> rfl
  · simp [StreamData.notifyReady, StreamData.request]; split <;> rfl
  · simp [StreamData.notifyReady, StreamData.request]; split <;> rfl

/-- Witness for C23: a completion arrives in the sample session, where nothing is pending. -/
theorem dropped_completion_witness :
    DequeueV4L2Buffer sampleDefines sampleSession (fun _ => 0) (sampleCompletion 0 1 100)
      = some ((sampleCompletion 0 1 100).qbuf.ret,
              (sampleSession.request DeviceRequest.VIDIOC_DQBUF).request
                DeviceRequest.VIDIOC_QBUF, fun _ => 0) ∧
    ((sampleSession.request DeviceRequest.VIDIOC_DQBUF).request
        DeviceRequest.VIDIOC_QBUF).bufferContexts = sampleSession.bufferContexts ∧
    ((sampleSession.request DeviceRequest.VIDIOC_DQBUF).request
        DeviceRequest.VIDIOC_QBUF).inputQueue = sampleSession.inputQueue ∧
    ((sampleSession.request DeviceRequest.VIDIOC_DQBUF).request
        DeviceRequest.VIDIOC_QBUF).outputQueue = sampleSession.outputQueue ∧
    (¬ (sampleCompletion 0 1 100).qbuf.ret < 0 →
      ∃ s1, PumpThreadBody sampleDefines sampleSession (fun _ => 0) (sampleCompletion 0 1 100)
          = some (true, s1, fun _ => 0) ∧
        s1.bufferContexts = sampleSession.bufferContexts ∧
        s1.inputQueue = sampleSession.inputQueue ∧
        s1.outputQueue = sampleSession.outputQueue) :=
  dropped_completion sampleDefines sampleSession (fun _ => 0) (sampleCompletion 0 1 100)
    (by decide) (by decide)

/-- C24: `memcpy_neon` is a drop-in replacement for `memcpy`.  For every length `n ≥ 0` and every
non-null destination in the caller memory (the source lies in the device mapping, so the two do
not overlap; aligned or not), `memcpy_neon` gives the result of `memcpy`: bytes `[0, n)` of the
destination equal bytes `[0, n)` of the source and every other byte is as before.  With
`n & 127 = n % 128`: when at least 128 bytes fall into whole chunks, the assembly loop called by
the aligned path copies exactly `n - n % 128` bytes and leaves both pointers advanced by that
amount and the counter at zero, otherwise there is no whole chunk; and the tail `memcpy` of
`n % 128` bytes placed directly after the chunks completes the copy of `n` bytes. -/
theorem memcpy_neon_drop_in (mem : Mem) (dst : Nat) (dev : Mem) (src n : Nat) (hdst : dst ≠ 0) :
    memcpy_neon mem dst dev src (n : Int) = memcpy mem dst dev src n ∧
    (∃ mem1, memcpy_neon mem dst dev src (n : Int) = some mem1 ∧
      (∀ i, i < n → mem1 (dst + i) = readByte dev (src + i)) ∧
      (∀ a, a < dst ∨ dst + n ≤ a → mem1 a = mem a)) ∧
    n &&& 127 = n % 128 ∧
    (128 ≤ n - n % 128 →
      NEONCopy (n - n % 128) dev mem dst src ((n - n % 128 : Nat) : Int)
        = some (copied mem dst dev src (n - n % 128), dst + (n - n % 128),
                src + (n - n % 128), 0)) ∧
    (n - n % 128 < 128 → n - n % 128 = 0) ∧
    memcpy (copied mem dst dev src (n - n % 128)) (dst + (n - n % 128)) dev
        (src + (n - n % 128)) (n % 128)
      = memcpy_neon mem dst dev src (n : Int) := by
  have hspec := memcpy_neon_spec mem dst dev src n hdst
  refine ⟨?_, ⟨_, hspec, ?_, ?_⟩, ?_, ?_, ?_, ?_⟩
  · rw [hspec]; simp [memcpy, hdst]
  · intro i hi
    exact copied_apply mem dst dev src n i hi
  · intro a ha
    unfold copied
    have : ¬ (dst ≤ a ∧ a < dst + n) := by omega
    simp only [if_neg this]
  · exact Nat.and_pow_two_sub_one_eq_mod n 7
  · intro hge
    obtain ⟨k, hk⟩ : ∃ k, n - n % 128 = 128 * (k + 1) := ⟨n / 128 - 1, by omega⟩
    rw [hk]
    exact NEONCopy_spec dev k (128 * (k + 1)) mem dst src hdst (by omega)
  · intro hlt
    omega
  · rw [hspec]
    have hd1 : dst + (n - n % 128) ≠ 0 := by omega
    have hn : n - n % 128 + n % 128 = n := by omega
    simp only [memcpy, hd1, if_false, copied_copied, hn]

/-- Witness for C24: 300 bytes from the aligned device address `0x10000` to the aligned caller
address `0x1000`, two chunks and a tail of 44 bytes. -/
theorem memcpy_neon_drop_in_witness :
    memcpy_neon (fun _ => 0) 0x1000 (fun a => a % 251) 0x10000 ((300 : Nat) : Int)
      = memcpy (fun _ => 0) 0x1000 (fun a => a % 251) 0x10000 300 ∧
    (∃ mem1, memcpy_neon (fun _ => 0) 0x1000 (fun a => a % 251) 0x10000 ((300 : Nat) : Int)
        = some mem1 ∧
      (∀ i, i < 300 → mem1 (0x1000 + i) = readByte (fun a => a % 251) (0x10000 + i)) ∧
      (∀ a, a < 0x1000 ∨ 0x1000 + 300 ≤ a → mem1 a = (fun _ => 0) a)) ∧
    300 &&& 127 = 300 % 128 ∧
    (128 ≤ 300 - 300 % 128 →
      NEONCopy (300 - 300 % 128) (fun a => a % 251) (fun _ => 0) 0x1000 0x10000
          ((300 - 300 % 128 : Nat) : Int)
        = some (copied (fun _ => 0) 0x1000 (fun a => a % 251) 0x10000 (300 - 300 % 128),
                0x1000 + (300 - 300 % 128), 0x10000 + (300 - 300 % 128), 0)) ∧
    (300 - 300 % 128 < 128 → 300 - 300 % 128 = 0) ∧
    memcpy (copied (fun _ => 0) 0x1000 (fun a => a % 251) 0x10000 (300 - 300 % 128))
        (0x1000 + (300 - 300 % 128)) (fun a => a % 251) (0x10000 + (300 - 300 % 128)) (300 % 128)
      = memcpy_neon (fun _ => 0) 0x1000 (fun a => a % 251) 0x10000 ((300 : Nat) : Int) :=
  memcpy_neon_drop_in (fun _ => 0) 0x1000 (fun a => a % 251) 0x10000 300 (by decide)

/-- C25 does not hold for the code.  `specBytesPerPixel b` is the least number of bytes holding
`b` bits (any `m` is at least as large or holds fewer than `b` bits).  For the tag `0x010A0046` of a packed 10-bit format the bits-per-pixel field is 10 and
`BconAdapterStreamCalculateGrabberParams` sets the grabber width to the camera width, one byte per
pixel, where rounding up gives two bytes; the source computes `(bits + 4) / 8`.  Among the
accepted values 0..48 the two differ exactly for the values with a remainder of 1, 2 or 3 modulo
8. -/
theorem bytes_per_pixel_rounds_to_nearest :
    (∀ b m : Nat, b ≤ 8 * specBytesPerPixel b ∧ (specBytesPerPixel b ≤ m ∨ 8 * m < b)) ∧
    (0x010A0046 >>> 16) &&& 0xFF = 10 ∧ specBytesPerPixel 10 = 2 ∧
    (∀ (K : BconDefines) (cameraWidth : Nat),
      BconAdapterStreamCalculateGrabberParams K 0 cameraWidth 0x010A0046
        = (K.BCON_OK, (cameraWidth * 1) % 2 ^ 32)) ∧
    BconAdapterStreamCalculateGrabberParams sampleDefines 0 1600 0x010A0046
      = (sampleDefines.BCON_OK, 1600) ∧
    (List.range 49).filter (fun b =>
        decide (BconAdapterStreamCalculateGrabberParams sampleDefines 0 1 (b <<< 16)
          ≠ (sampleDefines.BCON_OK, specBytesPerPixel b)))
      = [1, 2, 3, 9, 10, 11, 17, 18, 19, 25, 26, 27, 33, 34, 35, 41, 42, 43] := by
  refine ⟨?_, by decide, by decide, ?_, by decide, by decide⟩
  · intro b m
    unfold specBytesPerPixel
    constructor
    · omega
    · omega
  · intro K w
    unfold BconAdapterStreamCalculateGrabberParams
    have hb : (0x010A0046 >>> 16) &&& 0xFF = 10 := by decide
    simp only [hb]
    simp

/-- An error code of at most 15 bits is its own low 15 bits. -/
theorem errno_low_bits (e : Nat) (he : e ≤ 0x7fff) : e &&& 0x7fff = e := by
  have := Nat.and_pow_two_sub_one_eq_mod e 15
  simp only [Nat.reducePow, Nat.add_one_sub_one] at this
  rw [this]; omega

/-- The low 15 bits of a custom status are the error code. -/
theorem custom_low_bits (c e : Nat) (hc : c &&& 0x7fff = 0) (he : e ≤ 0x7fff) :
    (c ||| (e &&& 0x7fff)) &&& 0x7fff = e := by
  have h1 := errno_low_bits e he
  rw [h1]
  apply Nat.eq_of_testBit_eq
  intro i
  have hci : (c &&& 0x7fff).testBit i = false := by rw [hc]; exact Nat.zero_testBit i
  have hei : (e &&& 0x7fff).testBit i = e.testBit i := by rw [h1]
  simp only [Nat.testBit_or, Nat.testBit_and] at hci hei ⊢
  revert hci hei
  cases c.testBit i <;> cases e.testBit i <;> cases (0x7fff : Nat).testBit i <;> simp

/-- A custom status with a non-zero error code is not zero. -/
theorem custom_ne_zero (c e : Nat) (he0 : 0 < e) (he : e ≤ 0x7fff) :
    c ||| (e &&& 0x7fff) ≠ 0 := by
  rw [errno_low_bits e he]
  intro h
  have h2 : e = 0 := by
    apply Nat.eq_of_testBit_eq
    intro i
    have hi : (c ||| e).testBit i = false := by rw [h]; exact Nat.zero_testBit i
    simp only [Nat.testBit_or, Bool.or_eq_false_iff] at hi
    rw [hi.2, Nat.zero_testBit]
  omega

/-- C26: errno and status round trip.  With `BCON_OK = 0` and the low 15 bits of `BCON_E_CUSTOM`
zero, for every error code `e` from 0 to `0x7FFF`:
`BconStatusToErrno (BconStatusFromErrno e) = e`; `BconStatusFromErrno 0 = BCON_OK`; and for
`e ≥ 1` the status `BconStatusFromErrno e` is `BCON_E_CUSTOM` with `e` in its low bits, is not
`BCON_OK`, and is a failure for every `BCON_ERROR` test that holds for `BCON_E_CUSTOM` and
depends only on the bits above the low 15. -/
theorem errno_status_round_trip (K : BconDefines) (e : Nat)
    (hok : K.BCON_OK = 0) (hcustom : K.BCON_E_CUSTOM &&& 0x7fff = 0) (he : e ≤ 0x7fff) :
    BconStatusToErrno K (BconStatusFromErrno K e) = e ∧
    BconStatusFromErrno K 0 = K.BCON_OK ∧
    (1 ≤ e →
      BconStatusFromErrno K e = K.BCON_E_CUSTOM ||| e ∧
      BconStatusFromErrno K e ≠ K.BCON_OK ∧
      (K.BCON_ERROR K.BCON_E_CUSTOM = true →
        (∀ a b : Nat, a >>> 15 = b >>> 15 → K.BCON_ERROR a = K.BCON_ERROR b) →
        K.BCON_ERROR (BconStatusFromErrno K e) = true)) := by
  refine ⟨?_, by simp [BconStatusFromErrno], ?_⟩
  · unfold BconStatusToErrno BconStatusFromErrno
    by_cases h0 : e = 0
    · simp [h0]
    · have hne := custom_ne_zero K.BCON_E_CUSTOM e (by omega) he
      simp only [if_neg h0, hok, if_neg hne]
      exact custom_low_bits K.BCON_E_CUSTOM e hcustom he
  · intro h1
    have h0 : e ≠ 0 := by omega
    have hne := custom_ne_zero K.BCON_E_CUSTOM e (by omega) he
    have hval : BconStatusFromErrno K e = K.BCON_E_CUSTOM ||| e := by
      unfold BconStatusFromErrno
      rw [if_neg h0, errno_low_bits e he]
    refine ⟨hval, ?_, ?_⟩
    · rw [hval, hok]
      rw [errno_low_bits e he] at hne
      exact hne
    · intro hc hdep
      rw [hval, hdep (K.BCON_E_CUSTOM ||| e) K.BCON_E_CUSTOM ?_, hc]
      apply Nat.eq_of_testBit_eq
      intro i
      simp only [Nat.testBit_shiftRight, Nat.testBit_or]
      have : e.testBit (15 + i) = false := by
        apply Nat.testBit_lt_two_pow
        calc e < 2 ^ 15 := by omega
          _ ≤ 2 ^ (15 + i) := Nat.pow_le_pow_right (by omega) (by omega)
      rw [this, Bool.or_false]

/-- Witness for C26: `ENOMEM` (12) with the sample constants, whose `BCON_ERROR` tests the top
bit. -/
theorem errno_status_round_trip_witness :
    BconStatusToErrno sampleDefines (BconStatusFromErrno sampleDefines 12) = 12 ∧
    BconStatusFromErrno sampleDefines 0 = sampleDefines.BCON_OK ∧
    BconStatusFromErrno sampleDefines 12 = sampleDefines.BCON_E_CUSTOM ||| 12 ∧
    BconStatusFromErrno sampleDefines 12 ≠ sampleDefines.BCON_OK ∧
    sampleDefines.BCON_ERROR (BconStatusFromErrno sampleDefines 12) = true := by
  have h := errno_status_round_trip sampleDefines 12 (by decide) (by decide) (by decide)
  refine ⟨h.1, h.2.1, (h.2.2 (by decide)).1, (h.2.2 (by decide)).2.1,
    (h.2.2 (by decide)).2.2 (by decide) ?_⟩
  intro a b hab
  simp only [Nat.shiftRight_eq_div_pow] at hab
  show decide (2 ^ 31 ≤ a) = decide (2 ^ 31 ≤ b)
  have : (2 ^ 31 ≤ a) ↔ (2 ^ 31 ≤ b) := by omega
  exact decide_eq_decide.mpr this

/-- C27 does not hold for the code.  The status `BCON_E_CUSTOM | 2` has the 25-character message
"No such file or directory".  With a buffer of 32 bytes that held the byte 88 everywhere,
`BconAdapterGetStatusMessage` returns `BCON_OK` and the required size 26, stores the 25 characters
without a NUL and sets only the last byte of the buffer to NUL: the string in the buffer is the
message followed by six of the old bytes, not the first `min 25 31` characters of the message.
With a buffer of 26 bytes, or one that held zeros, the string is the message. -/
theorem status_message_keeps_old_bytes :
    BconStatusToErrno sampleDefines 0xE1000002 = 2 ∧
    (BconAdapterGetStatusMessage sampleDefines 0xE1000002 (fun _ => 88) 0x1000 32 true
        sampleStrerror).1 = sampleDefines.BCON_OK ∧
    (BconAdapterGetStatusMessage sampleDefines 0xE1000002 (fun _ => 88) 0x1000 32 true
        sampleStrerror).2.2 = some (sampleMessage.length + 1) ∧
    cstring (BconAdapterGetStatusMessage sampleDefines 0xE1000002 (fun _ => 88) 0x1000 32 true
        sampleStrerror).2.1 0x1000 32 = sampleMessage ++ [88, 88, 88, 88, 88, 88] ∧
    sampleMessage ++ [88, 88, 88, 88, 88, 88] ≠ sampleMessage.take (min sampleMessage.length 31) ∧
    cstring (BconAdapterGetStatusMessage sampleDefines 0xE1000002 (fun _ => 88) 0x1000 26 true
        sampleStrerror).2.1 0x1000 26 = sampleMessage ∧
    cstring (BconAdapterGetStatusMessage sampleDefines 0xE1000002 (fun _ => 0) 0x1000 32 true
        sampleStrerror).2.1 0x1000 32 = sampleMessage := by
  decide

/-- C28 does not hold for the code.  For the command line `bconctl -q`, whatever the parser held
before, `ParseCommandLine` returns `true` with the option `-q` stored and `m_command` still
`BconCtlCommand_Unknown`: the argument is a known option, no command follows, and the final loop
promotes only `help` and `version` options to a command.  The same happens for
`bconctl --no-logo` and for `bconctl -p 10:5`.  The condition asserted at the start of
`EvaluateParsedData` is then false. -/
theorem parse_accepts_options_without_command (p : CBconCtlCommandLineParser) :
    p.ParseCommandLine ["bconctl", "-q"]
      = (true, { m_command := EBconCtlCommand.BconCtlCommand_Unknown
                 m_options := [{ enumVal := EBconCtlOption.BconCtlOption_Quiet
                                 form := EBconCtlOptionForm.OptionForm_Short
                                 parameter := "" }] }) ∧
    p.ParseCommandLine ["bconctl", "--no-logo"]
      = (true, { m_command := EBconCtlCommand.BconCtlCommand_Unknown
                 m_options := [{ enumVal := EBconCtlOption.BconCtlOption_NoLogo
                                 form := EBconCtlOptionForm.OptionForm_Long
                                 parameter := "" }] }) ∧
    p.ParseCommandLine ["bconctl", "-p", "10:5"]
      = (true, { m_command := EBconCtlCommand.BconCtlCommand_Unknown
                 m_options := [{ enumVal := EBconCtlOption.BconCtlOption_Pulse
                                 form := EBconCtlOptionForm.OptionForm_Short
                                 parameter := "10:5" }] }) ∧
    (p.ParseCommandLine ["bconctl", "-h"]).2.m_command = EBconCtlCommand.BconCtlCommand_Help ∧
    (p.ParseCommandLine ["bconctl", "led0", "on", "-q"]).2.m_command
      = EBconCtlCommand.BconCtlCommand_Led0 := by
  have h : ∀ argv, p.ParseCommandLine argv
      = CBconCtlCommandLineParser.ParseCommandLine {} argv := fun _ => rfl
  simp only [h]
  decide

/-- C29 does not hold for the code.  The sample session has two slots and `nBuffers = 2`.
After `BconAdapterStreamClose`, after a `BconAdapterStreamPrepareGrab` whose `VIDIOC_REQBUFS` is
refused, and after one whose `mmap` fails, the slot table is empty while `nBuffers` is still 2
(or the new request, 5): handle 1 passes the range check `index < nBuffers` of
`BconAdapterStreamQueueBuffer` and the function indexes the empty table, which is undefined. -/
theorem slot_count_outlives_slot_table :
    (sampleSession.nBuffers, sampleSession.bufferContexts.length) = (2, 2) ∧
    (BconAdapterStreamClose sampleDefines sampleSession).1 = sampleDefines.BCON_OK ∧
    ((BconAdapterStreamClose sampleDefines sampleSession).2.nBuffers,
      (BconAdapterStreamClose sampleDefines sampleSession).2.bufferContexts.length) = (2, 0) ∧
    BconAdapterStreamQueueBuffer sampleDefines
      (BconAdapterStreamClose sampleDefines sampleSession).2 1 7 okReply = none ∧
    (BconAdapterStreamPrepareGrab sampleDefines sampleSession 5 refusedReqBufs sampleMaps
        (fun _ => zeroTrailer)).1 = BconStatusFromErrno sampleDefines 12 ∧
    ((BconAdapterStreamPrepareGrab sampleDefines sampleSession 5 refusedReqBufs sampleMaps
        (fun _ => zeroTrailer)).2.nBuffers,
      (BconAdapterStreamPrepareGrab sampleDefines sampleSession 5 refusedReqBufs sampleMaps
        (fun _ => zeroTrailer)).2.bufferContexts.length) = (2, 0) ∧
    BconAdapterStreamQueueBuffer sampleDefines
      (BconAdapterStreamPrepareGrab sampleDefines sampleSession 5 refusedReqBufs sampleMaps
        (fun _ => zeroTrailer)).2 1 7 okReply = none ∧
    (BconAdapterStreamPrepareGrab sampleDefines sampleSession 5 sampleReqBufs failedMaps
        (fun _ => zeroTrailer)).1 = BconStatusFromErrno sampleDefines 12 ∧
    ((BconAdapterStreamPrepareGrab sampleDefines sampleSession 5 sampleReqBufs failedMaps
        (fun _ => zeroTrailer)).2.nBuffers,
      (BconAdapterStreamPrepareGrab sampleDefines sampleSession 5 sampleReqBufs failedMaps
        (fun _ => zeroTrailer)).2.bufferContexts.length) = (5, 0) ∧
    BconAdapterStreamQueueBuffer sampleDefines
      (BconAdapterStreamPrepareGrab sampleDefines sampleSession 5 sampleReqBufs failedMaps
        (fun _ => zeroTrailer)).2 1 7 okReply = none := by
  decide

/-- A flush leaves the buffer count as it was. -/
theorem flushImpl_nBuffers (K : BconDefines) (s : StreamData) (fs st : Nat) (s1 : StreamData)
    (h : BconAdapterStreamFlushBuffersImpl K s fs = some (st, s1)) :
    s1.nBuffers = s.nBuffers := by
  unfold BconAdapterStreamFlushBuffersImpl at h
  split at h
  · simp at h
  · simp only [StreamData.notifyReady] at h
    simp at h
    obtain ⟨-, rfl⟩ := h
    split
    · split <;> rfl
    · rfl

/-- Queueing a slot that is marked queued is rejected and changes nothing. -/
theorem queue_queued_slot (K : BconDefines) (s : StreamData) (h ctx : Nat) (so : XioctlReply)
    (e : BufferContextData) (hi : BufferHandleToIndex h < s.nBuffers)
    (he : s.bufferContexts[BufferHandleToIndex h]? = some e) (hp : e.pBuffer ≠ 0)
    (hq : e.queued = true) :
    BconAdapterStreamQueueBuffer K s h ctx so = some (K.BCON_E_BUFFER_ALREADY_QUEUED, s) := by
  have hnot : ¬ (BufferHandleToIndex h ≥ s.nBuffers) := by omega
  unfold BconAdapterStreamQueueBuffer
  simp only [if_neg hnot, he, if_neg hp, hq, if_true]

/-- Deregistering a slot that is marked queued is rejected and changes nothing. -/
theorem deregister_queued_slot (K : BconDefines) (s : StreamData) (h : Nat) (pp : Bool)
    (e : BufferContextData)
    (he : s.bufferContexts[BufferHandleToIndex h]? = some e) (hp : e.pBuffer ≠ 0)
    (hq : e.queued = true) :
    BconAdapterStreamDeregisterBuffer K s h pp = (K.BCON_E_BUFFER_STILL_QUEUED, s, none) := by
  have hlt := getElem?_some_lt he
  have hnot : ¬ (BufferHandleToIndex h ≥ s.bufferContexts.length) := by omega
  unfold BconAdapterStreamDeregisterBuffer
  simp only [if_neg hnot, he, if_neg hp, hq, if_true]

/-- Deregistering a registered slot that is not marked queued succeeds. -/
theorem deregister_idle_slot (K : BconDefines) (s : StreamData) (h : Nat) (pp : Bool)
    (e : BufferContextData)
    (he : s.bufferContexts[BufferHandleToIndex h]? = some e) (hp : e.pBuffer ≠ 0)
    (hq : e.queued = false) :
    (BconAdapterStreamDeregisterBuffer K s h pp).1 = K.BCON_OK := by
  have hlt := getElem?_some_lt he
  have hnot : ¬ (BufferHandleToIndex h ≥ s.bufferContexts.length) := by omega
  unfold BconAdapterStreamDeregisterBuffer
  simp only [if_neg hnot, he, if_neg hp, hq, Bool.false_eq_true, if_false]

/-- C30: queueBuffer is not atomic when the device fails.  For a registered slot that is not
queued, on a stream that is not streaming, when `VIDIOC_STREAMON` fails: `queueBuffer` returns the
status made from the `errno` (not `BCON_OK` when `BCON_OK = 0` and the `errno` is from 1 to
`0x7FFF`), yet the slot is marked queued with the new context, it is at the back of the pending
queue and the streaming flag is still false.  A repeated `queueBuffer` on the handle returns
`BCON_E_BUFFER_ALREADY_QUEUED` and `deregisterBuffer` returns `BCON_E_BUFFER_STILL_QUEUED`, both
without a change; the same holds after `flushBuffers`, which moves the slot to the ready queue;
and when no other buffer was pending or ready, the next `retrieveResult` returns the handle with
`BCON_E_BUFFER_CANCELLED` and `deregisterBuffer` succeeds afterwards.  In every session, a
`retrieveResult` that does not return the handle leaves the slot as it is, and one that returns
the handle clears its queued mark (`OnDeQueue`). -/
theorem queue_not_atomic_on_stream_on_failure (K : BconDefines) (s : StreamData) (h ctx : Nat)
    (so : XioctlReply) (d : BufferContextData)
    (hi : BufferHandleToIndex h < s.nBuffers)
    (hd : s.bufferContexts[BufferHandleToIndex h]? = some d) (hp : d.pBuffer ≠ 0)
    (hq : d.queued = false) (hoff : s.v4l2StreamingEnabled = false) (hfail : so.ret < 0) :
    ∃ s1,
      BconAdapterStreamQueueBuffer K s h ctx so = some (BconStatusFromErrno K so.errno, s1) ∧
      s1 = { s with
              bufferContexts := s.bufferContexts.set (BufferHandleToIndex h)
                { d with userContext := ctx, status := K.BCON_E_BUFFER_CANCELLED
                         queued := true }
              inputQueue := s.inputQueue ++ [BufferHandleToIndex h]
              events := s.events ++ [Event.ioctl DeviceRequest.VIDIOC_STREAMON] } ∧
      (K.BCON_OK = 0 → 0 < so.errno → so.errno ≤ 0x7fff →
        BconStatusFromErrno K so.errno ≠ K.BCON_OK) ∧
      s1.v4l2StreamingEnabled = false ∧
      (∀ (ctx2 : Nat) (so2 : XioctlReply),
        BconAdapterStreamQueueBuffer K s1 h ctx2 so2
          = some (K.BCON_E_BUFFER_ALREADY_QUEUED, s1)) ∧
      (∀ pp : Bool,
        BconAdapterStreamDeregisterBuffer K s1 h pp
          = (K.BCON_E_BUFFER_STILL_QUEUED, s1, none)) ∧
      ((∀ i ∈ s.inputQueue, i < s.bufferContexts.length) →
        ∃ s2, BconAdapterStreamFlushBuffers K s1 = some (K.BCON_OK, s2) ∧
          s2.outputQueue = s.outputQueue ++ s.inputQueue ++ [BufferHandleToIndex h] ∧
          (∀ (ctx2 : Nat) (so2 : XioctlReply),
            BconAdapterStreamQueueBuffer K s2 h ctx2 so2
              = some (K.BCON_E_BUFFER_ALREADY_QUEUED, s2)) ∧
          (∀ pp : Bool,
            BconAdapterStreamDeregisterBuffer K s2 h pp
              = (K.BCON_E_BUFFER_STILL_QUEUED, s2, none)) ∧
          (s.inputQueue = [] → s.outputQueue = [] →
            ∃ s3 res, BconAdapterStreamRetrieveResult K s2 true true
                = some (K.BCON_OK, s3, some res, some 0) ∧
              res.hBuffer = IndexToBufferHandle (BufferHandleToIndex h) ∧
              res.userContext = ctx ∧ res.errorCode = K.BCON_E_BUFFER_CANCELLED ∧
              ∀ pp : Bool, (BconAdapterStreamDeregisterBuffer K s3 h pp).1 = K.BCON_OK)) ∧
      (∀ (s2 : StreamData) (e : BufferContextData) (g n : Bool) (st : Nat) (s3 : StreamData)
          (res : Option BconGrabResult) (left : Option Nat),
        s2.bufferContexts[BufferHandleToIndex h]? = some e →
        BconAdapterStreamRetrieveResult K s2 g n = some (st, s3, res, left) →
        (res.map (fun r => r.hBuffer) ≠ some (IndexToBufferHandle (BufferHandleToIndex h)) →
          s3.bufferContexts[BufferHandleToIndex h]? = some e) ∧
        (res.map (fun r => r.hBuffer) = some (IndexToBufferHandle (BufferHandleToIndex h)) →
          s3.bufferContexts[BufferHandleToIndex h]?
            = some (BufferContextData.OnDeQueue K e))) := by
  have hlen := getElem?_some_lt hd
  have hnot : ¬ (BufferHandleToIndex h ≥ s.nBuffers) := by omega
  have hslot1 : (s.bufferContexts.set (BufferHandleToIndex h)
      { d with userContext := ctx, status := K.BCON_E_BUFFER_CANCELLED
               queued := true })[BufferHandleToIndex h]?
      = some { d with userContext := ctx, status := K.BCON_E_BUFFER_CANCELLED
                      queued := true } := by
    simp [getElem?_set_of_some hd]
  refine ⟨_, ?_, rfl, ?_, hoff, ?_, ?_, ?_, ?_⟩
  · unfold BconAdapterStreamQueueBuffer
    simp only [if_neg hnot, hd, if_neg hp, hq, Bool.false_eq_true, if_false, QueueV4L2Buffer,
      StreamData.request, BufferContextData.OnBeforeQueue]
    simp [hoff, hfail]
  · intro hok he0 he
    unfold BconStatusFromErrno
    rw [if_neg (by omega), hok]
    exact custom_ne_zero K.BCON_E_CUSTOM so.errno he0 he
  · intro ctx2 so2
    exact queue_queued_slot K _ h ctx2 so2 _ hi hslot1 hp rfl
  · intro pp
    exact deregister_queued_slot K _ h pp _ hslot1 hp rfl
  · intro hin
    obtain ⟨s2, hs2⟩ := flush_total K
      { s with
          bufferContexts := s.bufferContexts.set (BufferHandleToIndex h)
            { d with userContext := ctx, status := K.BCON_E_BUFFER_CANCELLED, queued := true }
          inputQueue := s.inputQueue ++ [BufferHandleToIndex h]
          events := s.events ++ [Event.ioctl DeviceRequest.VIDIOC_STREAMON] }
      K.BCON_E_BUFFER_CANCELLED
      (by
        intro i hmem
        simp only [List.mem_append, List.mem_singleton] at hmem
        simp only [List.length_set]
        rcases hmem with hmem | hmem
        · exact hin i hmem
        · rw [hmem]; exact hlen)
    obtain ⟨-, hin2, hout2, -, hctx2⟩ := flushImpl_cases K _ _ _ _ hs2
    have hn2 := flushImpl_nBuffers K _ _ _ _ hs2
    have hslot2 : s2.bufferContexts[BufferHandleToIndex h]?
        = some { d with userContext := ctx, status := K.BCON_E_BUFFER_CANCELLED
                        queued := true } := by
      rw [hctx2]
      simp [getElem?_set_of_some hd]
    refine ⟨s2, hs2, ?_, ?_, ?_, ?_⟩
    · rw [hout2, List.append_assoc]
    · intro ctx2 so2
      exact queue_queued_slot K s2 h ctx2 so2 _ (by rw [hn2]; exact hi) hslot2 hp rfl
    · intro pp
      exact deregister_queued_slot K s2 h pp _ hslot2 hp rfl
    · intro hi0 ho0
      have hq2 : s2.outputQueue = [BufferHandleToIndex h] := by
        rw [hout2]; simp [hi0, ho0]
      have hret := retrieve_pops K s2 true (BufferHandleToIndex h) [] _ hq2 hslot2
      refine ⟨_, _, hret, rfl, rfl, rfl, ?_⟩
      intro pp
      have hslot3 : (StreamData.notifyReady { s2 with
            bufferContexts := s2.bufferContexts.set (BufferHandleToIndex h)
              (BufferContextData.OnDeQueue K
                { d with userContext := ctx, status := K.BCON_E_BUFFER_CANCELLED
                         queued := true })
            outputQueue := [] }).bufferContexts[BufferHandleToIndex h]?
          = some (BufferContextData.OnDeQueue K
              { d with userContext := ctx, status := K.BCON_E_BUFFER_CANCELLED
                       queued := true }) := by
        simp [getElem?_set_of_some hslot2]
      exact deregister_idle_slot K _ h pp _ hslot3 hp rfl
  · intro s2 e g n st s3 res left he hr
    rcases retrieve_cases K s2 g n st s3 res left hr with ⟨rfl, rfl, -, -⟩ |
      ⟨front, rest, d2, -, h0, -, -, -, h1, rfl, -⟩
    · exact ⟨fun _ => he, fun hres => by simp at hres⟩
    · simp only [Option.map_some', ne_eq, Option.some.injEq, IndexToBufferHandle,
        Nat.add_right_cancel_iff]
      rw [h1, getElem?_set_of_some h0]
      constructor
      · intro hne
        rw [if_neg hne]
        exact he
      · intro heq
        rw [heq, he] at h0
        simp only [Option.some.injEq] at h0
        rw [if_pos heq, h0]

/-- Witness for C30: handle 1 of the sample session, which is not streaming; `VIDIOC_STREAMON`
fails with `EBUSY` (16). -/
theorem queue_not_atomic_on_stream_on_failure_witness :
    ∃ s1,
      BconAdapterStreamQueueBuffer sampleDefines sampleSession 1 7 { ret := -1, errno := 16 }
        = some (BconStatusFromErrno sampleDefines 16, s1) ∧
      s1 = { sampleSession with
              bufferContexts := sampleSession.bufferContexts.set (BufferHandleToIndex 1)
                { sampleSlot 0x1000 16 with
                    userContext := 7, status := sampleDefines.BCON_E_BUFFER_CANCELLED
                    queued := true }
              inputQueue := sampleSession.inputQueue ++ [BufferHandleToIndex 1]
              events := sampleSession.events ++ [Event.ioctl DeviceRequest.VIDIOC_STREAMON] } ∧
      BconStatusFromErrno sampleDefines 16 ≠ sampleDefines.BCON_OK ∧
      s1.v4l2StreamingEnabled = false ∧
      (∀ (ctx2 : Nat) (so2 : XioctlReply),
        BconAdapterStreamQueueBuffer sampleDefines s1 1 ctx2 so2
          = some (sampleDefines.BCON_E_BUFFER_ALREADY_QUEUED, s1)) ∧
      (∀ pp : Bool,
        BconAdapterStreamDeregisterBuffer sampleDefines s1 1 pp
          = (sampleDefines.BCON_E_BUFFER_STILL_QUEUED, s1, none)) ∧
      ∃ s2, BconAdapterStreamFlushBuffers sampleDefines s1 = some (sampleDefines.BCON_OK, s2) ∧
        s2.outputQueue = sampleSession.outputQueue ++ sampleSession.inputQueue
          ++ [BufferHandleToIndex 1] ∧
        (∀ (ctx2 : Nat) (so2 : XioctlReply),
          BconAdapterStreamQueueBuffer sampleDefines s2 1 ctx2 so2
            = some (sampleDefines.BCON_E_BUFFER_ALREADY_QUEUED, s2)) ∧
        (∀ pp : Bool,
          BconAdapterStreamDeregisterBuffer sampleDefines s2 1 pp
            = (sampleDefines.BCON_E_BUFFER_STILL_QUEUED, s2, none)) ∧
        ∃ s3 res, BconAdapterStreamRetrieveResult sampleDefines s2 true true
            = some (sampleDefines.BCON_OK, s3, some res, some 0) ∧
          res.hBuffer = IndexToBufferHandle (BufferHandleToIndex 1) ∧
          res.userContext = 7 ∧ res.errorCode = sampleDefines.BCON_E_BUFFER_CANCELLED ∧
          ∀ pp : Bool,
            (BconAdapterStreamDeregisterBuffer sampleDefines s3 1 pp).1
              = sampleDefines.BCON_OK := by
  obtain ⟨s1, h1, h2, h3, h4, h5, h6, h7, -⟩ :=
    queue_not_atomic_on_stream_on_failure sampleDefines sampleSession 1 7
      { ret := -1, errno := 16 } (sampleSlot 0x1000 16)
      (by decide) (by decide) (by decide) (by decide) (by decide) (by decide)
  obtain ⟨s2, g1, g2, g3, g4, g5⟩ := h7 (by decide)
  exact ⟨s1, h1, h2, h3 (by decide) (by decide) (by decide), h4, h5, h6,
    s2, g1, g2, g3, g4, g5 (by decide) (by decide)⟩

@[simp] theorem notifyReady_nBuffers (s : StreamData) : s.notifyReady.nBuffers = s.nBuffers := by
  unfold StreamData.notifyReady; split <;> rfl

/-- `BconAdapterStreamQueueBuffer` leaves the buffer count as it was. -/
theorem queueBuffer_nBuffers (K : BconDefines) (s : StreamData) (h c : Nat) (r : XioctlReply)
    (st : Nat) (s1 : StreamData)
    (hq : BconAdapterStreamQueueBuffer K s h c r = some (st, s1)) :
    s1.nBuffers = s.nBuffers := by
  unfold BconAdapterStreamQueueBuffer at hq
  simp only [QueueV4L2Buffer, StreamData.request] at hq
  repeat' split at hq
  all_goals first
    | (simp at hq; done)
    | (simp only [Option.some.injEq, Prod.mk.injEq] at hq; obtain ⟨-, rfl⟩ := hq; rfl)

/-- `DequeueV4L2Buffer` leaves the buffer count as it was. -/
theorem dequeue_nBuffers (K : BconDefines) (s : StreamData) (mem : Mem) (io : DequeueReply)
    (ret : Int) (s1 : StreamData) (mem1 : Mem)
    (h : DequeueV4L2Buffer K s mem io = some (ret, s1, mem1)) :
    s1.nBuffers = s.nBuffers := by
  unfold DequeueV4L2Buffer at h
  simp only [StreamData.request] at h
  split at h
  · simp only [Option.some.injEq, Prod.mk.injEq] at h
    obtain ⟨-, rfl, -⟩ := h
    rfl
  · split at h
    · simp at h
    · rename_i s2 mem2 heq
      simp only [Option.some.injEq, Prod.mk.injEq] at h
      obtain ⟨-, rfl, -⟩ := h
      show s2.nBuffers = s.nBuffers
      repeat' split at heq
      all_goals first
        | (simp at heq; done)
        | (simp only [Option.some.injEq, Prod.mk.injEq] at heq; obtain ⟨rfl, -⟩ := heq; rfl)

/-- `BconAdapterStreamRetrieveResult` leaves the buffer count as it was. -/
theorem retrieve_nBuffers (K : BconDefines) (s : StreamData) (g n : Bool) (st : Nat)
    (s1 : StreamData) (res : Option BconGrabResult) (left : Option Nat)
    (h : BconAdapterStreamRetrieveResult K s g n = some (st, s1, res, left)) :
    s1.nBuffers = s.nBuffers := by
  unfold BconAdapterStreamRetrieveResult at h
  repeat' split at h
  all_goals first
    | (simp at h; done)
    | (simp only [Option.some.injEq, Prod.mk.injEq] at h; obtain ⟨-, rfl, -⟩ := h; simp)

/-- A step leaves the buffer count and the size of the slot table as they were. -/
theorem step_slot_count (K : BconDefines) (s : StreamData) (mem : Mem) (c : ApiCall)
    (o : Outcome) (s1 : StreamData) (mem1 : Mem) (h : step K s mem c = some (o, s1, mem1)) :
    s1.nBuffers = s.nBuffers ∧ s1.bufferContexts.length = s.bufferContexts.length := by
  have hdeq : ∀ (s : StreamData) (mem : Mem) (io : DequeueReply) (ret : Int) (s3 : StreamData)
      (m3 : Mem), DequeueV4L2Buffer K s mem io = some (ret, s3, m3) →
      s3.nBuffers = s.nBuffers ∧ s3.bufferContexts.length = s.bufferContexts.length := by
    intro s mem io ret s3 m3 hd
    refine ⟨dequeue_nBuffers K s mem io ret s3 m3 hd, ?_⟩
    rcases dequeue_cases K s mem io ret s3 _ hd with ⟨_, _, h1, _⟩ |
      ⟨front, rest, d, vbuf, _, h1, _, _, _, _, _, _, h2, _⟩
    · rw [h1]
    · rw [h2, List.length_set]
  have hfl : ∀ (s : StreamData) (fs st : Nat) (s3 : StreamData),
      BconAdapterStreamFlushBuffersImpl K s fs = some (st, s3) →
      s3.nBuffers = s.nBuffers ∧ s3.bufferContexts.length = s.bufferContexts.length := by
    intro s fs st s3 hf
    exact ⟨flushImpl_nBuffers K s fs st s3 hf, (flushImpl_cases K s fs st s3 hf).2.2.2.1⟩
  cases c with
  | registerBuffer p sz =>
    simp [step] at h
    obtain ⟨-, rfl, -⟩ := h
    rcases register_cases K s p sz with ⟨h1, _⟩ | ⟨idx, d, _, _, _, _, h1⟩
    · rw [h1]; exact ⟨rfl, rfl⟩
    · rw [h1]; exact ⟨rfl, List.length_set _ _ _⟩
  | deregisterBuffer hb pp =>
    simp [step] at h
    obtain ⟨-, rfl, -⟩ := h
    rcases deregister_cases K s hb pp with ⟨h1, _⟩ | ⟨d, _, _, _, h1⟩
    · rw [h1]; exact ⟨rfl, rfl⟩
    · rw [h1]; exact ⟨rfl, List.length_set _ _ _⟩
  | queueBuffer hb ctx so =>
    simp [step] at h
    obtain ⟨st, s2, hq, rfl, rfl, rfl⟩ := h
    refine ⟨queueBuffer_nBuffers K s hb ctx so st _ hq, ?_⟩
    rcases queueBuffer_cases K s hb ctx so st _ hq with h1 | ⟨d, h0, _, _, _, _, _, h1⟩
    · rw [h1]
    · rw [h1, List.length_set]
  | deviceCompletion io =>
    obtain ⟨running, hb, rfl⟩ := step_completion K s mem io o s1 mem1 h
    obtain ⟨ret, s3, hd3, hcase⟩ := pumpBody_cases K s mem io running _ _ hb
    obtain ⟨hn3, hl3⟩ := hdeq s mem io ret s3 _ hd3
    rcases hcase with ⟨_, _, st, hf⟩ | ⟨_, _, rfl⟩
    · obtain ⟨hn, hl⟩ := hfl s3 _ st s1 hf
      exact ⟨hn.trans hn3, hl.trans hl3⟩
    · rw [notifyReady_nBuffers, notifyReady_bufferContexts]
      exact ⟨hn3, hl3⟩
  | flushBuffers =>
    simp [step, BconAdapterStreamFlushBuffers] at h
    obtain ⟨st, s2, hf, rfl, rfl, rfl⟩ := h
    exact hfl s _ st _ hf
  | retrieveResult g n =>
    simp [step] at h
    obtain ⟨st, s2, res, left, hr, rfl, rfl, rfl⟩ := h
    refine ⟨retrieve_nBuffers K s g n st _ res left hr, ?_⟩
    rcases retrieve_cases K s g n st _ res left hr with ⟨rfl, _⟩ |
      ⟨front, rest, d, _, h0, _, _, _, h1, _⟩
    · rfl
    · rw [h1, List.length_set]

/-- In every session reached from a successful `BconAdapterStreamPrepareGrab` by steps (register,
deregister, queue, device completion, flush, retrieve) the buffer count is the size of the slot
table. -/
theorem reachable_slot_count (K : BconDefines) (s : StreamData) (mem : Mem)
    (h : Reachable K s mem) : s.nBuffers = s.bufferContexts.length := by
  induction h with
  | prepare s0 mem maxNumBuffer req maps storage s h hok =>
    obtain ⟨s2, h2⟩ := prepare_success K s0 maxNumBuffer req maps storage hok
    rw [h2] at h
    simp only [Prod.mk.injEq, true_and] at h
    subst h
    simp
  | step s mem c o s1 mem1 _ hstep ih =>
    obtain ⟨hn, hl⟩ := step_slot_count K s mem c o s1 mem1 hstep
    rw [hn, hl, ih]

/-- What `BconAdapterGetStatusMessage` leaves in a non-null buffer of `bufferSize ≥ 1` bytes when
the message is found: `BCON_OK`; the required size is the length of the message plus one; the
last byte of the buffer is NUL; the bytes before it are those of the message as far as the message
reaches, and the bytes the buffer held before from there on; memory outside the buffer is as
before. -/
theorem status_message_bytes (K : BconDefines) (statusToDecode : Nat) (mem : Mem)
    (pBuffer bufferSize : Nat) (pRequiredSize : Bool) (libc : Nat → StrerrorReply)
    (hfound : (libc (BconStatusToErrno K statusToDecode)).errno ≠ EINVAL)
    (hp : pBuffer ≠ 0) (hs : bufferSize ≠ 0) :
    (BconAdapterGetStatusMessage K statusToDecode mem pBuffer bufferSize pRequiredSize libc).1
      = K.BCON_OK ∧
    (BconAdapterGetStatusMessage K statusToDecode mem pBuffer bufferSize pRequiredSize libc).2.2
      = (if pRequiredSize then
          some (strlen (errorMessageBuffer (libc (BconStatusToErrno K statusToDecode))) + 1)
         else none) ∧
    (BconAdapterGetStatusMessage K statusToDecode mem pBuffer bufferSize pRequiredSize libc).2.1
      (pBuffer + (bufferSize - 1)) = 0 ∧
    (∀ i, i < strlen (errorMessageBuffer (libc (BconStatusToErrno K statusToDecode))) →
      i < bufferSize - 1 →
      (BconAdapterGetStatusMessage K statusToDecode mem pBuffer bufferSize pRequiredSize
        libc).2.1 (pBuffer + i)
        = (errorMessageBuffer (libc (BconStatusToErrno K statusToDecode))).getD i 0 % 256) ∧
    (∀ i, strlen (errorMessageBuffer (libc (BconStatusToErrno K statusToDecode))) ≤ i →
      i < bufferSize - 1 →
      (BconAdapterGetStatusMessage K statusToDecode mem pBuffer bufferSize pRequiredSize
        libc).2.1 (pBuffer + i) = mem (pBuffer + i)) ∧
    (∀ a, a < pBuffer ∨ pBuffer + bufferSize ≤ a →
      (BconAdapterGetStatusMessage K statusToDecode mem pBuffer bufferSize pRequiredSize
        libc).2.1 a = mem a) := by
  unfold BconAdapterGetStatusMessage
  simp only [if_neg hfound, hp, hs, ne_eq, not_false_eq_true, and_self, if_true]
  refine ⟨trivial, trivial, by simp, ?_, ?_, ?_⟩
  · intro i hi hlt
    have h1 : ¬ (pBuffer + i = pBuffer + (bufferSize - 1)) := by omega
    simp only [if_neg h1, strncpy]
    have h2 : pBuffer ≤ pBuffer + i ∧ pBuffer + i < pBuffer + min bufferSize
        (strlen (errorMessageBuffer (libc (BconStatusToErrno K statusToDecode)))) := by
      constructor
      · omega
      · have := Nat.lt_min.mpr ⟨(by omega : i < bufferSize), hi⟩
        omega
    simp only [if_pos h2, Nat.add_sub_cancel_left, if_pos hi]
  · intro i hi hlt
    have h1 : ¬ (pBuffer + i = pBuffer + (bufferSize - 1)) := by omega
    simp only [if_neg h1, strncpy]
    have h2 : ¬ (pBuffer ≤ pBuffer + i ∧ pBuffer + i < pBuffer + min bufferSize
        (strlen (errorMessageBuffer (libc (BconStatusToErrno K statusToDecode))))) := by
      intro hc
      have := Nat.min_le_right bufferSize
        (strlen (errorMessageBuffer (libc (BconStatusToErrno K statusToDecode))))
      omega
    simp only [if_neg h2]
  · intro a ha
    have h1 : ¬ (a = pBuffer + (bufferSize - 1)) := by omega
    simp only [if_neg h1, strncpy]
    have h2 : ¬ (pBuffer ≤ a ∧ a < pBuffer + min bufferSize
        (strlen (errorMessageBuffer (libc (BconStatusToErrno K statusToDecode))))) := by
      intro hc
      have := Nat.min_le_left bufferSize
        (strlen (errorMessageBuffer (libc (BconStatusToErrno K statusToDecode))))
      omega
    simp only [if_neg h2]

end BconAdapterZynq
